import Mathlib

/-!
# Daily trading journal lines (xeroInvoices)

A shallow embedding of the aggregation and journal-line construction of
`src/index.js` (`calculateStockTypeAmounts`, `calculatePaymentTypeAmounts`,
`buildReceiptJournalLines`, `buildJournalLines`, and `processBranchAndDate` from the
point where the records are fetched) with the reference tables of
`src/constants.js`, followed by theorems about them.

Modelling conventions.

* Amounts are exact rationals (`ℚ`); the threshold `0.01` is `1 / 100`.
* A JavaScript object used as a map is the list of its own properties in
  insertion order (`JsObject`); `Object.keys` is computed from it by the
  language rule (array-index keys first, ascending, then the others in
  insertion order). The members the object literal `{}` inherits from
  `Object.prototype` are taken into account where a read can see them
  (`objectPrototypeKeys`).
* A category identifier is a finite number, represented by the rational value of
  the decimal string that JavaScript prints for it. The property key it becomes
  is that string, which determines the number, so the key is kept as the number
  itself. `parseInt` of such a key (`parseIntKey`) reads the digits before the
  decimal point when the number is printed in plain decimal, and the leading
  digit when it is printed in exponent form (magnitude below `1e-6` or at least
  `1e21`, as in `4e+21`).
* A payment code is a string, compared by `Array.prototype.sort` through its
  UTF-16 code units.
* The value of an amount property is `undefined` (absent), `null`, a boolean, a
  number or a string; a non-empty string is represented by what `parseFloat`
  reads from it.
* Invoice records, receipt records and their items are JSON objects; the value
  of an item-list property is an array, another truthy value or a falsy value.
  The section on exceptions adds `null` as an element of a fetched array and,
  as the value of a property of an item, an object that has no primitive value,
  and makes the operations that can throw explicit.
* `forEach` loops over mutable locals are folds over an explicit state.
-/

namespace XeroInvoices

/-! ## JavaScript values -/

/-- Value of an amount property of a raw item. A non-empty string is kept together with the
reading `parseFloat` makes of it (`none` when the string does not start with a number). -/
inductive JsVal where
  | undefined
  | null
  | bool (b : Bool)
  | num (q : ℚ)
  | emptyStr
  | str (parsed : Option ℚ)
  deriving DecidableEq, Repr

/-- JavaScript truthiness of an amount value. -/
def JsVal.truthy : JsVal → Bool
  | .undefined => false
  | .null => false
  | .bool b => b
  | .num q => decide (q ≠ 0)
  | .emptyStr => false
  | .str _ => true

/-- The builtin `parseFloat`; `none` stands for `NaN`. -/
def parseFloat : JsVal → Option ℚ
  | .num q => some q
  | .str parsed => parsed
  | _ => none

/-- Truthiness of a category identifier property: absent (`none`) and `0` are falsy. -/
def idTruthy : Option ℚ → Bool
  | some q => decide (q ≠ 0)
  | none => false

/-- Truthiness of a payment code property: absent (`none`) and the empty string are falsy. -/
def codeTruthy : Option String → Bool
  | some s => decide (s ≠ "")
  | none => false

/-- The operator `a || b`: `a` when `a` is truthy, otherwise `b`. -/
def jsOr {α : Type} (truthy : α → Bool) (a b : α) : α :=
  if truthy a then a else b

/-- Value of an item-list property of a raw record. -/
inductive JsItems (α : Type) where
  | falsy
  | nonArray
  | array (elems : List α)
  deriving Repr

/-- Truthiness of an item-list value: every array, the empty one included, is truthy. -/
def JsItems.truthy {α : Type} : JsItems α → Bool
  | .falsy => false
  | .nonArray => true
  | .array _ => true

/-! ## JavaScript objects used as maps -/

/-- Own properties of an object, in insertion order. -/
abbrev JsObject (K V : Type) := List (K × V)

/-- Property read `obj[key]` on own properties; `none` stands for `undefined`. -/
def getProp {K V : Type} [DecidableEq K] : JsObject K V → K → Option V
  | [], _ => none
  | (k, v) :: rest, key => if k = key then some v else getProp rest key

/-- Property write `obj[key] = value`: replaces the value of an existing property in place,
otherwise adds the property last. -/
def setProp {K V : Type} [DecidableEq K] : JsObject K V → K → V → JsObject K V
  | [], key, value => [(key, value)]
  | (k, v) :: rest, key, value =>
    if k = key then (k, value) :: rest else (k, v) :: setProp rest key value

/-- Update `obj[key].field += x` of the bucket stored under `key`. -/
def updateProp {K V : Type} [DecidableEq K] (obj : JsObject K V) (key : K) (f : V → V) :
    JsObject K V :=
  obj.map fun e => if e.1 = key then (e.1, f e.2) else e

/-- The builtin `Object.keys`: array-index keys in ascending order, then the other keys in
insertion order. `index?` gives the value of a key that is an array index. -/
def objectKeys {K V : Type} (index? : K → Option ℕ) (obj : JsObject K V) : List K :=
  let keys := obj.map Prod.fst
  (keys.filter fun k => (index? k).isSome).insertionSort
      (fun a b => (index? a).getD 0 ≤ (index? b).getD 0)
    ++ keys.filter fun k => !(index? k).isSome

/-- Array index denoted by a numeric key: an integer from `0` to `2^32 - 2`. -/
def numIndex? (q : ℚ) : Option ℕ :=
  if q.den = 1 ∧ 0 ≤ q.num ∧ q.num ≤ 4294967294 then some q.num.toNat else none

/-- Array index denoted by a string key: a canonical decimal numeral from `0` to `2^32 - 2`. -/
def strIndex? (s : String) : Option ℕ :=
  let cs := s.toList
  if cs ≠ [] ∧ cs.all Char.isDigit = true ∧ (cs.head? ≠ some '0' ∨ cs.length = 1) then
    let n := cs.foldl (fun n c => 10 * n + (c.toNat - 48)) 0
    if n ≤ 4294967294 then some n else none
  else none

/-- Leading decimal digit of a positive natural number; `fuel` bounds the number of digits
that are dropped. -/
def leadingDigit : ℕ → ℕ → ℕ
  | 0, n => n
  | fuel + 1, n => if n < 10 then n else leadingDigit fuel (n / 10)

/-- First significant decimal digit of the positive fraction `a / b` below 1; `fuel` bounds
the number of zeros that precede it. -/
def firstSignificantDigit : ℕ → ℕ → ℕ → ℕ
  | 0, a, b => a / b
  | fuel + 1, a, b => if b ≤ a then a / b else firstSignificantDigit fuel (10 * a) b

/-- The builtin `parseInt` on the key of a numeric category identifier. The number `0` and a
number of magnitude from `1e-6` up to but excluding `1e21` are printed in plain decimal, and
`parseInt` reads the integer part, rounded toward zero. A number of magnitude `1e21` or more
is printed in exponent form (`4e+21`, `4.5e+21`), a non-zero number of magnitude below `1e-6`
too (`4.5e-7`), and `parseInt` reads the digit in front of the point or the `e`, with the
sign. -/
def parseIntKey (q : ℚ) : ℤ :=
  if q = 0 ∨ (1 / 10 ^ 6 ≤ |q| ∧ |q| < 10 ^ 21) then Int.tdiv q.num q.den
  else if 10 ^ 21 ≤ |q| then
    Int.sign q.num * (leadingDigit (q.num.natAbs / q.den) (q.num.natAbs / q.den) : ℕ)
  else Int.sign q.num * (firstSignificantDigit q.den q.num.natAbs q.den : ℕ)

/-! ## Reference tables (`src/constants.js`) -/

/-- Entry of `STOCK_TYPES`. -/
structure StockType where
  id : ℤ
  description : String
  accountCode : String
  deriving DecidableEq, Repr

/-- Entry of `PAYMENT_TYPES`. -/
structure PaymentType where
  code : String
  description : String
  accountCode : String
  deriving DecidableEq, Repr

/-- The table `STOCK_TYPES`. -/
def STOCK_TYPES : List StockType :=
  [ ⟨1, "Consultation Item", "82240"⟩,
    ⟨2, "Spectacle Frame", "40002"⟩,
    ⟨3, "Sunglasses", "40003"⟩,
    ⟨4, "Spectacle Lens", "40004"⟩,
    ⟨5, "Contact Lens", "40005"⟩,
    ⟨6, "Solution", "40006"⟩,
    ⟨7, "Other Item", "40006"⟩,
    ⟨8, "Spectacle Lens Addon", "40004"⟩,
    ⟨9, "Spectacle Lens Tint", "40004"⟩,
    ⟨10, "Contact Lens Tint", "40005"⟩ ]

/-- The constant `CLEARING_ACCOUNT_CODE`. -/
def CLEARING_ACCOUNT_CODE : String := "18011"

/-- The table `PAYMENT_TYPES`. -/
def PAYMENT_TYPES : List PaymentType :=
  [ ⟨"EFT", "EFTPOS - Cheque/Savings", "18001"⟩,
    ⟨"VIS", "EFTPOS - Visa", "18001"⟩,
    ⟨"MAS", "EFTPOS - MasterCard", "18001"⟩,
    ⟨"AMX", "EFTPOS - American Express", "18001"⟩,
    ⟨"DIN", "EFTPOS - Diners", "18001"⟩,
    ⟨"OTH", "EFTPOS - Other", "18001"⟩,
    ⟨"CAS", "Cash", "18000"⟩,
    ⟨"CHQ", "Cheque", "18000"⟩,
    ⟨"VOU", "Voucher", "63071"⟩,
    ⟨"DDP", "Direct Deposit", "18005"⟩,
    ⟨"HFD", "Health Fund", "18003"⟩,
    ⟨"AFT", "Pay Later - Afterpay", "18004"⟩,
    ⟨"ZIP", "Pay Later - zipPay", "18004"⟩,
    ⟨"OPN", "Pay Later - Openpay", "18004"⟩,
    ⟨"OTP", "Pay Later - Other", "18004"⟩,
    ⟨"LAT", "Pay Later - LatitudePay", "18004"⟩ ]

/-- The function `getStockTypeInfo`: first entry of `STOCK_TYPES` with the given id. -/
def getStockTypeInfo (stockTypeId : ℤ) : Option StockType :=
  STOCK_TYPES.find? fun st => decide (st.id = stockTypeId)

/-- The function `getPaymentTypeInfo`: first entry of `PAYMENT_TYPES` with the given code. -/
def getPaymentTypeInfo (paymentTypeCode : String) : Option PaymentType :=
  PAYMENT_TYPES.find? fun pt => decide (pt.code = paymentTypeCode)

/-! ## Invoice aggregation (`calculateStockTypeAmounts`) -/

/-- Raw invoice line item, with the three accepted spellings of each property. -/
structure InvoiceItem where
  STOCK_TYPE_ID : Option ℚ := none
  StockTypeId : Option ℚ := none
  stock_type_id : Option ℚ := none
  TOTAL : JsVal := .undefined
  Total : JsVal := .undefined
  total : JsVal := .undefined
  GST_AMOUNT : JsVal := .undefined
  GstAmount : JsVal := .undefined
  gst_amount : JsVal := .undefined
  deriving DecidableEq, Repr

/-- Raw invoice record, with the three accepted spellings of its item list. -/
structure Invoice where
  ITEMS : JsItems InvoiceItem := .falsy
  Items : JsItems InvoiceItem := .falsy
  items : JsItems InvoiceItem := .falsy
  deriving Repr

/-- Accumulator kept per category in `stockTypeMap`. -/
structure StockBucket where
  totalPositive : ℚ
  totalNegative : ℚ
  gstPositive : ℚ
  gstNegative : ℚ
  deriving DecidableEq, Repr

/-- Net amounts of a category, as stored in the result of `calculateStockTypeAmounts`. -/
structure StockNet where
  netTotal : ℚ
  netGst : ℚ
  deriving DecidableEq, Repr

/-- The expression `item.STOCK_TYPE_ID || item.StockTypeId || item.stock_type_id`. -/
def stockTypeIdOf (item : InvoiceItem) : Option ℚ :=
  jsOr idTruthy (jsOr idTruthy item.STOCK_TYPE_ID item.StockTypeId) item.stock_type_id

/-- The expression `item.TOTAL || item.Total || item.total || 0`. -/
def totalArg (item : InvoiceItem) : JsVal :=
  jsOr JsVal.truthy (jsOr JsVal.truthy (jsOr JsVal.truthy item.TOTAL item.Total) item.total)
    (.num 0)

/-- The expression `item.GST_AMOUNT || item.GstAmount || item.gst_amount || 0`. -/
def gstAmountArg (item : InvoiceItem) : JsVal :=
  jsOr JsVal.truthy
    (jsOr JsVal.truthy (jsOr JsVal.truthy item.GST_AMOUNT item.GstAmount) item.gst_amount)
    (.num 0)

/-- The update of the total buckets: a positive total is added to `totalPositive`, the
absolute value of a negative one to `totalNegative`; `0` and `NaN` change nothing. -/
def addTotal (total : Option ℚ) (b : StockBucket) : StockBucket :=
  match total with
  | some t =>
    if t > 0 then { b with totalPositive := b.totalPositive + t }
    else if t < 0 then { b with totalNegative := b.totalNegative + |t| }
    else b
  | none => b

/-- The update of the GST buckets, as `addTotal`. -/
def addGst (gstAmount : Option ℚ) (b : StockBucket) : StockBucket :=
  match gstAmount with
  | some g =>
    if g > 0 then { b with gstPositive := b.gstPositive + g }
    else if g < 0 then { b with gstNegative := b.gstNegative + |g| }
    else b
  | none => b

/-- Body of the inner `items.forEach` of `calculateStockTypeAmounts`: one item applied to
`stockTypeMap`. -/
def addInvoiceItem (stockTypeMap : JsObject ℚ StockBucket) (item : InvoiceItem) :
    JsObject ℚ StockBucket :=
  match stockTypeIdOf item with
  | none => stockTypeMap
  | some stockTypeId =>
    if stockTypeId = 0 then stockTypeMap
    else
      let total := parseFloat (totalArg item)
      let gstAmount := parseFloat (gstAmountArg item)
      if total.isNone ∧ gstAmount.isNone then stockTypeMap
      else
        let map1 :=
          if (getProp stockTypeMap stockTypeId).isNone then
            setProp stockTypeMap stockTypeId ⟨0, 0, 0, 0⟩
          else stockTypeMap
        let map2 := updateProp map1 stockTypeId (addTotal total)
        updateProp map2 stockTypeId (addGst gstAmount)

/-- The expression `invoice.ITEMS || invoice.Items || invoice.items || []`. -/
def invoiceItems (invoice : Invoice) : JsItems InvoiceItem :=
  jsOr JsItems.truthy
    (jsOr JsItems.truthy (jsOr JsItems.truthy invoice.ITEMS invoice.Items) invoice.items)
    (.array [])

/-- Body of the outer `invoices.forEach`: one invoice applied to `stockTypeMap`; a record
whose item list is not an array is passed over. -/
def addInvoice (stockTypeMap : JsObject ℚ StockBucket) (invoice : Invoice) :
    JsObject ℚ StockBucket :=
  match invoiceItems invoice with
  | .array items => items.foldl addInvoiceItem stockTypeMap
  | _ => stockTypeMap

/-- Body of the final `Object.keys(stockTypeMap).forEach`: the net amounts of one category,
kept when one of them exceeds the threshold. -/
def addStockNet (stockTypeMap : JsObject ℚ StockBucket) (result : JsObject ℚ StockNet)
    (stockTypeId : ℚ) : JsObject ℚ StockNet :=
  match getProp stockTypeMap stockTypeId with
  | none => result
  | some b =>
    let netTotal := b.totalPositive - b.totalNegative
    let netGst := b.gstPositive - b.gstNegative
    if |netTotal| > 1 / 100 ∨ |netGst| > 1 / 100 then
      setProp result stockTypeId ⟨netTotal, netGst⟩
    else result

/-- The map `stockTypeMap` at the end of the two nested loops. -/
def stockTypeMapOf (invoices : List Invoice) : JsObject ℚ StockBucket :=
  invoices.foldl addInvoice []

/-- The function `calculateStockTypeAmounts`. -/
def calculateStockTypeAmounts (invoices : List Invoice) (branchIdentifier : String) :
    JsObject ℚ StockNet :=
  let _ := branchIdentifier
  let stockTypeMap := stockTypeMapOf invoices
  (objectKeys numIndex? stockTypeMap).foldl (addStockNet stockTypeMap) []

/-! ## Receipt aggregation (`calculatePaymentTypeAmounts`) -/

/-- Raw receipt item, with the three accepted spellings of each property. -/
structure ReceiptItem where
  PAYMENT_TYPE_CODE : Option String := none
  PaymentTypeCode : Option String := none
  payment_type_code : Option String := none
  AMOUNT : JsVal := .undefined
  Amount : JsVal := .undefined
  amount : JsVal := .undefined
  deriving DecidableEq, Repr

/-- Raw receipt record, with the three accepted spellings of its item list. -/
structure Receipt where
  RECEIPT_ITEMS : JsItems ReceiptItem := .falsy
  ReceiptItems : JsItems ReceiptItem := .falsy
  receipt_items : JsItems ReceiptItem := .falsy
  deriving Repr

/-- Accumulator kept per payment code in `paymentTypeMap`. -/
structure PaymentBucket where
  positiveSum : ℚ
  negativeSum : ℚ
  deriving DecidableEq, Repr

/-- Names of the members that the object literal `{}` inherits from `Object.prototype`. A read
`paymentTypeMap[code]` with one of these names and no own property of that name yields the
inherited member, which is truthy. No numeral is among them, so reads of `stockTypeMap`, whose
keys are numerals, only ever see own properties. -/
def objectPrototypeKeys : List String :=
  [ "constructor", "__defineGetter__", "__defineSetter__", "hasOwnProperty",
    "__lookupGetter__", "__lookupSetter__", "isPrototypeOf", "propertyIsEnumerable",
    "toString", "valueOf", "__proto__", "toLocaleString" ]

/-- The expression `item.PAYMENT_TYPE_CODE || item.PaymentTypeCode || item.payment_type_code`. -/
def paymentTypeCodeOf (item : ReceiptItem) : Option String :=
  jsOr codeTruthy (jsOr codeTruthy item.PAYMENT_TYPE_CODE item.PaymentTypeCode)
    item.payment_type_code

/-- The expression `item.AMOUNT || item.Amount || item.amount || 0`. -/
def amountArg (item : ReceiptItem) : JsVal :=
  jsOr JsVal.truthy (jsOr JsVal.truthy (jsOr JsVal.truthy item.AMOUNT item.Amount) item.amount)
    (.num 0)

/-- The update of a payment bucket: a positive amount is added to `positiveSum`, the absolute
value of any other amount to `negativeSum`. -/
def addAmount (amount : ℚ) (b : PaymentBucket) : PaymentBucket :=
  if amount > 0 then { b with positiveSum := b.positiveSum + amount }
  else { b with negativeSum := b.negativeSum + |amount| }

/-- Body of the inner `items.forEach` of `calculatePaymentTypeAmounts`: one item applied to
`paymentTypeMap`. The test `!paymentTypeMap[code]` holds when the map has no own property
`code` and inherits none; the update that follows changes an own bucket only (with an inherited
member it lands on that member and leaves the map as it is). -/
def addReceiptItem (paymentTypeMap : JsObject String PaymentBucket) (item : ReceiptItem) :
    JsObject String PaymentBucket :=
  match paymentTypeCodeOf item with
  | none => paymentTypeMap
  | some paymentTypeCode =>
    if paymentTypeCode = "" then paymentTypeMap
    else
      match parseFloat (amountArg item) with
      | none => paymentTypeMap
      | some amount =>
        let map1 :=
          if (getProp paymentTypeMap paymentTypeCode).isNone
              ∧ paymentTypeCode ∉ objectPrototypeKeys then
            setProp paymentTypeMap paymentTypeCode ⟨0, 0⟩
          else paymentTypeMap
        updateProp map1 paymentTypeCode (addAmount amount)

/-- The expression `receipt.RECEIPT_ITEMS || receipt.ReceiptItems || receipt.receipt_items || []`. -/
def receiptItems (receipt : Receipt) : JsItems ReceiptItem :=
  jsOr JsItems.truthy
    (jsOr JsItems.truthy (jsOr JsItems.truthy receipt.RECEIPT_ITEMS receipt.ReceiptItems)
      receipt.receipt_items)
    (.array [])

/-- Body of the outer `receipts.forEach`: one receipt applied to `paymentTypeMap`. -/
def addReceipt (paymentTypeMap : JsObject String PaymentBucket) (receipt : Receipt) :
    JsObject String PaymentBucket :=
  match receiptItems receipt with
  | .array items => items.foldl addReceiptItem paymentTypeMap
  | _ => paymentTypeMap

/-- Body of the final `Object.keys(paymentTypeMap).forEach`: the net amount of one payment
code, kept when it exceeds the threshold. -/
def addPaymentNet (paymentTypeMap : JsObject String PaymentBucket) (result : JsObject String ℚ)
    (paymentTypeCode : String) : JsObject String ℚ :=
  match getProp paymentTypeMap paymentTypeCode with
  | none => result
  | some b =>
    let netAmount := b.positiveSum - b.negativeSum
    if |netAmount| > 1 / 100 then setProp result paymentTypeCode netAmount else result

/-- The map `paymentTypeMap` at the end of the two nested loops. -/
def paymentTypeMapOf (receipts : List Receipt) : JsObject String PaymentBucket :=
  receipts.foldl addReceipt []

/-- The function `calculatePaymentTypeAmounts`. -/
def calculatePaymentTypeAmounts (receipts : List Receipt) : JsObject String ℚ :=
  let paymentTypeMap := paymentTypeMapOf receipts
  (objectKeys strIndex? paymentTypeMap).foldl (addPaymentNet paymentTypeMap) []

/-! ## Journal lines -/

/-- Element of the `Tracking` array of a journal line. -/
structure TrackingCategory where
  Name : String
  Option : String
  deriving DecidableEq, Repr

/-- Journal line of a manual journal. -/
structure JournalLine where
  Description : String
  LineAmount : ℚ
  AccountCode : String
  TaxType : String
  Tracking : List TrackingCategory
  deriving DecidableEq, Repr

/-- The line pushed for a category or payment method: a credit of the absolute amount. -/
def contentLine (description accountCode taxType : String) (amount : ℚ) (branchName : String) :
    JournalLine :=
  { Description := description
    LineAmount := -|amount|
    AccountCode := accountCode
    TaxType := taxType
    Tracking := [⟨"Store", branchName⟩] }

/-- The line pushed to balance a stage: a debit of the accumulated total on the clearing
account. -/
def clearingLine (total : ℚ) (branchName : String) : JournalLine :=
  { Description := "POS Clearing"
    LineAmount := total
    AccountCode := CLEARING_ACCOUNT_CODE
    TaxType := "NONE"
    Tracking := [⟨"Store", branchName⟩] }

/-- UTF-16 code units of a character. -/
def utf16Units (c : Char) : List ℕ :=
  if c.toNat < 65536 then [c.toNat]
  else [55296 + (c.toNat - 65536) / 1024, 56320 + (c.toNat - 65536) % 1024]

/-- UTF-16 code units of a string, the representation JavaScript compares strings by. -/
def toUTF16 (s : String) : List ℕ :=
  s.toList.flatMap utf16Units

/-- Lexicographic comparison of code-unit sequences. -/
def unitsLE : List ℕ → List ℕ → Bool
  | [], _ => true
  | _ :: _, [] => false
  | a :: as, b :: bs => decide (a < b) || (decide (a = b) && unitsLE as bs)

/-- Order used by `Array.prototype.sort` without a comparator. -/
def defaultSortLE (a b : String) : Prop :=
  unitsLE (toUTF16 a) (toUTF16 b) = true

instance : DecidableRel defaultSortLE :=
  fun a b => inferInstanceAs (Decidable (unitsLE (toUTF16 a) (toUTF16 b) = true))

/-- Order induced by the comparator `(a, b) => parseInt(a) - parseInt(b)`. -/
def parseIntLE (a b : ℚ) : Prop :=
  parseIntKey a ≤ parseIntKey b

instance : DecidableRel parseIntLE :=
  fun a b => inferInstanceAs (Decidable (parseIntKey a ≤ parseIntKey b))

/-- The local variables `journalLines` and `totalPaymentAmount` of
`buildReceiptJournalLines`. -/
structure ReceiptLinesState where
  journalLines : List JournalLine
  totalPaymentAmount : ℚ
  deriving DecidableEq, Repr

/-- Body of `sortedPaymentCodes.forEach` in `buildReceiptJournalLines`. -/
def addPaymentLine (paymentTypeAmounts : JsObject String ℚ) (branchName : String)
    (st : ReceiptLinesState) (paymentTypeCode : String) : ReceiptLinesState :=
  match getProp paymentTypeAmounts paymentTypeCode with
  | none => st
  | some netAmount =>
    match getPaymentTypeInfo paymentTypeCode with
    | none => st
    | some paymentTypeInfo =>
      if |netAmount| > 1 / 100 then
        { journalLines := st.journalLines ++
            [contentLine paymentTypeInfo.description paymentTypeInfo.accountCode "NONE"
              netAmount branchName]
          totalPaymentAmount := st.totalPaymentAmount + |netAmount| }
      else st

/-- The part of `buildReceiptJournalLines` that follows the aggregation. -/
def receiptLinesOf (paymentTypeAmounts : JsObject String ℚ) (branchName : String) :
    List JournalLine :=
  if (objectKeys strIndex? paymentTypeAmounts).length = 0 then []
  else
    let sortedPaymentCodes :=
      (objectKeys strIndex? paymentTypeAmounts).insertionSort defaultSortLE
    let st := sortedPaymentCodes.foldl (addPaymentLine paymentTypeAmounts branchName) ⟨[], 0⟩
    if |st.totalPaymentAmount| > 1 / 100 then
      st.journalLines ++ [clearingLine st.totalPaymentAmount branchName]
    else st.journalLines

/-- The function `buildReceiptJournalLines`. -/
def buildReceiptJournalLines (receipts : List Receipt) (branchName : String) :
    List JournalLine :=
  receiptLinesOf (calculatePaymentTypeAmounts receipts) branchName

/-- The local variables `journalLines`, `totalGstOnIncome` and `totalGstFreeIncome` of
`buildJournalLines`. -/
structure JournalLinesState where
  journalLines : List JournalLine
  totalGstOnIncome : ℚ
  totalGstFreeIncome : ℚ
  deriving DecidableEq, Repr

/-- Body of the first `sortedStockTypeIds.forEach` of `buildJournalLines` (GST on income). -/
def addGstOnIncomeLine (stockTypeAmounts : JsObject ℚ StockNet) (branchName : String)
    (st : JournalLinesState) (stockTypeId : ℚ) : JournalLinesState :=
  match getProp stockTypeAmounts stockTypeId with
  | none => st
  | some amounts =>
    match getStockTypeInfo (parseIntKey stockTypeId) with
    | none => st
    | some stockTypeInfo =>
      let gstOnIncome := amounts.netGst * 11
      if |gstOnIncome| > 1 / 100 then
        { st with
          journalLines := st.journalLines ++
            [contentLine stockTypeInfo.description stockTypeInfo.accountCode "OUTPUT"
              gstOnIncome branchName]
          totalGstOnIncome := st.totalGstOnIncome + |gstOnIncome| }
      else st

/-- Body of the second `sortedStockTypeIds.forEach` of `buildJournalLines` (GST free
income). -/
def addGstFreeIncomeLine (stockTypeAmounts : JsObject ℚ StockNet) (branchName : String)
    (st : JournalLinesState) (stockTypeId : ℚ) : JournalLinesState :=
  match getProp stockTypeAmounts stockTypeId with
  | none => st
  | some amounts =>
    match getStockTypeInfo (parseIntKey stockTypeId) with
    | none => st
    | some stockTypeInfo =>
      let gstOnIncome := amounts.netGst * 11
      let gstFreeIncome := amounts.netTotal - gstOnIncome
      if |gstFreeIncome| > 1 / 100 then
        { st with
          journalLines := st.journalLines ++
            [contentLine stockTypeInfo.description stockTypeInfo.accountCode "EXEMPTOUTPUT"
              gstFreeIncome branchName]
          totalGstFreeIncome := st.totalGstFreeIncome + |gstFreeIncome| }
      else st

/-- The function `buildJournalLines`. -/
def buildJournalLines (stockTypeAmounts : JsObject ℚ StockNet) (branchName : String) :
    List JournalLine :=
  let sortedStockTypeIds := (objectKeys numIndex? stockTypeAmounts).insertionSort parseIntLE
  let st0 : JournalLinesState := ⟨[], 0, 0⟩
  let st1 := sortedStockTypeIds.foldl (addGstOnIncomeLine stockTypeAmounts branchName) st0
  let st2 :=
    if |st1.totalGstOnIncome| > 1 / 100 then
      { st1 with
        journalLines := st1.journalLines ++ [clearingLine st1.totalGstOnIncome branchName] }
    else st1
  let st3 := sortedStockTypeIds.foldl (addGstFreeIncomeLine stockTypeAmounts branchName) st2
  let st4 :=
    if |st3.totalGstFreeIncome| > 1 / 100 then
      { st3 with
        journalLines := st3.journalLines ++ [clearingLine st3.totalGstFreeIncome branchName] }
    else st3
  st4.journalLines

/-! ## The journal document (`processBranchAndDate`) -/

/-- Entry of `BRANCHES`. -/
structure Branch where
  code : String
  name : String
  deriving DecidableEq, Repr

/-- The table `BRANCHES`. -/
def BRANCHES : List Branch :=
  [ ⟨"BKT", "Blacktown"⟩,
    ⟨"BON", "Bondi"⟩,
    ⟨"BUR", "Burwood"⟩,
    ⟨"CHC", "Chatswood Chase"⟩,
    ⟨"HOB", "Hornsby"⟩,
    ⟨"EMP", "Melbourne Emporium"⟩,
    ⟨"PA1", "Parramatta"⟩,
    ⟨"PEN", "Penrith"⟩,
    ⟨"ETG", "Eastgardens"⟩,
    ⟨"HUR", "Hurstville"⟩,
    ⟨"BOH", "Box Hill"⟩,
    ⟨"DON", "Doncaster"⟩,
    ⟨"CHW", "Chatswood Westfield"⟩,
    ⟨"MQU", "Macquarie"⟩,
    ⟨"TOP", "Top Ryde"⟩,
    ⟨"IND", "Indooroopilly"⟩ ]

/-- The function `getBranchName`: the name of the first entry of `BRANCHES` with the given
code, and the code itself when there is none. -/
def getBranchName (branchCode : String) : String :=
  match BRANCHES.find? fun b => decide (b.code = branchCode) with
  | some branch => branch.name
  | none => branchCode

/-- The object `manualJournalData` handed to `createManualJournal`. -/
structure ManualJournal where
  Date : String
  Status : String
  Narration : String
  LineAmountTypes : String
  ShowOnCashBasisReports : Bool
  JournalLines : List JournalLine
  deriving DecidableEq, Repr

/-- What `processBranchAndDate` does once the invoices and the receipts are fetched: it
returns `null` without posting, or it calls `createManualJournal` on a document and returns
the result of the call. -/
inductive Outcome (R : Type) where
  | nothingToPost
  | posted (manualJournalData : ManualJournal) (result : R)
  deriving DecidableEq, Repr

/-- The function `processBranchAndDate` from the point where `invoices` and `receipts` are
fetched. The two fetched arrays stand for the calls of `fetchOptomateInvoices` and
`fetchOptomateReceipts` (which use `date` and `limitFn`), and `createManualJournal` is the
posting collaborator. -/
def processBranchAndDate {R : Type} (createManualJournal : ManualJournal → R)
    (branchCode dateStr : String) (invoices : List Invoice) (receipts : List Receipt) :
    Outcome R :=
  let branchName := getBranchName branchCode
  let journalLines0 : List JournalLine := []
  let journalLines1 :=
    if invoices.length > 0 then
      let stockTypeAmounts := calculateStockTypeAmounts invoices branchCode
      if (objectKeys numIndex? stockTypeAmounts).length > 0 then
        buildJournalLines stockTypeAmounts branchName
      else journalLines0
    else journalLines0
  let journalLines2 :=
    if receipts.length > 0 then
      journalLines1 ++ buildReceiptJournalLines receipts branchName
    else journalLines1
  if journalLines2.length = 0 then Outcome.nothingToPost
  else
    let manualJournalData : ManualJournal :=
      { Date := dateStr
        Status := "DRAFT"
        Narration := "Daily Trading Sales and receipt"
        LineAmountTypes := "Inclusive"
        ShowOnCashBasisReports := false
        JournalLines := journalLines2 }
    Outcome.posted manualJournalData (createManualJournal manualJournalData)

/-! ## Exceptions

The functions above are the behaviour of the code when no exception is thrown. The functions
of this section make explicit the operations that can throw: a property read on `null` or
`undefined` (an element of a fetched array, a bucket read back from a map, the value
destructured in a loop over keys), the call `items.forEach` on a value that has no such
method, and the conversion of an object to a primitive value, which `parseFloat` performs on
its argument and a property read `map[key]` on its key. Elements of fetched arrays are JSON
values, an object or `null`; an element that is neither (a number, a string) has none of
the properties read here and behaves as the object without properties. A property of an
item holds a value of the kind described above or an object or array whose conversion to a
primitive value throws, such as `{ toString: 1 }`; an object or array whose conversion
succeeds is a truthy value with a `parseFloat` reading, as a non-empty string is. -/

/-- The exception these operations raise. -/
inductive JsError where
  | typeError
  deriving DecidableEq, Repr

deriving instance DecidableEq for Except

/-- A `forEach` loop whose body can throw: the first exception ends the loop. -/
def forEachE {σ α : Type} (body : σ → α → Except JsError σ) : σ → List α → Except JsError σ
  | s, [] => .ok s
  | s, a :: rest =>
    match body s a with
    | .ok s1 => forEachE body s1 rest
    | .error e => .error e

/-- The test `Array.isArray(items)`. -/
def JsItems.isArray {α : Type} : JsItems α → Bool
  | .array _ => true
  | _ => false

/-- Value of a property of a fetched item: a value of the kind the aggregation reads
(`value`), or an object or array whose conversion to a primitive value throws
(`unconvertible`), such as `{ toString: 1 }`. -/
inductive Fetched (α : Type) where
  | value (v : α)
  | unconvertible
  deriving DecidableEq, Repr

/-- Truthiness of a fetched value: an object or array is truthy. -/
def Fetched.truthy {α : Type} (truthy : α → Bool) : Fetched α → Bool
  | .value v => truthy v
  | .unconvertible => true

/-- The builtin `parseFloat`, with exceptions: the conversion of the argument to a string
throws on an object that has no primitive value. -/
def tryParseFloat : Fetched JsVal → Except JsError (Option ℚ)
  | .value v => .ok (parseFloat v)
  | .unconvertible => .error .typeError

/-- Raw invoice line item as fetched. -/
structure FetchedInvoiceItem where
  STOCK_TYPE_ID : Fetched (Option ℚ) := .value none
  StockTypeId : Fetched (Option ℚ) := .value none
  stock_type_id : Fetched (Option ℚ) := .value none
  TOTAL : Fetched JsVal := .value .undefined
  Total : Fetched JsVal := .value .undefined
  total : Fetched JsVal := .value .undefined
  GST_AMOUNT : Fetched JsVal := .value .undefined
  GstAmount : Fetched JsVal := .value .undefined
  gst_amount : Fetched JsVal := .value .undefined
  deriving DecidableEq, Repr

/-- Raw receipt item as fetched. -/
structure FetchedReceiptItem where
  PAYMENT_TYPE_CODE : Fetched (Option String) := .value none
  PaymentTypeCode : Fetched (Option String) := .value none
  payment_type_code : Fetched (Option String) := .value none
  AMOUNT : Fetched JsVal := .value .undefined
  Amount : Fetched JsVal := .value .undefined
  amount : Fetched JsVal := .value .undefined
  deriving DecidableEq, Repr

/-- Raw invoice record as fetched: an element of an item array is an item or `null`
(`none`). -/
structure FetchedInvoice where
  ITEMS : JsItems (Option FetchedInvoiceItem) := .falsy
  Items : JsItems (Option FetchedInvoiceItem) := .falsy
  items : JsItems (Option FetchedInvoiceItem) := .falsy
  deriving Repr

/-- Raw receipt record as fetched: an element of an item array is an item or `null`
(`none`). -/
structure FetchedReceipt where
  RECEIPT_ITEMS : JsItems (Option FetchedReceiptItem) := .falsy
  ReceiptItems : JsItems (Option FetchedReceiptItem) := .falsy
  receipt_items : JsItems (Option FetchedReceiptItem) := .falsy
  deriving Repr

/-- Body of the inner `items.forEach` of `calculateStockTypeAmounts`, with exceptions. The
read `item.STOCK_TYPE_ID` throws on `null`. After the test `!stockTypeId`, the two calls of
`parseFloat` throw on an amount that has no primitive value; after the test on `NaN`, the
read `stockTypeMap[stockTypeId]` throws on an identifier that has no primitive value, and
the reads `stockTypeMap[stockTypeId]` of the updates throw when there is no bucket (checked
here whether or not an update runs). -/
def tryAddInvoiceItem (stockTypeMap : JsObject ℚ StockBucket)
    (item : Option FetchedInvoiceItem) : Except JsError (JsObject ℚ StockBucket) :=
  match item with
  | none => .error .typeError
  | some item =>
    let stockTypeId :=
      jsOr (Fetched.truthy idTruthy)
        (jsOr (Fetched.truthy idTruthy) item.STOCK_TYPE_ID item.StockTypeId) item.stock_type_id
    let totalArg :=
      jsOr (Fetched.truthy JsVal.truthy)
        (jsOr (Fetched.truthy JsVal.truthy)
          (jsOr (Fetched.truthy JsVal.truthy) item.TOTAL item.Total) item.total)
        (.value (.num 0))
    let gstAmountArg :=
      jsOr (Fetched.truthy JsVal.truthy)
        (jsOr (Fetched.truthy JsVal.truthy)
          (jsOr (Fetched.truthy JsVal.truthy) item.GST_AMOUNT item.GstAmount) item.gst_amount)
        (.value (.num 0))
    if !Fetched.truthy idTruthy stockTypeId then .ok stockTypeMap
    else
      match tryParseFloat totalArg with
      | .error e => .error e
      | .ok total =>
        match tryParseFloat gstAmountArg with
        | .error e => .error e
        | .ok gstAmount =>
          if total.isNone ∧ gstAmount.isNone then .ok stockTypeMap
          else
            match stockTypeId with
            | .unconvertible => .error .typeError
            | .value none => .ok stockTypeMap
            | .value (some stockTypeId) =>
              let map1 :=
                if (getProp stockTypeMap stockTypeId).isNone then
                  setProp stockTypeMap stockTypeId ⟨0, 0, 0, 0⟩
                else stockTypeMap
              match getProp map1 stockTypeId with
              | none => .error .typeError
              | some _ =>
                let map2 := updateProp map1 stockTypeId (addTotal total)
                .ok (updateProp map2 stockTypeId (addGst gstAmount))

/-- Body of the outer `invoices.forEach`, with exceptions: the read `invoice.ITEMS` throws on
`null`; the guard `!items || !Array.isArray(items)` returns before `items.forEach` is called
on a value that is not an array. -/
def tryAddInvoice (stockTypeMap : JsObject ℚ StockBucket) (invoice : Option FetchedInvoice) :
    Except JsError (JsObject ℚ StockBucket) :=
  match invoice with
  | none => .error .typeError
  | some invoice =>
    let items :=
      jsOr JsItems.truthy
        (jsOr JsItems.truthy (jsOr JsItems.truthy invoice.ITEMS invoice.Items) invoice.items)
        (.array [])
    if !items.truthy || !items.isArray then .ok stockTypeMap
    else
      match items with
      | .array elems => forEachE tryAddInvoiceItem stockTypeMap elems
      | _ => .error .typeError

/-- Body of the final `Object.keys(stockTypeMap).forEach`, with exceptions: destructuring
`stockTypeMap[stockTypeId]` throws when the read yields `undefined`. -/
def tryAddStockNet (stockTypeMap : JsObject ℚ StockBucket) (result : JsObject ℚ StockNet)
    (stockTypeId : ℚ) : Except JsError (JsObject ℚ StockNet) :=
  match getProp stockTypeMap stockTypeId with
  | none => .error .typeError
  | some b =>
    let netTotal := b.totalPositive - b.totalNegative
    let netGst := b.gstPositive - b.gstNegative
    if |netTotal| > 1 / 100 ∨ |netGst| > 1 / 100 then
      .ok (setProp result stockTypeId ⟨netTotal, netGst⟩)
    else .ok result

/-- The function `calculateStockTypeAmounts`, with exceptions. -/
def tryCalculateStockTypeAmounts (invoices : List (Option FetchedInvoice))
    (branchIdentifier : String) : Except JsError (JsObject ℚ StockNet) :=
  let _ := branchIdentifier
  match forEachE tryAddInvoice [] invoices with
  | .error e => .error e
  | .ok stockTypeMap =>
    forEachE (tryAddStockNet stockTypeMap) [] (objectKeys numIndex? stockTypeMap)

/-- Body of the inner `items.forEach` of `calculatePaymentTypeAmounts`, with exceptions. The
read `item.PAYMENT_TYPE_CODE` throws on `null`. After the test `!paymentTypeCode`, the call
of `parseFloat` throws on an amount that has no primitive value; after the test on `NaN`,
the read `paymentTypeMap[paymentTypeCode]` throws on a code that has no primitive value, and
the read `paymentTypeMap[paymentTypeCode]` of the update throws when it yields `undefined`,
that is when the map has no own property of that name and inherits none. -/
def tryAddReceiptItem (paymentTypeMap : JsObject String PaymentBucket)
    (item : Option FetchedReceiptItem) : Except JsError (JsObject String PaymentBucket) :=
  match item with
  | none => .error .typeError
  | some item =>
    let paymentTypeCode :=
      jsOr (Fetched.truthy codeTruthy)
        (jsOr (Fetched.truthy codeTruthy) item.PAYMENT_TYPE_CODE item.PaymentTypeCode)
        item.payment_type_code
    let amountArg :=
      jsOr (Fetched.truthy JsVal.truthy)
        (jsOr (Fetched.truthy JsVal.truthy)
          (jsOr (Fetched.truthy JsVal.truthy) item.AMOUNT item.Amount) item.amount)
        (.value (.num 0))
    if !Fetched.truthy codeTruthy paymentTypeCode then .ok paymentTypeMap
    else
      match tryParseFloat amountArg with
      | .error e => .error e
      | .ok none => .ok paymentTypeMap
      | .ok (some amount) =>
        match paymentTypeCode with
        | .unconvertible => .error .typeError
        | .value none => .ok paymentTypeMap
        | .value (some paymentTypeCode) =>
          let map1 :=
            if (getProp paymentTypeMap paymentTypeCode).isNone
                ∧ paymentTypeCode ∉ objectPrototypeKeys then
              setProp paymentTypeMap paymentTypeCode ⟨0, 0⟩
            else paymentTypeMap
          if (getProp map1 paymentTypeCode).isNone
              ∧ paymentTypeCode ∉ objectPrototypeKeys then
            .error .typeError
          else .ok (updateProp map1 paymentTypeCode (addAmount amount))

/-- Body of the outer `receipts.forEach`, with exceptions. -/
def tryAddReceipt (paymentTypeMap : JsObject String PaymentBucket)
    (receipt : Option FetchedReceipt) : Except JsError (JsObject String PaymentBucket) :=
  match receipt with
  | none => .error .typeError
  | some receipt =>
    let items :=
      jsOr JsItems.truthy
        (jsOr JsItems.truthy (jsOr JsItems.truthy receipt.RECEIPT_ITEMS receipt.ReceiptItems)
          receipt.receipt_items)
        (.array [])
    if !items.truthy || !items.isArray then .ok paymentTypeMap
    else
      match items with
      | .array elems => forEachE tryAddReceiptItem paymentTypeMap elems
      | _ => .error .typeError

/-- Body of the final `Object.keys(paymentTypeMap).forEach`, with exceptions. -/
def tryAddPaymentNet (paymentTypeMap : JsObject String PaymentBucket)
    (result : JsObject String ℚ) (paymentTypeCode : String) :
    Except JsError (JsObject String ℚ) :=
  match getProp paymentTypeMap paymentTypeCode with
  | none => .error .typeError
  | some b =>
    let netAmount := b.positiveSum - b.negativeSum
    if |netAmount| > 1 / 100 then .ok (setProp result paymentTypeCode netAmount)
    else .ok result

/-- The function `calculatePaymentTypeAmounts`, with exceptions. -/
def tryCalculatePaymentTypeAmounts (receipts : List (Option FetchedReceipt)) :
    Except JsError (JsObject String ℚ) :=
  match forEachE tryAddReceipt [] receipts with
  | .error e => .error e
  | .ok paymentTypeMap =>
    forEachE (tryAddPaymentNet paymentTypeMap) [] (objectKeys strIndex? paymentTypeMap)

/-- Body of `sortedPaymentCodes.forEach`, with exceptions: nothing is read from `netAmount`,
a number, and `paymentTypeInfo` is read only after the guard `!paymentTypeInfo`. -/
def tryAddPaymentLine (paymentTypeAmounts : JsObject String ℚ) (branchName : String)
    (st : ReceiptLinesState) (paymentTypeCode : String) : Except JsError ReceiptLinesState :=
  .ok (addPaymentLine paymentTypeAmounts branchName st paymentTypeCode)

/-- The function `buildReceiptJournalLines`, with exceptions. -/
def tryBuildReceiptJournalLines (receipts : List (Option FetchedReceipt))
    (branchName : String) : Except JsError (List JournalLine) :=
  match tryCalculatePaymentTypeAmounts receipts with
  | .error e => .error e
  | .ok paymentTypeAmounts =>
    if (objectKeys strIndex? paymentTypeAmounts).length = 0 then .ok []
    else
      let sortedPaymentCodes :=
        (objectKeys strIndex? paymentTypeAmounts).insertionSort defaultSortLE
      match forEachE (tryAddPaymentLine paymentTypeAmounts branchName) ⟨[], 0⟩
          sortedPaymentCodes with
      | .error e => .error e
      | .ok st =>
        if |st.totalPaymentAmount| > 1 / 100 then
          .ok (st.journalLines ++ [clearingLine st.totalPaymentAmount branchName])
        else .ok st.journalLines

/-- Body of the first `sortedStockTypeIds.forEach` of `buildJournalLines`, with exceptions:
destructuring `stockTypeAmounts[stockTypeId]` throws when the read yields `undefined`;
`stockTypeInfo` is read only after the guard `!stockTypeInfo`. -/
def tryAddGstOnIncomeLine (stockTypeAmounts : JsObject ℚ StockNet) (branchName : String)
    (st : JournalLinesState) (stockTypeId : ℚ) : Except JsError JournalLinesState :=
  match getProp stockTypeAmounts stockTypeId with
  | none => .error .typeError
  | some _ => .ok (addGstOnIncomeLine stockTypeAmounts branchName st stockTypeId)

/-- Body of the second `sortedStockTypeIds.forEach` of `buildJournalLines`, with
exceptions. -/
def tryAddGstFreeIncomeLine (stockTypeAmounts : JsObject ℚ StockNet) (branchName : String)
    (st : JournalLinesState) (stockTypeId : ℚ) : Except JsError JournalLinesState :=
  match getProp stockTypeAmounts stockTypeId with
  | none => .error .typeError
  | some _ => .ok (addGstFreeIncomeLine stockTypeAmounts branchName st stockTypeId)

/-- The function `buildJournalLines`, with exceptions. -/
def tryBuildJournalLines (stockTypeAmounts : JsObject ℚ StockNet) (branchName : String) :
    Except JsError (List JournalLine) :=
  let sortedStockTypeIds := (objectKeys numIndex? stockTypeAmounts).insertionSort parseIntLE
  let st0 : JournalLinesState := ⟨[], 0, 0⟩
  match forEachE (tryAddGstOnIncomeLine stockTypeAmounts branchName) st0
      sortedStockTypeIds with
  | .error e => .error e
  | .ok st1 =>
    let st2 :=
      if |st1.totalGstOnIncome| > 1 / 100 then
        { st1 with
          journalLines := st1.journalLines ++ [clearingLine st1.totalGstOnIncome branchName] }
      else st1
    match forEachE (tryAddGstFreeIncomeLine stockTypeAmounts branchName) st2
        sortedStockTypeIds with
    | .error e => .error e
    | .ok st3 =>
      let st4 :=
        if |st3.totalGstFreeIncome| > 1 / 100 then
          { st3 with
            journalLines :=
              st3.journalLines ++ [clearingLine st3.totalGstFreeIncome branchName] }
        else st3
      .ok st4.journalLines

/-! ## Definitions used to state the theorems -/

/-- Sum of the `LineAmount`s of a list of journal lines. -/
def lineSum (lines : List JournalLine) : ℚ :=
  (lines.map fun l => l.LineAmount).sum

/-- The line that the GST-on-income loop pushes for a key, if it pushes one. -/
def gstOnIncomeLine? (stockTypeAmounts : JsObject ℚ StockNet) (branchName : String)
    (stockTypeId : ℚ) : Option JournalLine :=
  match getProp stockTypeAmounts stockTypeId with
  | none => none
  | some amounts =>
    match getStockTypeInfo (parseIntKey stockTypeId) with
    | none => none
    | some info =>
      if |amounts.netGst * 11| > 1 / 100 then
        some (contentLine info.description info.accountCode "OUTPUT" (amounts.netGst * 11)
          branchName)
      else none

/-- The line that the GST-free-income loop pushes for a key, if it pushes one. -/
def gstFreeIncomeLine? (stockTypeAmounts : JsObject ℚ StockNet) (branchName : String)
    (stockTypeId : ℚ) : Option JournalLine :=
  match getProp stockTypeAmounts stockTypeId with
  | none => none
  | some amounts =>
    match getStockTypeInfo (parseIntKey stockTypeId) with
    | none => none
    | some info =>
      if |amounts.netTotal - amounts.netGst * 11| > 1 / 100 then
        some (contentLine info.description info.accountCode "EXEMPTOUTPUT"
          (amounts.netTotal - amounts.netGst * 11) branchName)
      else none

/-- The line that the receipt loop pushes for a payment code, if it pushes one. -/
def paymentLine? (paymentTypeAmounts : JsObject String ℚ) (branchName : String)
    (paymentTypeCode : String) : Option JournalLine :=
  match getProp paymentTypeAmounts paymentTypeCode with
  | none => none
  | some netAmount =>
    match getPaymentTypeInfo paymentTypeCode with
    | none => none
    | some info =>
      if |netAmount| > 1 / 100 then
        some (contentLine info.description info.accountCode "NONE" netAmount branchName)
      else none

/-- The clearing line appended after a stage whose content lines are `lines`: present when
the accumulated total exceeds the threshold. -/
def clearingOf (lines : List JournalLine) (branchName : String) : List JournalLine :=
  if |(-lineSum lines)| > 1 / 100 then [clearingLine (-lineSum lines) branchName] else []

/-- The keys in the order in which `buildJournalLines` visits them. -/
def sortedStockTypeIds (stockTypeAmounts : JsObject ℚ StockNet) : List ℚ :=
  (objectKeys numIndex? stockTypeAmounts).insertionSort parseIntLE

/-- The codes in the order in which `buildReceiptJournalLines` visits them. -/
def sortedPaymentCodes (paymentTypeAmounts : JsObject String ℚ) : List String :=
  (objectKeys strIndex? paymentTypeAmounts).insertionSort defaultSortLE

/-- Keys of a list of own properties, in insertion order. -/
def keysOf {K V : Type} (obj : JsObject K V) : List K :=
  obj.map Prod.fst

/-- Keys after a bucket for `key` has been created if there was none. -/
def insertKey {K : Type} [DecidableEq K] (keys : List K) (key : K) : List K :=
  if key ∈ keys then keys else keys ++ [key]

/-- The step shared by the two aggregators: create the bucket of `e.1` with value `zero` when
the map has none, then apply the update `e.2` to it. -/
def upsert {K V : Type} [DecidableEq K] (zero : V) (obj : JsObject K V) (e : K × (V → V)) :
    JsObject K V :=
  updateProp (if (getProp obj e.1).isNone then setProp obj e.1 zero else obj) e.1 e.2

/-- The updates of a list, applied in order to a bucket. -/
def applyAll {V : Type} (fs : List (V → V)) (v : V) : V :=
  fs.foldl (fun b f => f b) v

/-- The order in which `Object.keys` lists keys given in insertion order. -/
def arrangeKeys {K : Type} (index? : K → Option ℕ) (keys : List K) : List K :=
  (keys.filter fun k => (index? k).isSome).insertionSort
      (fun a b => (index? a).getD 0 ≤ (index? b).getD 0)
    ++ keys.filter fun k => !(index? k).isSome

/-- The entry that the final loop of an aggregator writes for a key: the net value `net?`
computes from the bucket, when it keeps one. -/
def netEntry {K V N : Type} [DecidableEq K] (net? : V → Option N) (obj : JsObject K V)
    (key : K) : Option (K × N) :=
  match getProp obj key with
  | none => none
  | some b =>
    match net? b with
    | none => none
    | some n => some (key, n)

/-- The result object of an aggregator, computed from its bucket map. -/
def netsOf {K V N : Type} [DecidableEq K] (index? : K → Option ℕ) (net? : V → Option N)
    (obj : JsObject K V) : JsObject K N :=
  (objectKeys index? obj).filterMap (netEntry net? obj)

/-- The net amounts kept for a stock bucket: both nets, when one of them exceeds the
threshold. -/
def stockNet? (b : StockBucket) : Option StockNet :=
  if |b.totalPositive - b.totalNegative| > 1 / 100 ∨ |b.gstPositive - b.gstNegative| > 1 / 100
  then some ⟨b.totalPositive - b.totalNegative, b.gstPositive - b.gstNegative⟩
  else none

/-- The net amount kept for a payment bucket, when it exceeds the threshold. -/
def paymentNet? (b : PaymentBucket) : Option ℚ :=
  if |b.positiveSum - b.negativeSum| > 1 / 100 then some (b.positiveSum - b.negativeSum)
  else none

/-- The step shared by the final loops of the two aggregators. -/
def addNet {K V N : Type} [DecidableEq K] (net? : V → Option N) (obj : JsObject K V)
    (result : JsObject K N) (key : K) : JsObject K N :=
  match netEntry net? obj key with
  | none => result
  | some e => setProp result e.1 e.2

/-- The item list of an invoice that the aggregator iterates over: empty unless the resolved
value is an array. -/
def invoiceItemList (invoice : Invoice) : List InvoiceItem :=
  match invoiceItems invoice with
  | .array items => items
  | _ => []

/-- All the line items of a list of invoices, in the order in which they are visited. -/
def allInvoiceItems (invoices : List Invoice) : List InvoiceItem :=
  invoices.flatMap invoiceItemList

/-- An invoice item is skipped when it has no truthy category identifier or when its total
and its GST amount both fail to parse. -/
def invoiceItemSkipped (item : InvoiceItem) : Bool :=
  !idTruthy (stockTypeIdOf item)
    || ((parseFloat (totalArg item)).isNone && (parseFloat (gstAmountArg item)).isNone)

/-- The category, parsed total and parsed GST amount of an invoice item that is not
skipped. -/
def invoiceEntry? (item : InvoiceItem) : Option (ℚ × Option ℚ × Option ℚ) :=
  match stockTypeIdOf item with
  | none => none
  | some stockTypeId =>
    if invoiceItemSkipped item then none
    else some (stockTypeId, parseFloat (totalArg item), parseFloat (gstAmountArg item))

/-- The bucket update made for an invoice entry. -/
def stockUpdate (e : ℚ × Option ℚ × Option ℚ) : ℚ × (StockBucket → StockBucket) :=
  (e.1, fun b => addGst e.2.2 (addTotal e.2.1 b))

/-- The entries of the invoice items that are not skipped, in order. -/
def invoiceEntries (invoices : List Invoice) : List (ℚ × Option ℚ × Option ℚ) :=
  (allInvoiceItems invoices).filterMap invoiceEntry?

/-- The item list of a receipt that the aggregator iterates over: empty unless the resolved
value is an array. -/
def receiptItemList (receipt : Receipt) : List ReceiptItem :=
  match receiptItems receipt with
  | .array items => items
  | _ => []

/-- All the receipt items of a list of receipts, in the order in which they are visited. -/
def allReceiptItems (receipts : List Receipt) : List ReceiptItem :=
  receipts.flatMap receiptItemList

/-- A receipt item is skipped when it has no truthy payment code or when its amount fails to
parse. -/
def receiptItemSkipped (item : ReceiptItem) : Bool :=
  !codeTruthy (paymentTypeCodeOf item) || (parseFloat (amountArg item)).isNone

/-- The payment code and parsed amount of a receipt item that is not skipped and whose code
is not the name of a member inherited from `Object.prototype`. -/
def receiptEntry? (item : ReceiptItem) : Option (String × ℚ) :=
  match paymentTypeCodeOf item, parseFloat (amountArg item) with
  | some paymentTypeCode, some amount =>
    if paymentTypeCode = "" ∨ paymentTypeCode ∈ objectPrototypeKeys then none
    else some (paymentTypeCode, amount)
  | _, _ => none

/-- The bucket update made for a receipt entry. -/
def paymentUpdate (e : String × ℚ) : String × (PaymentBucket → PaymentBucket) :=
  (e.1, addAmount e.2)

/-- The entries of the receipt items that reach a bucket, in order. -/
def receiptEntries (receipts : List Receipt) : List (String × ℚ) :=
  (allReceiptItems receipts).filterMap receiptEntry?

/-- An item-list value with the elements failing `keep` removed from an array; other values
are left as they are. -/
def JsItems.filterElems {α : Type} (keep : α → Bool) : JsItems α → JsItems α
  | .falsy => .falsy
  | .nonArray => .nonArray
  | .array elems => .array (elems.filter keep)

/-- An invoice with the items failing `keep` removed from its item lists. -/
def removeInvoiceItems (keep : InvoiceItem → Bool) (invoice : Invoice) : Invoice :=
  { ITEMS := invoice.ITEMS.filterElems keep
    Items := invoice.Items.filterElems keep
    items := invoice.items.filterElems keep }

/-- A receipt with the items failing `keep` removed from its item lists. -/
def removeReceiptItems (keep : ReceiptItem → Bool) (receipt : Receipt) : Receipt :=
  { RECEIPT_ITEMS := receipt.RECEIPT_ITEMS.filterElems keep
    ReceiptItems := receipt.ReceiptItems.filterElems keep
    receipt_items := receipt.receipt_items.filterElems keep }

/-- The invoice items of a category that are not skipped. -/
def categoryItems (invoices : List Invoice) (c : ℚ) : List InvoiceItem :=
  (allInvoiceItems invoices).filter fun item =>
    !invoiceItemSkipped item && decide (stockTypeIdOf item = some c)

/-- Plain signed sum of the parsed totals of the items of a category that are not skipped. -/
def signedTotal (invoices : List Invoice) (c : ℚ) : ℚ :=
  ((categoryItems invoices c).filterMap fun item => parseFloat (totalArg item)).sum

/-- Plain signed sum of the parsed GST amounts of the items of a category that are not
skipped. -/
def signedGst (invoices : List Invoice) (c : ℚ) : ℚ :=
  ((categoryItems invoices c).filterMap fun item => parseFloat (gstAmountArg item)).sum

/-- The receipt items of a payment code that are not skipped. -/
def codeItems (receipts : List Receipt) (code : String) : List ReceiptItem :=
  (allReceiptItems receipts).filter fun item =>
    !receiptItemSkipped item && decide (paymentTypeCodeOf item = some code)

/-- Plain signed sum of the parsed amounts of the items of a payment code that are not
skipped. -/
def signedAmount (receipts : List Receipt) (code : String) : ℚ :=
  ((codeItems receipts code).filterMap fun item => parseFloat (amountArg item)).sum

/-- A category identifier that is not an id of `STOCK_TYPES`. -/
def notInStockTypes (q : ℚ) : Bool :=
  decide (∀ st ∈ STOCK_TYPES, (st.id : ℚ) ≠ q)

/-- A payment code that is not a code of `PAYMENT_TYPES`. -/
def notInPaymentTypes (code : String) : Bool :=
  decide (∀ pt ∈ PAYMENT_TYPES, pt.code ≠ code)

/-- An invoice item whose category identifier is not an id of `STOCK_TYPES`. -/
def hasIdOutsideStockTypes (item : InvoiceItem) : Bool :=
  match stockTypeIdOf item with
  | some q => notInStockTypes q
  | none => false

/-- An integer category identifier that JavaScript prints in plain decimal: an integer of
magnitude below `1e21`. -/
def plainInteger (q : ℚ) : Prop :=
  q.den = 1 ∧ |q| < 10 ^ 21

instance : DecidablePred plainInteger :=
  fun q => inferInstanceAs (Decidable (q.den = 1 ∧ |q| < 10 ^ 21))

/-- An invoice item whose category identifier is an integer of magnitude below `1e21` that is
not an id of `STOCK_TYPES`. -/
def hasIntegerIdOutsideStockTypes (item : InvoiceItem) : Bool :=
  match stockTypeIdOf item with
  | some q => decide (plainInteger q) && notInStockTypes q
  | none => false

/-- An invoice item whose category identifier is not read as an id of `STOCK_TYPES`: the
lookup `getStockTypeInfo(parseInt(key))` of its key finds no entry. -/
def hasUnresolvedId (item : InvoiceItem) : Bool :=
  match stockTypeIdOf item with
  | some q => (getStockTypeInfo (parseIntKey q)).isNone
  | none => false

/-- A receipt item whose payment code is not a code of `PAYMENT_TYPES`. -/
def hasCodeOutsidePaymentTypes (item : ReceiptItem) : Bool :=
  match paymentTypeCodeOf item with
  | some code => notInPaymentTypes code
  | none => false

/-- The first alias that is present, as the specification words it: the first value of the
list that is not `undefined`, and `undefined` when there is none. -/
def firstPresent (aliases : List JsVal) : JsVal :=
  (aliases.find? fun v => decide (v ≠ JsVal.undefined)).getD JsVal.undefined

/-- The first alias that is present, for a category identifier: the first value of the list
that is not absent. -/
def firstPresentId (aliases : List (Option ℚ)) : Option ℚ :=
  (aliases.find? fun v => v.isSome).getD none

/-- The lines of the taxable-income stage as the specification words them: one OUTPUT line
per entry of `STOCK_TYPES`, in the order of the table, whose category is a key of the map
with `abs(11 * netGst) > 0.01`. -/
def taxableIncomeLines (stockTypeAmounts : JsObject ℚ StockNet) (branchName : String) :
    List JournalLine :=
  STOCK_TYPES.filterMap fun st =>
    match getProp stockTypeAmounts (st.id : ℚ) with
    | none => none
    | some amounts =>
      if |11 * amounts.netGst| > 1 / 100 then
        some
          { Description := st.description
            LineAmount := -|11 * amounts.netGst|
            AccountCode := st.accountCode
            TaxType := "OUTPUT"
            Tracking := [⟨"Store", branchName⟩] }
      else none

/-- The sum of `abs(11 * netGst)` over the categories of `taxableIncomeLines`. -/
def taxableIncomeTotal (stockTypeAmounts : JsObject ℚ StockNet) : ℚ :=
  (STOCK_TYPES.filterMap fun st =>
    match getProp stockTypeAmounts (st.id : ℚ) with
    | none => none
    | some amounts =>
      if |11 * amounts.netGst| > 1 / 100 then some |11 * amounts.netGst| else none).sum

/-- The clearing line of the taxable-income stage as the specification words it: present
exactly when the stage total exceeds 0.01. -/
def taxableIncomeClearing (stockTypeAmounts : JsObject ℚ StockNet) (branchName : String) :
    List JournalLine :=
  if taxableIncomeTotal stockTypeAmounts > 1 / 100 then
    [ { Description := "POS Clearing"
        LineAmount := taxableIncomeTotal stockTypeAmounts
        AccountCode := "18011"
        TaxType := "NONE"
        Tracking := [⟨"Store", branchName⟩] } ]
  else []

/-- The ids of `STOCK_TYPES` as keys, in the order of the table. -/
def stockTypeKeys : List ℚ :=
  STOCK_TYPES.map fun st => (st.id : ℚ)

/-- The lines of the tax-exempt-income stage as the specification words them: one
EXEMPTOUTPUT line per entry of `STOCK_TYPES`, in the order of the table, whose category is a
key of the map with `abs(netTotal - 11 * netGst) > 0.01`. -/
def exemptIncomeLines (stockTypeAmounts : JsObject ℚ StockNet) (branchName : String) :
    List JournalLine :=
  STOCK_TYPES.filterMap fun st =>
    match getProp stockTypeAmounts (st.id : ℚ) with
    | none => none
    | some amounts =>
      if |amounts.netTotal - 11 * amounts.netGst| > 1 / 100 then
        some
          { Description := st.description
            LineAmount := -|amounts.netTotal - 11 * amounts.netGst|
            AccountCode := st.accountCode
            TaxType := "EXEMPTOUTPUT"
            Tracking := [⟨"Store", branchName⟩] }
      else none

/-- The sum of `abs(netTotal - 11 * netGst)` over the categories of `exemptIncomeLines`. -/
def exemptIncomeTotal (stockTypeAmounts : JsObject ℚ StockNet) : ℚ :=
  (STOCK_TYPES.filterMap fun st =>
    match getProp stockTypeAmounts (st.id : ℚ) with
    | none => none
    | some amounts =>
      if |amounts.netTotal - 11 * amounts.netGst| > 1 / 100 then
        some |amounts.netTotal - 11 * amounts.netGst|
      else none).sum

/-- The clearing line of the tax-exempt-income stage as the specification words it: present
exactly when the stage total exceeds 0.01. -/
def exemptIncomeClearing (stockTypeAmounts : JsObject ℚ StockNet) (branchName : String) :
    List JournalLine :=
  if exemptIncomeTotal stockTypeAmounts > 1 / 100 then
    [ { Description := "POS Clearing"
        LineAmount := exemptIncomeTotal stockTypeAmounts
        AccountCode := "18011"
        TaxType := "NONE"
        Tracking := [⟨"Store", branchName⟩] } ]
  else []

/-- The entries of `PAYMENT_TYPES` in ascending order of code. -/
def paymentTypesByCode : List PaymentType :=
  PAYMENT_TYPES.insertionSort fun a b => defaultSortLE a.code b.code

/-- The codes of `PAYMENT_TYPES` in ascending order. -/
def paymentTypeCodes : List String :=
  paymentTypesByCode.map fun pt => pt.code

/-- The payment-method lines of the receipt path as the specification words them: one line
per entry of `PAYMENT_TYPES`, in ascending order of code, whose code is a key of the map with
`abs(netAmount) > 0.01`. -/
def receiptPathLines (paymentTypeAmounts : JsObject String ℚ) (branchName : String) :
    List JournalLine :=
  paymentTypesByCode.filterMap fun pt =>
    match getProp paymentTypeAmounts pt.code with
    | none => none
    | some netAmount =>
      if |netAmount| > 1 / 100 then
        some
          { Description := pt.description
            LineAmount := -|netAmount|
            AccountCode := pt.accountCode
            TaxType := "NONE"
            Tracking := [⟨"Store", branchName⟩] }
      else none

/-- The sum of `abs(netAmount)` over the codes of `receiptPathLines`. -/
def receiptPathTotal (paymentTypeAmounts : JsObject String ℚ) : ℚ :=
  (paymentTypesByCode.filterMap fun pt =>
    match getProp paymentTypeAmounts pt.code with
    | none => none
    | some netAmount => if |netAmount| > 1 / 100 then some |netAmount| else none).sum

/-- The clearing line of the receipt path as the specification words it: present exactly
when the total exceeds 0.01. -/
def receiptPathClearing (paymentTypeAmounts : JsObject String ℚ) (branchName : String) :
    List JournalLine :=
  if receiptPathTotal paymentTypeAmounts > 1 / 100 then
    [ { Description := "POS Clearing"
        LineAmount := receiptPathTotal paymentTypeAmounts
        AccountCode := "18011"
        TaxType := "NONE"
        Tracking := [⟨"Store", branchName⟩] } ]
  else []

/-- The invoice-path lines followed by the receipt-path lines of a branch. -/
def combinedLines (branchCode : String) (invoices : List Invoice) (receipts : List Receipt) :
    List JournalLine :=
  buildJournalLines (calculateStockTypeAmounts invoices branchCode) (getBranchName branchCode)
    ++ buildReceiptJournalLines receipts (getBranchName branchCode)

/-- An item-list value with a function applied to the elements of the array. -/
def JsItems.mapElems {α β : Type} (f : α → β) : JsItems α → JsItems β
  | .falsy => .falsy
  | .nonArray => .nonArray
  | .array elems => .array (elems.map f)

/-- An invoice item whose properties hold values, as a fetched item. -/
def fetchedInvoiceItem (item : InvoiceItem) : FetchedInvoiceItem :=
  { STOCK_TYPE_ID := .value item.STOCK_TYPE_ID
    StockTypeId := .value item.StockTypeId
    stock_type_id := .value item.stock_type_id
    TOTAL := .value item.TOTAL
    Total := .value item.Total
    total := .value item.total
    GST_AMOUNT := .value item.GST_AMOUNT
    GstAmount := .value item.GstAmount
    gst_amount := .value item.gst_amount }

/-- A receipt item whose properties hold values, as a fetched item. -/
def fetchedReceiptItem (item : ReceiptItem) : FetchedReceiptItem :=
  { PAYMENT_TYPE_CODE := .value item.PAYMENT_TYPE_CODE
    PaymentTypeCode := .value item.PaymentTypeCode
    payment_type_code := .value item.payment_type_code
    AMOUNT := .value item.AMOUNT
    Amount := .value item.Amount
    amount := .value item.amount }

/-- An invoice record whose items are objects with values for properties, as a fetched
record. -/
def fetchedInvoice (invoice : Invoice) : FetchedInvoice :=
  { ITEMS := invoice.ITEMS.mapElems fun item => some (fetchedInvoiceItem item)
    Items := invoice.Items.mapElems fun item => some (fetchedInvoiceItem item)
    items := invoice.items.mapElems fun item => some (fetchedInvoiceItem item) }

/-- A receipt record whose items are objects with values for properties, as a fetched
record. -/
def fetchedReceipt (receipt : Receipt) : FetchedReceipt :=
  { RECEIPT_ITEMS := receipt.RECEIPT_ITEMS.mapElems fun item => some (fetchedReceiptItem item)
    ReceiptItems := receipt.ReceiptItems.mapElems fun item => some (fetchedReceiptItem item)
    receipt_items := receipt.receipt_items.mapElems fun item => some (fetchedReceiptItem item) }

/-- An array of invoice records that are objects, as a fetched array. -/
def fetchedInvoices (invoices : List Invoice) : List (Option FetchedInvoice) :=
  invoices.map fun invoice => some (fetchedInvoice invoice)

/-- An array of receipt records that are objects, as a fetched array. -/
def fetchedReceipts (receipts : List Receipt) : List (Option FetchedReceipt) :=
  receipts.map fun receipt => some (fetchedReceipt receipt)

/-- A fetched property value that can be converted to a primitive value. -/
def Fetched.isValue {α : Type} : Fetched α → Bool
  | .value _ => true
  | .unconvertible => false

/-- An element of a fetched invoice item array that is not `null` and has no property
without a primitive value. -/
def invoiceItemReadable : Option FetchedInvoiceItem → Bool
  | none => false
  | some item =>
    item.STOCK_TYPE_ID.isValue && item.StockTypeId.isValue && item.stock_type_id.isValue
      && item.TOTAL.isValue && item.Total.isValue && item.total.isValue
      && item.GST_AMOUNT.isValue && item.GstAmount.isValue && item.gst_amount.isValue

/-- An element of a fetched receipt item array that is not `null` and has no property
without a primitive value. -/
def receiptItemReadable : Option FetchedReceiptItem → Bool
  | none => false
  | some item =>
    item.PAYMENT_TYPE_CODE.isValue && item.PaymentTypeCode.isValue
      && item.payment_type_code.isValue
      && item.AMOUNT.isValue && item.Amount.isValue && item.amount.isValue

/-- Every element of the array of an item-list value satisfies `p`. -/
def JsItems.allElems {α : Type} (p : α → Bool) : JsItems α → Bool
  | .array elems => elems.all p
  | _ => true

/-- No record of a fetched invoice array is `null`, no element of an item array is `null`,
and no property of an item is an object without a primitive value. -/
def invoicesReadable (invoices : List (Option FetchedInvoice)) : Bool :=
  invoices.all fun invoice =>
    match invoice with
    | none => false
    | some r =>
      r.ITEMS.allElems invoiceItemReadable && r.Items.allElems invoiceItemReadable
        && r.items.allElems invoiceItemReadable

/-- No record of a fetched receipt array is `null`, no element of an item array is `null`,
and no property of an item is an object without a primitive value. -/
def receiptsReadable (receipts : List (Option FetchedReceipt)) : Bool :=
  receipts.all fun receipt =>
    match receipt with
    | none => false
    | some r =>
      r.RECEIPT_ITEMS.allElems receiptItemReadable
        && r.ReceiptItems.allElems receiptItemReadable
        && r.receipt_items.allElems receiptItemReadable

/-- A map of net amounts with `netTotal` and `netGst` of every category negated. -/
def negateNets (stockTypeAmounts : JsObject ℚ StockNet) : JsObject ℚ StockNet :=
  stockTypeAmounts.map fun e => (e.1, ⟨-e.2.netTotal, -e.2.netGst⟩)

/-- An amount value with the opposite sign: the opposite number, the string that reads as
the opposite number; a value that is not an amount stays as it is. -/
def JsVal.negate : JsVal → JsVal
  | .num q => .num (-q)
  | .str parsed => .str (parsed.map fun q => -q)
  | v => v

/-- A receipt item with its amount negated, under each of the three spellings. -/
def negateReceiptItem (item : ReceiptItem) : ReceiptItem :=
  { item with
    AMOUNT := item.AMOUNT.negate
    Amount := item.Amount.negate
    amount := item.amount.negate }

/-- A receipt with the amount of every item negated. -/
def negateReceipt (receipt : Receipt) : Receipt :=
  { RECEIPT_ITEMS := receipt.RECEIPT_ITEMS.mapElems negateReceiptItem
    ReceiptItems := receipt.ReceiptItems.mapElems negateReceiptItem
    receipt_items := receipt.receipt_items.mapElems negateReceiptItem }

/-- The sum of the amounts of the `POS Clearing` lines of a list of journal lines; `0` when
there is none. -/
def clearingSum (lines : List JournalLine) : ℚ :=
  lineSum (lines.filter fun l => decide (l.Description = "POS Clearing"))

/-- The net amounts of the categories of `STOCK_TYPES` that are keys of the map, in the order
of the table. -/
def knownNets (stockTypeAmounts : JsObject ℚ StockNet) : List StockNet :=
  STOCK_TYPES.filterMap fun st => getProp stockTypeAmounts (st.id : ℚ)

/-- An invoice item whose category identifier, when it has one, is an integer. -/
def hasIntegerId (item : InvoiceItem) : Bool :=
  match stockTypeIdOf item with
  | some q => decide (q.den = 1)
  | none => true

/-! ## Concrete inputs -/

/-- Receipts of scenario C: a Visa payment of 75.00 and a cash payment of 50.00. -/
def scenarioC : List Receipt :=
  [ { RECEIPT_ITEMS := .array
        [ { PAYMENT_TYPE_CODE := some "VIS", AMOUNT := .num 75 },
          { PAYMENT_TYPE_CODE := some "CAS", AMOUNT := .num 50 } ] } ]

/-- Invoices in which category 4 nets to zero (a sale and its refund) next to a sale in
category 5. -/
def refundedInvoices : List Invoice :=
  [ { ITEMS := .array
        [ { STOCK_TYPE_ID := some 4, TOTAL := .num 110, GST_AMOUNT := .num 10 },
          { STOCK_TYPE_ID := some 5, TOTAL := .num 100, GST_AMOUNT := .num 0 },
          { STOCK_TYPE_ID := some 4, TOTAL := .num (-110), GST_AMOUNT := .num (-10) } ] } ]

/-- Receipts in which the cash payments net to zero next to a Visa payment. -/
def refundedReceipts : List Receipt :=
  [ { RECEIPT_ITEMS := .array
        [ { PAYMENT_TYPE_CODE := some "CAS", AMOUNT := .num 50 },
          { PAYMENT_TYPE_CODE := some "VIS", AMOUNT := .num 75 },
          { PAYMENT_TYPE_CODE := some "CAS", AMOUNT := .num (-50) } ] } ]

/-- An invoice item whose total parses and whose GST amount does not. -/
def halfParsedItem : InvoiceItem :=
  { STOCK_TYPE_ID := some 4, TOTAL := .num 110, GST_AMOUNT := .str none }

/-- Receipts with one payment whose code is the name of a member inherited from
`Object.prototype`. -/
def inheritedNameReceipts : List Receipt :=
  [ { RECEIPT_ITEMS := .array [ { PAYMENT_TYPE_CODE := some "toString", AMOUNT := .num 5 } ] } ]

/-- Invoices of scenario A: one item of category 4, total 220.00, GST amount 20.00. -/
def scenarioA : List Invoice :=
  [ { ITEMS := .array [ { STOCK_TYPE_ID := some 4, TOTAL := .num 220, GST_AMOUNT := .num 20 } ] } ]

/-- One invoice item with the category identifier 4.5, which is not an id of `STOCK_TYPES`. -/
def fractionalIdInvoices : List Invoice :=
  [ { ITEMS := .array
        [ { STOCK_TYPE_ID := some (9 / 2), TOTAL := .num 220, GST_AMOUNT := .num 20 } ] } ]

/-- One invoice item with the category identifier 11, next to the item of scenario A. -/
def unknownIdInvoices : List Invoice :=
  [ { ITEMS := .array
        [ { STOCK_TYPE_ID := some 11, TOTAL := .num 50, GST_AMOUNT := .num 5 },
          { STOCK_TYPE_ID := some 4, TOTAL := .num 220, GST_AMOUNT := .num 20 } ] } ]

/-- An invoice item in which the first spelling of the category identifier and of the total
is present with the value `0` and the second spelling carries another value. -/
def zeroTotalItem : InvoiceItem :=
  { STOCK_TYPE_ID := some 0, StockTypeId := some 4, TOTAL := .num 0, Total := .num 5,
    GST_AMOUNT := .num 1 }

/-- The invoices of `refundedInvoices` with the items in another order and spread over two
records. -/
def reorderedInvoices : List Invoice :=
  [ { Items := .array
        [ { STOCK_TYPE_ID := some 4, TOTAL := .num (-110), GST_AMOUNT := .num (-10) },
          { STOCK_TYPE_ID := some 4, TOTAL := .num 110, GST_AMOUNT := .num 10 } ] },
    { items := .array
        [ { STOCK_TYPE_ID := some 5, TOTAL := .num 100, GST_AMOUNT := .num 0 } ] } ]

/-- The receipts of `scenarioC` with the items in the other order. -/
def reorderedReceipts : List Receipt :=
  [ { RECEIPT_ITEMS := .array
        [ { PAYMENT_TYPE_CODE := some "CAS", AMOUNT := .num 50 },
          { PAYMENT_TYPE_CODE := some "VIS", AMOUNT := .num 75 } ] } ]

/-- One fetched invoice whose item array holds `null`: `[{ ITEMS: [null] }]`. -/
def nullItemInvoices : List (Option FetchedInvoice) :=
  [ some { ITEMS := .array [none] } ]

/-- One fetched invoice with an item whose total is an object without a primitive value:
`[{ ITEMS: [{ STOCK_TYPE_ID: 4, TOTAL: { toString: 1 } }] }]`. -/
def unconvertibleTotalInvoices : List (Option FetchedInvoice) :=
  [ some { ITEMS := .array [
      some { STOCK_TYPE_ID := .value (some 4), TOTAL := .unconvertible } ] } ]

/-- One fetched invoice with an item whose category identifier is an object without a
primitive value: `[{ ITEMS: [{ STOCK_TYPE_ID: { toString: 1 }, TOTAL: 5 }] }]`. -/
def unconvertibleIdInvoices : List (Option FetchedInvoice) :=
  [ some { ITEMS := .array [
      some { STOCK_TYPE_ID := .unconvertible, TOTAL := .value (.num 5) } ] } ]

/-- One fetched receipt whose item array holds `null` after an item:
`[{ RECEIPT_ITEMS: [{ PAYMENT_TYPE_CODE: 'CAS', AMOUNT: 50 }, null] }]`. -/
def nullItemReceipts : List (Option FetchedReceipt) :=
  [ some { RECEIPT_ITEMS := .array [
      some { PAYMENT_TYPE_CODE := .value (some "CAS"), AMOUNT := .value (.num 50) },
      none ] } ]

/-- One fetched receipt with an item whose amount is an object without a primitive value:
`[{ RECEIPT_ITEMS: [{ PAYMENT_TYPE_CODE: 'CAS', AMOUNT: { toString: 1 } }] }]`. -/
def unconvertibleAmountReceipts : List (Option FetchedReceipt) :=
  [ some { RECEIPT_ITEMS := .array [
      some { PAYMENT_TYPE_CODE := .value (some "CAS"), AMOUNT := .unconvertible } ] } ]

/-- One fetched receipt with an item whose payment code is an object without a primitive
value: `[{ RECEIPT_ITEMS: [{ PAYMENT_TYPE_CODE: { toString: 1 }, AMOUNT: 50 }] }]`. -/
def unconvertibleCodeReceipts : List (Option FetchedReceipt) :=
  [ some { RECEIPT_ITEMS := .array [
      some { PAYMENT_TYPE_CODE := .unconvertible, AMOUNT := .value (.num 50) } ] } ]

/-- Fetched invoices without `null` and without a property that has no primitive value: a
record whose item list is not an array, a record without item list, and a record with an
item without properties, an item with an unknown category and an unparseable total, and the
item of scenario A. -/
def malformedInvoices : List (Option FetchedInvoice) :=
  [ some { ITEMS := .nonArray },
    some { },
    some { Items := .array [
      some { },
      some { STOCK_TYPE_ID := .value (some 11), TOTAL := .value (.str none),
             GST_AMOUNT := .value (.num 5) },
      some { STOCK_TYPE_ID := .value (some 4), TOTAL := .value (.num 220),
             GST_AMOUNT := .value (.num 20) } ] } ]

/-- Fetched receipts without `null` and without a property that has no primitive value: a
record whose item list is not an array, and a record with an item without properties, an
item with an unparseable amount, an item with an unknown payment code, and a cash item. -/
def malformedReceipts : List (Option FetchedReceipt) :=
  [ some { RECEIPT_ITEMS := .nonArray },
    some { receipt_items := .array [
      some { },
      some { PAYMENT_TYPE_CODE := .value (some "VIS"), AMOUNT := .value (.str none) },
      some { PAYMENT_TYPE_CODE := .value (some "ZZZ"), AMOUNT := .value (.num 9) },
      some { PAYMENT_TYPE_CODE := .value (some "CAS"), AMOUNT := .value (.num 50) } ] } ]

/-- A map of net amounts with the category 5 and the key `4.5`, which is no category of
`STOCK_TYPES`: `{ '5': { netTotal: 100, netGst: 0 }, '4.5': { netTotal: 220, netGst: 20 } }`. -/
def fractionalIdAmounts : JsObject ℚ StockNet :=
  [ (5, ⟨100, 0⟩), (9 / 2, ⟨220, 20⟩) ]

/-- A map of net amounts with a fully taxable category, a tax-free category and a mixed
category. -/
def mixedAmounts : JsObject ℚ StockNet :=
  [ (4, ⟨220, 20⟩), (5, ⟨100, 0⟩), (7, ⟨150, 10⟩) ]

/-- One invoice with two items whose category identifiers are the integers `4e21` and
`4.5e21`, which JavaScript prints as `4e+21` and `4.5e+21`. -/
def exponentIdInvoices : List Invoice :=
  [ { ITEMS := .array
        [ { STOCK_TYPE_ID := some (4 * 10 ^ 21), TOTAL := .num 110, GST_AMOUNT := .num 10 },
          { STOCK_TYPE_ID := some (45 * 10 ^ 20), TOTAL := .num 220, GST_AMOUNT := .num 20 } ] } ]

/-- The invoice of `exponentIdInvoices` with its two items in the other order. -/
def exponentIdInvoicesSwapped : List Invoice :=
  [ { ITEMS := .array
        [ { STOCK_TYPE_ID := some (45 * 10 ^ 20), TOTAL := .num 220, GST_AMOUNT := .num 20 },
          { STOCK_TYPE_ID := some (4 * 10 ^ 21), TOTAL := .num 110, GST_AMOUNT := .num 10 } ] } ]

/-- One invoice item with the category identifier `4e21`, an integer that is no id of
`STOCK_TYPES`. -/
def exponentIdInvoice : List Invoice :=
  [ { ITEMS := .array
        [ { STOCK_TYPE_ID := some (4 * 10 ^ 21), TOTAL := .num 220, GST_AMOUNT := .num 20 } ] } ]

/-- The map `{ '4e+21': { netTotal: 220, netGst: 20 } }`, whose key is the integer `4e21`. -/
def exponentIdAmounts : JsObject ℚ StockNet :=
  [ (4 * 10 ^ 21, ⟨220, 20⟩) ]

/-- The map `{ '4e+21': { netTotal: 100, netGst: 0 } }`, whose key is the integer `4e21`. -/
def exponentIdExemptAmounts : JsObject ℚ StockNet :=
  [ (4 * 10 ^ 21, ⟨100, 0⟩) ]

/-- The map `{ '5': { netTotal: 100, netGst: 0 }, '4e+21': { netTotal: 220, netGst: 20 } }`. -/
def exponentIdSplitAmounts : JsObject ℚ StockNet :=
  [ (5, ⟨100, 0⟩), (4 * 10 ^ 21, ⟨220, 20⟩) ]

/-- The receipts of `scenarioC` with an item of the unknown payment code `ZZZ` added. -/
def unknownCodeReceipts : List Receipt :=
  [ { RECEIPT_ITEMS := .array
        [ { PAYMENT_TYPE_CODE := some "ZZZ", AMOUNT := .num 9 },
          { PAYMENT_TYPE_CODE := some "VIS", AMOUNT := .num 75 },
          { PAYMENT_TYPE_CODE := some "CAS", AMOUNT := .num 50 } ] } ]

/-! # Theorems -/

/-! ## The loops of the line builders as list comprehensions -/

theorem lineSum_nil : lineSum [] = 0 := rfl

theorem lineSum_append (xs ys : List JournalLine) :
    lineSum (xs ++ ys) = lineSum xs + lineSum ys := by
  simp [lineSum]

theorem lineSum_cons (x : JournalLine) (xs : List JournalLine) :
    lineSum (x :: xs) = x.LineAmount + lineSum xs := by
  simp [lineSum]

theorem addGstOnIncomeLine_eq (m : JsObject ℚ StockNet) (b : String) (st : JournalLinesState)
    (k : ℚ) :
    addGstOnIncomeLine m b st k =
      match gstOnIncomeLine? m b k with
      | none => st
      | some l =>
        { st with
          journalLines := st.journalLines ++ [l]
          totalGstOnIncome := st.totalGstOnIncome + -l.LineAmount } := by
  unfold addGstOnIncomeLine gstOnIncomeLine?
  cases getProp m k with
  | none => rfl
  | some amounts =>
    cases getStockTypeInfo (parseIntKey k) with
    | none => rfl
    | some info =>
      by_cases h : |amounts.netGst * 11| > 1 / 100
      · simp only [if_pos h]; simp [contentLine]
      · simp only [if_neg h]

theorem addGstFreeIncomeLine_eq (m : JsObject ℚ StockNet) (b : String)
    (st : JournalLinesState) (k : ℚ) :
    addGstFreeIncomeLine m b st k =
      match gstFreeIncomeLine? m b k with
      | none => st
      | some l =>
        { st with
          journalLines := st.journalLines ++ [l]
          totalGstFreeIncome := st.totalGstFreeIncome + -l.LineAmount } := by
  unfold addGstFreeIncomeLine gstFreeIncomeLine?
  cases getProp m k with
  | none => rfl
  | some amounts =>
    cases getStockTypeInfo (parseIntKey k) with
    | none => rfl
    | some info =>
      by_cases h : |amounts.netTotal - amounts.netGst * 11| > 1 / 100
      · simp only [if_pos h]; simp [contentLine]
      · simp only [if_neg h]

theorem addPaymentLine_eq (m : JsObject String ℚ) (b : String) (st : ReceiptLinesState)
    (k : String) :
    addPaymentLine m b st k =
      match paymentLine? m b k with
      | none => st
      | some l =>
        { journalLines := st.journalLines ++ [l]
          totalPaymentAmount := st.totalPaymentAmount + -l.LineAmount } := by
  unfold addPaymentLine paymentLine?
  cases getProp m k with
  | none => rfl
  | some amounts =>
    cases getPaymentTypeInfo k with
    | none => rfl
    | some info =>
      by_cases h : |amounts| > 1 / 100
      · simp only [if_pos h]; simp [contentLine]
      · simp only [if_neg h]

theorem foldl_addGstOnIncomeLine (m : JsObject ℚ StockNet) (b : String) (ks : List ℚ)
    (st : JournalLinesState) :
    ks.foldl (addGstOnIncomeLine m b) st =
      { journalLines := st.journalLines ++ ks.filterMap (gstOnIncomeLine? m b)
        totalGstOnIncome := st.totalGstOnIncome + -lineSum (ks.filterMap (gstOnIncomeLine? m b))
        totalGstFreeIncome := st.totalGstFreeIncome } := by
  induction ks generalizing st with
  | nil => simp [lineSum_nil]
  | cons k ks ih =>
    rw [List.foldl_cons, ih, addGstOnIncomeLine_eq]
    cases h : gstOnIncomeLine? m b k with
    | none => simp [List.filterMap_cons, h]
    | some l => simp [List.filterMap_cons, h, lineSum_cons]; ring

theorem foldl_addGstFreeIncomeLine (m : JsObject ℚ StockNet) (b : String) (ks : List ℚ)
    (st : JournalLinesState) :
    ks.foldl (addGstFreeIncomeLine m b) st =
      { journalLines := st.journalLines ++ ks.filterMap (gstFreeIncomeLine? m b)
        totalGstOnIncome := st.totalGstOnIncome
        totalGstFreeIncome :=
          st.totalGstFreeIncome + -lineSum (ks.filterMap (gstFreeIncomeLine? m b)) } := by
  induction ks generalizing st with
  | nil => simp [lineSum_nil]
  | cons k ks ih =>
    rw [List.foldl_cons, ih, addGstFreeIncomeLine_eq]
    cases h : gstFreeIncomeLine? m b k with
    | none => simp [List.filterMap_cons, h]
    | some l => simp [List.filterMap_cons, h, lineSum_cons]; ring

theorem foldl_addPaymentLine (m : JsObject String ℚ) (b : String) (ks : List String)
    (st : ReceiptLinesState) :
    ks.foldl (addPaymentLine m b) st =
      { journalLines := st.journalLines ++ ks.filterMap (paymentLine? m b)
        totalPaymentAmount :=
          st.totalPaymentAmount + -lineSum (ks.filterMap (paymentLine? m b)) } := by
  induction ks generalizing st with
  | nil => simp [lineSum_nil]
  | cons k ks ih =>
    rw [List.foldl_cons, ih, addPaymentLine_eq]
    cases h : paymentLine? m b k with
    | none => simp [List.filterMap_cons, h]
    | some l => simp [List.filterMap_cons, h, lineSum_cons]; ring

/-- The output of `buildJournalLines`, stage by stage. -/
theorem buildJournalLines_eq (m : JsObject ℚ StockNet) (b : String) :
    buildJournalLines m b =
      (sortedStockTypeIds m).filterMap (gstOnIncomeLine? m b)
        ++ clearingOf ((sortedStockTypeIds m).filterMap (gstOnIncomeLine? m b)) b
        ++ (sortedStockTypeIds m).filterMap (gstFreeIncomeLine? m b)
        ++ clearingOf ((sortedStockTypeIds m).filterMap (gstFreeIncomeLine? m b)) b := by
  unfold buildJournalLines clearingOf
  simp only [foldl_addGstOnIncomeLine, foldl_addGstFreeIncomeLine, sortedStockTypeIds,
    zero_add, List.nil_append]
  by_cases h1 : |(-lineSum ((List.insertionSort parseIntLE (objectKeys numIndex? m)).filterMap
      (gstOnIncomeLine? m b)))| > 1 / 100 <;>
    by_cases h2 : |(-lineSum ((List.insertionSort parseIntLE
      (objectKeys numIndex? m)).filterMap (gstFreeIncomeLine? m b)))| > 1 / 100 <;>
    simp only [if_pos, if_neg, h1, h2, not_false_eq_true, zero_add, List.append_assoc,
      List.append_nil]

/-- The output of the line-building part of `buildReceiptJournalLines`. -/
theorem receiptLinesOf_eq (m : JsObject String ℚ) (b : String) :
    receiptLinesOf m b =
      (sortedPaymentCodes m).filterMap (paymentLine? m b)
        ++ clearingOf ((sortedPaymentCodes m).filterMap (paymentLine? m b)) b := by
  unfold receiptLinesOf clearingOf
  simp only [foldl_addPaymentLine, sortedPaymentCodes, zero_add, List.nil_append]
  by_cases h0 : (objectKeys strIndex? m).length = 0
  · have h : objectKeys strIndex? m = [] := List.length_eq_zero.mp h0
    simp [h, lineSum_nil]
  · by_cases h1 : |(-lineSum ((List.insertionSort defaultSortLE
        (objectKeys strIndex? m)).filterMap (paymentLine? m b)))| > 1 / 100 <;>
      simp only [if_pos, if_neg, h0, h1, not_false_eq_true, List.append_nil]

/-! ## Balance of the stages -/

theorem gstOnIncomeLine?_some {m : JsObject ℚ StockNet} {b : String} {k : ℚ} {l : JournalLine}
    (h : gstOnIncomeLine? m b k = some l) :
    l.TaxType = "OUTPUT" ∧ l.LineAmount < -(1 / 100) := by
  unfold gstOnIncomeLine? at h
  cases hg : getProp m k with
  | none => simp [hg] at h
  | some amounts =>
    cases hi : getStockTypeInfo (parseIntKey k) with
    | none => simp [hg, hi] at h
    | some info =>
      simp only [hg, hi] at h
      by_cases ht : |amounts.netGst * 11| > 1 / 100
      · rw [if_pos ht] at h
        cases h
        exact ⟨rfl, by simp only [contentLine]; linarith⟩
      · rw [if_neg ht] at h; cases h

theorem gstFreeIncomeLine?_some {m : JsObject ℚ StockNet} {b : String} {k : ℚ}
    {l : JournalLine} (h : gstFreeIncomeLine? m b k = some l) :
    l.TaxType = "EXEMPTOUTPUT" ∧ l.LineAmount < -(1 / 100) := by
  unfold gstFreeIncomeLine? at h
  cases hg : getProp m k with
  | none => simp [hg] at h
  | some amounts =>
    cases hi : getStockTypeInfo (parseIntKey k) with
    | none => simp [hg, hi] at h
    | some info =>
      simp only [hg, hi] at h
      by_cases ht : |amounts.netTotal - amounts.netGst * 11| > 1 / 100
      · rw [if_pos ht] at h
        cases h
        exact ⟨rfl, by simp only [contentLine]; linarith⟩
      · rw [if_neg ht] at h; cases h

theorem paymentType_description_ne :
    ∀ pt ∈ PAYMENT_TYPES, pt.description ≠ "POS Clearing" := by
  decide

theorem getPaymentTypeInfo_mem {code : String} {info : PaymentType}
    (h : getPaymentTypeInfo code = some info) : info ∈ PAYMENT_TYPES ∧ info.code = code := by
  unfold getPaymentTypeInfo at h
  exact ⟨List.mem_of_find?_eq_some h, by simpa using List.find?_some h⟩

theorem paymentLine?_some {m : JsObject String ℚ} {b : String} {k : String} {l : JournalLine}
    (h : paymentLine? m b k = some l) :
    l.Description ≠ "POS Clearing" ∧ l.LineAmount < -(1 / 100) := by
  unfold paymentLine? at h
  cases hg : getProp m k with
  | none => simp [hg] at h
  | some amount =>
    cases hi : getPaymentTypeInfo k with
    | none => simp [hg, hi] at h
    | some info =>
      simp only [hg, hi] at h
      by_cases ht : |amount| > 1 / 100
      · rw [if_pos ht] at h
        cases h
        exact ⟨paymentType_description_ne info (getPaymentTypeInfo_mem hi).1,
          by simp only [contentLine]; linarith⟩
      · rw [if_neg ht] at h; cases h

theorem lineSum_neg_of_credit {lines : List JournalLine}
    (h : ∀ l ∈ lines, l.LineAmount < -(1 / 100)) :
    lines = [] ∨ lineSum lines < -(1 / 100) := by
  induction lines with
  | nil => exact Or.inl rfl
  | cons x xs ih =>
    right
    rw [lineSum_cons]
    have hx := h x (List.mem_cons_self _ _)
    rcases ih (fun l hl => h l (List.mem_cons_of_mem _ hl)) with hnil | hlt
    · subst hnil; simp [lineSum_nil]; linarith
    · linarith

/-- A stage made of credits beyond the threshold is closed by its clearing line: the two sum
to zero, and the clearing line is there as soon as the stage has a line. -/
theorem clearingOf_balances {lines : List JournalLine} (b : String)
    (h : ∀ l ∈ lines, l.LineAmount < -(1 / 100)) :
    lineSum lines + lineSum (clearingOf lines b) = 0 ∧
      (lines = [] ∨ clearingOf lines b = [clearingLine (-lineSum lines) b]) := by
  rcases lineSum_neg_of_credit h with hnil | hlt
  · subst hnil
    have : clearingOf [] b = [] := by
      unfold clearingOf
      rw [if_neg]
      simp [lineSum_nil]
    simp [this, lineSum_nil]
  · have hc : clearingOf lines b = [clearingLine (-lineSum lines) b] := by
      unfold clearingOf
      rw [if_pos]
      rw [abs_neg, abs_of_neg (by linarith)]
      linarith
    refine ⟨?_, Or.inr hc⟩
    rw [hc]
    simp [lineSum, clearingLine]

theorem clearingOf_length_le (lines : List JournalLine) (b : String) :
    (clearingOf lines b).length ≤ 1 := by
  unfold clearingOf
  split_ifs <;> simp

theorem clearingOf_mem {lines : List JournalLine} {b : String} {l : JournalLine}
    (h : l ∈ clearingOf lines b) :
    l.Description = "POS Clearing" ∧ l.TaxType = "NONE" ∧
      l.AccountCode = CLEARING_ACCOUNT_CODE := by
  unfold clearingOf at h
  split_ifs at h
  · simp only [List.mem_singleton] at h
    subst h
    exact ⟨rfl, rfl, rfl⟩
  · simp at h

/-- C1: the output of `buildJournalLines` is balanced stage by stage. It consists of the
OUTPUT lines, at most one POS Clearing line, the EXEMPTOUTPUT lines and at most one POS
Clearing line, in this order; the amounts of the OUTPUT lines and of the clearing line after
them sum to zero, and so do the amounts of the EXEMPTOUTPUT lines and of the clearing line
after them; a stage with a content line has its clearing line. -/
theorem buildJournalLines_balanced (stockTypeAmounts : JsObject ℚ StockNet)
    (branchName : String) :
    ∃ output clearing1 exempt clearing2 : List JournalLine,
      buildJournalLines stockTypeAmounts branchName
          = output ++ clearing1 ++ exempt ++ clearing2 ∧
      (∀ l ∈ output, l.TaxType = "OUTPUT") ∧
      (∀ l ∈ clearing1, l.Description = "POS Clearing" ∧ l.TaxType = "NONE") ∧
      (∀ l ∈ exempt, l.TaxType = "EXEMPTOUTPUT") ∧
      (∀ l ∈ clearing2, l.Description = "POS Clearing" ∧ l.TaxType = "NONE") ∧
      clearing1.length ≤ 1 ∧ clearing2.length ≤ 1 ∧
      lineSum output + lineSum clearing1 = 0 ∧
      lineSum exempt + lineSum clearing2 = 0 ∧
      (output = [] ∨ clearing1.length = 1) ∧
      (exempt = [] ∨ clearing2.length = 1) := by
  have h1 : ∀ l ∈ (sortedStockTypeIds stockTypeAmounts).filterMap
      (gstOnIncomeLine? stockTypeAmounts branchName),
      l.TaxType = "OUTPUT" ∧ l.LineAmount < -(1 / 100) := by
    intro l hl
    obtain ⟨k, _, hk⟩ := List.mem_filterMap.mp hl
    exact gstOnIncomeLine?_some hk
  have h2 : ∀ l ∈ (sortedStockTypeIds stockTypeAmounts).filterMap
      (gstFreeIncomeLine? stockTypeAmounts branchName),
      l.TaxType = "EXEMPTOUTPUT" ∧ l.LineAmount < -(1 / 100) := by
    intro l hl
    obtain ⟨k, _, hk⟩ := List.mem_filterMap.mp hl
    exact gstFreeIncomeLine?_some hk
  have b1 := clearingOf_balances branchName (fun l hl => (h1 l hl).2)
  have b2 := clearingOf_balances branchName (fun l hl => (h2 l hl).2)
  refine ⟨_, _, _, _, buildJournalLines_eq stockTypeAmounts branchName,
    fun l hl => (h1 l hl).1, fun l hl => ⟨(clearingOf_mem hl).1, (clearingOf_mem hl).2.1⟩,
    fun l hl => (h2 l hl).1, fun l hl => ⟨(clearingOf_mem hl).1, (clearingOf_mem hl).2.1⟩,
    clearingOf_length_le _ _, clearingOf_length_le _ _, b1.1, b2.1, ?_, ?_⟩
  · rcases b1.2 with h | h
    · exact Or.inl h
    · exact Or.inr (by rw [h]; rfl)
  · rcases b2.2 with h | h
    · exact Or.inl h
    · exact Or.inr (by rw [h]; rfl)

/-- C2: when `buildReceiptJournalLines` yields a line, its output is the payment-method lines
followed by one POS Clearing line, no payment-method line is a POS Clearing line, and the
amounts of the payment-method lines sum to the negative of the clearing amount. -/
theorem buildReceiptJournalLines_balanced (receipts : List Receipt) (branchName : String)
    (h : buildReceiptJournalLines receipts branchName ≠ []) :
    ∃ (payments : List JournalLine) (clearing : JournalLine),
      buildReceiptJournalLines receipts branchName = payments ++ [clearing] ∧
      clearing.Description = "POS Clearing" ∧
      (∀ l ∈ payments, l.Description ≠ "POS Clearing") ∧
      lineSum payments = -clearing.LineAmount ∧
      lineSum (buildReceiptJournalLines receipts branchName) = 0 := by
  unfold buildReceiptJournalLines at h ⊢
  rw [receiptLinesOf_eq] at h ⊢
  have h1 : ∀ l ∈ (sortedPaymentCodes (calculatePaymentTypeAmounts receipts)).filterMap
      (paymentLine? (calculatePaymentTypeAmounts receipts) branchName),
      l.Description ≠ "POS Clearing" ∧ l.LineAmount < -(1 / 100) := by
    intro l hl
    obtain ⟨k, _, hk⟩ := List.mem_filterMap.mp hl
    exact paymentLine?_some hk
  have b1 := clearingOf_balances branchName (fun l hl => (h1 l hl).2)
  rcases b1.2 with hnil | hc
  · exfalso
    apply h
    rw [hnil]
    simp [clearingOf, lineSum_nil]
  · rw [hc]
    refine ⟨_, _, rfl, rfl, fun l hl => (h1 l hl).1, ?_, ?_⟩
    · simp [clearingLine]
    · rw [lineSum_append]; simp [lineSum, clearingLine]

theorem buildReceiptJournalLines_balanced_witness :
    ∃ (payments : List JournalLine) (clearing : JournalLine),
      buildReceiptJournalLines scenarioC "Parramatta" = payments ++ [clearing] ∧
      clearing.Description = "POS Clearing" ∧
      (∀ l ∈ payments, l.Description ≠ "POS Clearing") ∧
      lineSum payments = -clearing.LineAmount ∧
      lineSum (buildReceiptJournalLines scenarioC "Parramatta") = 0 :=
  buildReceiptJournalLines_balanced scenarioC "Parramatta" (by decide!)

/-! ## Objects as lists of own properties -/

theorem getProp_eq_none_iff {K V : Type} [DecidableEq K] (m : JsObject K V) (k : K) :
    getProp m k = none ↔ k ∉ keysOf m := by
  induction m with
  | nil => simp [getProp, keysOf]
  | cons e m ih =>
    obtain ⟨k1, v1⟩ := e
    by_cases h : k1 = k
    · simp [getProp, keysOf, h]
    · have h2 : ¬ k = k1 := fun h3 => h h3.symm
      simp only [getProp, if_neg h, ih, keysOf, List.map_cons, List.mem_cons, h2, false_or]

theorem getProp_isSome_iff {K V : Type} [DecidableEq K] (m : JsObject K V) (k : K) :
    (getProp m k).isSome = true ↔ k ∈ keysOf m := by
  rw [← not_iff_not, ← getProp_eq_none_iff]
  cases getProp m k <;> simp

theorem setProp_of_not_mem {K V : Type} [DecidableEq K] (m : JsObject K V) (k : K) (v : V)
    (h : k ∉ keysOf m) : setProp m k v = m ++ [(k, v)] := by
  induction m with
  | nil => rfl
  | cons e m ih =>
    obtain ⟨k1, v1⟩ := e
    simp only [keysOf, List.map_cons, List.mem_cons, not_or] at h
    have h1 : ¬ k1 = k := fun h3 => h.1 h3.symm
    simp only [setProp, if_neg h1, List.cons_append, ih h.2]

theorem keysOf_updateProp {K V : Type} [DecidableEq K] (m : JsObject K V) (k : K)
    (f : V → V) : keysOf (updateProp m k f) = keysOf m := by
  unfold keysOf updateProp
  rw [List.map_map]
  apply List.map_congr_left
  intro e _
  by_cases h : e.1 = k <;> simp [h]

theorem updateProp_cons {K V : Type} [DecidableEq K] (k1 : K) (v1 : V) (m : JsObject K V)
    (k : K) (f : V → V) :
    updateProp ((k1, v1) :: m) k f = (k1, if k1 = k then f v1 else v1) :: updateProp m k f := by
  unfold updateProp
  by_cases h : k1 = k <;> simp [h]

theorem getProp_updateProp {K V : Type} [DecidableEq K] (m : JsObject K V) (k : K)
    (f : V → V) (k2 : K) :
    getProp (updateProp m k f) k2 = if k2 = k then (getProp m k2).map f else getProp m k2 := by
  induction m with
  | nil => simp [updateProp, getProp]
  | cons e m ih =>
    obtain ⟨k1, v1⟩ := e
    rw [updateProp_cons]
    by_cases h2 : k1 = k2
    · subst h2
      by_cases h1 : k1 = k <;> simp [getProp, h1]
    · simp only [getProp, if_neg h2, ih]

theorem getProp_append_singleton {K V : Type} [DecidableEq K] (m : JsObject K V) (k : K)
    (v : V) (k2 : K) :
    getProp (m ++ [(k, v)]) k2 =
      if k2 ∈ keysOf m then getProp m k2 else if k2 = k then some v else none := by
  induction m with
  | nil =>
    by_cases h : k = k2
    · simp [getProp, keysOf, h]
    · have h2 : ¬ k2 = k := fun h3 => h h3.symm
      simp [getProp, keysOf, h, h2]
  | cons e m ih =>
    obtain ⟨k1, v1⟩ := e
    by_cases h : k1 = k2
    · simp [getProp, keysOf, h]
    · have h2 : ¬ k2 = k1 := fun h3 => h h3.symm
      show getProp ((k1, v1) :: (m ++ [(k, v)])) k2 = _
      rw [getProp, if_neg h, ih]
      simp only [keysOf, List.map_cons, List.mem_cons, h2, false_or, getProp, if_neg h]

theorem keysOf_upsert {K V : Type} [DecidableEq K] (zero : V) (m : JsObject K V)
    (e : K × (V → V)) : keysOf (upsert zero m e) = insertKey (keysOf m) e.1 := by
  unfold upsert insertKey
  rw [keysOf_updateProp]
  by_cases h : e.1 ∈ keysOf m
  · have h2 : (getProp m e.1).isSome = true := (getProp_isSome_iff m e.1).mpr h
    have h3 : ¬ (getProp m e.1).isNone = true := by
      cases hg : getProp m e.1 <;> simp [hg] at h2 ⊢
    rw [if_neg h3, if_pos h]
  · have h3 : (getProp m e.1).isNone = true := by
      rw [(getProp_eq_none_iff m e.1).mpr h]; rfl
    rw [if_pos h3, if_neg h, setProp_of_not_mem m e.1 zero h]
    simp [keysOf]

theorem getProp_upsert {K V : Type} [DecidableEq K] (zero : V) (m : JsObject K V)
    (e : K × (V → V)) (k : K) :
    getProp (upsert zero m e) k =
      if k = e.1 then some (e.2 ((getProp m k).getD zero)) else getProp m k := by
  obtain ⟨k1, f⟩ := e
  unfold upsert
  rw [getProp_updateProp]
  by_cases hk : k = k1
  · subst hk
    rw [if_pos rfl, if_pos rfl]
    cases hg : getProp m k with
    | none =>
      have hn : k ∉ keysOf m := (getProp_eq_none_iff m k).mp hg
      simp [setProp_of_not_mem m k zero hn, getProp_append_singleton, hn]
    | some v => simp [hg]
  · rw [if_neg hk, if_neg hk]
    by_cases h3 : (getProp m k1).isNone = true
    · have hn : k1 ∉ keysOf m := by
        apply (getProp_eq_none_iff m k1).mp
        cases hg : getProp m k1 <;> simp [hg] at h3 ⊢
      rw [if_pos h3, setProp_of_not_mem m k1 zero hn, getProp_append_singleton]
      by_cases hm : k ∈ keysOf m
      · rw [if_pos hm]
      · rw [if_neg hm, if_neg hk, (getProp_eq_none_iff m k).mpr hm]
    · rw [if_neg h3]

theorem keysOf_foldl_upsert {K V : Type} [DecidableEq K] (zero : V)
    (es : List (K × (V → V))) (m : JsObject K V) :
    keysOf (es.foldl (upsert zero) m) = (es.map Prod.fst).foldl insertKey (keysOf m) := by
  induction es generalizing m with
  | nil => rfl
  | cons e es ih => simp only [List.foldl_cons, List.map_cons, ih, keysOf_upsert]

theorem getProp_foldl_upsert {K V : Type} [DecidableEq K] (zero : V)
    (es : List (K × (V → V))) (m : JsObject K V) (k : K) :
    getProp (es.foldl (upsert zero) m) k =
      if k ∈ keysOf m ∨ k ∈ es.map Prod.fst then
        some (applyAll ((es.filter fun e => decide (e.1 = k)).map Prod.snd)
          ((getProp m k).getD zero))
      else none := by
  induction es generalizing m with
  | nil =>
    by_cases h : k ∈ keysOf m
    · have h2 := (getProp_isSome_iff m k).mpr h
      cases hg : getProp m k <;> simp [hg, h, applyAll] at h2 ⊢
    · simp [h, (getProp_eq_none_iff m k).mpr h]
  | cons e es ih =>
    obtain ⟨k1, f⟩ := e
    rw [List.foldl_cons, ih, keysOf_upsert, getProp_upsert]
    by_cases hk : k = k1
    · subst hk
      have h1 : k ∈ insertKey (keysOf m) k := by
        unfold insertKey
        split_ifs with h
        · exact h
        · simp
      simp [h1, applyAll]
    · have h1 : k ∈ insertKey (keysOf m) k1 ↔ k ∈ keysOf m := by
        unfold insertKey
        split_ifs with h
        · rfl
        · simp [hk]
      have h2 : ¬ k1 = k := fun h3 => hk h3.symm
      simp only [h1, List.map_cons, List.mem_cons, hk, false_or, if_neg hk,
        List.filter_cons, h2, decide_False, Bool.false_eq_true, if_false]

/-! ## Sorting and filtering -/

theorem orderedInsert_of_forall_rel {K : Type} (r : K → K → Prop) [DecidableRel r] (a : K)
    (l : List K) (h : ∀ x ∈ l, r a x) : List.orderedInsert r a l = a :: l := by
  cases l with
  | nil => rfl
  | cons b l => exact List.orderedInsert_of_le r l (h b (List.mem_cons_self _ _))

theorem filter_orderedInsert {K : Type} (r : K → K → Prop) [DecidableRel r] [IsTrans K r]
    (p : K → Bool) (a : K) (s : List K) (hs : s.Sorted r) :
    (List.orderedInsert r a s).filter p =
      if p a = true then List.orderedInsert r a (s.filter p) else s.filter p := by
  induction s with
  | nil => by_cases hp : p a = true <;> simp [hp]
  | cons b s ih =>
    have hs2 : s.Sorted r := hs.of_cons
    by_cases hab : r a b
    · rw [List.orderedInsert_of_le r s hab]
      by_cases hp : p a = true
      · rw [if_pos hp, List.filter_cons_of_pos hp]
        symm
        apply orderedInsert_of_forall_rel
        intro x hx
        have hx2 : x ∈ b :: s := List.mem_of_mem_filter hx
        rcases List.mem_cons.mp hx2 with rfl | hxs
        · exact hab
        · exact IsTrans.trans a b x hab (List.rel_of_sorted_cons hs x hxs)
      · rw [if_neg hp, List.filter_cons_of_neg hp]
    · have h1 : List.orderedInsert r a (b :: s) = b :: List.orderedInsert r a s := by
        simp [List.orderedInsert, hab]
      rw [h1]
      by_cases hpb : p b = true
      · rw [List.filter_cons_of_pos hpb, ih hs2, List.filter_cons_of_pos hpb]
        by_cases hp : p a = true
        · simp [hp, List.orderedInsert, hab]
        · simp [hp]
      · rw [List.filter_cons_of_neg hpb, ih hs2, List.filter_cons_of_neg hpb]

/-- Insertion sort is stable, so it commutes with leaving elements out. -/
theorem filter_insertionSort {K : Type} (r : K → K → Prop) [DecidableRel r] [IsTotal K r]
    [IsTrans K r] (p : K → Bool) (l : List K) :
    (List.insertionSort r l).filter p = List.insertionSort r (l.filter p) := by
  induction l with
  | nil => rfl
  | cons a l ih =>
    rw [List.insertionSort_cons_eq_take_drop]
    rw [← List.orderedInsert_eq_take_drop]
    rw [filter_orderedInsert r p a _ (List.sorted_insertionSort r l), ih]
    by_cases hp : p a = true
    · rw [if_pos hp, List.filter_cons_of_pos hp]; rfl
    · rw [if_neg hp, List.filter_cons_of_neg hp]

/-! ## The order of `Object.keys` -/

theorem objectKeys_eq_arrangeKeys {K V : Type} (idx : K → Option ℕ) (m : JsObject K V) :
    objectKeys idx m = arrangeKeys idx (keysOf m) := rfl

theorem indexLE_total {K : Type} (idx : K → Option ℕ) :
    IsTotal K (fun a b => (idx a).getD 0 ≤ (idx b).getD 0) :=
  ⟨fun a b => le_total ((idx a).getD 0) ((idx b).getD 0)⟩

theorem indexLE_trans {K : Type} (idx : K → Option ℕ) :
    IsTrans K (fun a b => (idx a).getD 0 ≤ (idx b).getD 0) :=
  ⟨fun _ _ _ h1 h2 => le_trans h1 h2⟩

theorem arrangeKeys_perm {K : Type} (idx : K → Option ℕ) (ks : List K) :
    (arrangeKeys idx ks).Perm ks := by
  unfold arrangeKeys
  refine List.Perm.trans (List.Perm.append_right _ (List.perm_insertionSort _ _)) ?_
  exact List.filter_append_perm _ ks

theorem mem_arrangeKeys {K : Type} (idx : K → Option ℕ) (ks : List K) (k : K) :
    k ∈ arrangeKeys idx ks ↔ k ∈ ks :=
  (arrangeKeys_perm idx ks).mem_iff

theorem arrangeKeys_filter {K : Type} (idx : K → Option ℕ) (p : K → Bool) (ks : List K) :
    arrangeKeys idx (ks.filter p) = (arrangeKeys idx ks).filter p := by
  haveI := indexLE_total idx
  haveI := indexLE_trans idx
  unfold arrangeKeys
  rw [List.filter_append, filter_insertionSort]
  have e1 : ∀ q : K → Bool, (ks.filter p).filter q = (ks.filter q).filter p := by
    intro q
    rw [List.filter_filter, List.filter_filter]
    exact List.filter_congr (fun x _ => Bool.and_comm _ _)
  rw [e1, e1]

theorem arrangeKeys_idem {K : Type} (idx : K → Option ℕ) (ks : List K) :
    arrangeKeys idx (arrangeKeys idx ks) = arrangeKeys idx ks := by
  haveI := indexLE_total idx
  haveI := indexLE_trans idx
  have h1 : (arrangeKeys idx ks).filter (fun k => (idx k).isSome)
      = (ks.filter fun k => (idx k).isSome).insertionSort
          (fun a b => (idx a).getD 0 ≤ (idx b).getD 0) := by
    unfold arrangeKeys
    rw [List.filter_append, filter_insertionSort, List.filter_filter, List.filter_filter]
    have e1 : (ks.filter fun a => ((idx a).isSome && !(idx a).isSome)) = [] := by
      apply List.filter_eq_nil_iff.mpr; intro a _; cases idx a <;> simp
    have e2 : (ks.filter fun a => ((idx a).isSome && (idx a).isSome))
        = ks.filter fun a => (idx a).isSome := by
      apply List.filter_congr; intro a _; cases idx a <;> simp
    rw [e1, e2, List.append_nil]
  have h2 : (arrangeKeys idx ks).filter (fun k => !(idx k).isSome)
      = ks.filter fun k => !(idx k).isSome := by
    unfold arrangeKeys
    rw [List.filter_append, filter_insertionSort, List.filter_filter, List.filter_filter]
    have e1 : (ks.filter fun a => (!(idx a).isSome && (idx a).isSome)) = [] := by
      apply List.filter_eq_nil_iff.mpr; intro a _; cases idx a <;> simp
    have e2 : (ks.filter fun a => (!(idx a).isSome && !(idx a).isSome))
        = ks.filter fun a => !(idx a).isSome := by
      apply List.filter_congr; intro a _; cases idx a <;> simp
    rw [e1, e2]; rfl
  have h3 : arrangeKeys idx (arrangeKeys idx ks)
      = ((arrangeKeys idx ks).filter fun k => (idx k).isSome).insertionSort
          (fun a b => (idx a).getD 0 ≤ (idx b).getD 0)
        ++ (arrangeKeys idx ks).filter fun k => !(idx k).isSome := rfl
  rw [h3, h1, h2, List.Sorted.insertionSort_eq (List.sorted_insertionSort _ _)]
  rfl

theorem keysOf_filter {K V : Type} (p : K → Bool) (m : JsObject K V) :
    keysOf (m.filter fun e => p e.1) = (keysOf m).filter p := by
  unfold keysOf
  rw [List.filter_map]
  rfl

theorem objectKeys_filter {K V : Type} (idx : K → Option ℕ) (p : K → Bool)
    (m : JsObject K V) :
    objectKeys idx (m.filter fun e => p e.1) = (objectKeys idx m).filter p := by
  rw [objectKeys_eq_arrangeKeys, objectKeys_eq_arrangeKeys, keysOf_filter, arrangeKeys_filter]

theorem getProp_filter {K V : Type} [DecidableEq K] (p : K → Bool) (m : JsObject K V)
    (k : K) :
    getProp (m.filter fun e => p e.1) k = if p k = true then getProp m k else none := by
  induction m with
  | nil => simp [getProp]
  | cons e m ih =>
    obtain ⟨k1, v1⟩ := e
    by_cases hp : p k1 = true
    · rw [List.filter_cons_of_pos (by simpa using hp)]
      by_cases hk : k1 = k
      · subst hk; simp [getProp, hp]
      · simp only [getProp, if_neg hk, ih]
    · rw [List.filter_cons_of_neg (by simpa using hp), ih]
      by_cases hk : k1 = k
      · subst hk; simp [hp]
      · simp only [getProp, if_neg hk]

/-! ## The final loop of the aggregators -/

theorem nodup_insertKey {K : Type} [DecidableEq K] (ks : List K) (k : K) (h : ks.Nodup) :
    (insertKey ks k).Nodup := by
  unfold insertKey
  split_ifs with hk
  · exact h
  · exact List.Nodup.append h (List.nodup_singleton k) (by simpa using hk)

theorem nodup_foldl_insertKey {K : Type} [DecidableEq K] (l : List K) (ks : List K)
    (h : ks.Nodup) : (l.foldl insertKey ks).Nodup := by
  induction l generalizing ks with
  | nil => exact h
  | cons k l ih => exact ih _ (nodup_insertKey ks k h)

theorem mem_insertKey {K : Type} [DecidableEq K] (ks : List K) (k x : K) :
    x ∈ insertKey ks k ↔ x ∈ ks ∨ x = k := by
  unfold insertKey
  split_ifs with hk
  · constructor
    · exact Or.inl
    · rintro (h | rfl)
      · exact h
      · exact hk
  · simp

theorem mem_foldl_insertKey {K : Type} [DecidableEq K] (l : List K) (ks : List K) (x : K) :
    x ∈ l.foldl insertKey ks ↔ x ∈ ks ∨ x ∈ l := by
  induction l generalizing ks with
  | nil => simp
  | cons k l ih =>
    rw [List.foldl_cons, ih, mem_insertKey, List.mem_cons]
    tauto

theorem filter_foldl_insertKey {K : Type} [DecidableEq K] (p : K → Bool) (l : List K)
    (ks : List K) :
    ((l.filter p).foldl insertKey (ks.filter p)) = (l.foldl insertKey ks).filter p := by
  induction l generalizing ks with
  | nil => rfl
  | cons k l ih =>
    by_cases hp : p k = true
    · rw [List.filter_cons_of_pos hp, List.foldl_cons, List.foldl_cons, ← ih]
      congr 1
      unfold insertKey
      by_cases hk : k ∈ ks
      · rw [if_pos hk, if_pos (List.mem_filter.mpr ⟨hk, hp⟩)]
      · rw [if_neg hk, if_neg (fun h => hk (List.mem_of_mem_filter h)), List.filter_append]
        simp [hp]
    · rw [List.filter_cons_of_neg hp, List.foldl_cons, ← ih]
      congr 1
      unfold insertKey
      by_cases hk : k ∈ ks
      · rw [if_pos hk]
      · rw [if_neg hk, List.filter_append]
        simp [hp]

theorem keysOf_append {K V : Type} (m1 m2 : JsObject K V) :
    keysOf (m1 ++ m2) = keysOf m1 ++ keysOf m2 := by
  simp [keysOf]

theorem netEntry_fst {K V N : Type} [DecidableEq K] (net? : V → Option N) (m : JsObject K V)
    (k : K) (e : K × N) (h : netEntry net? m k = some e) : e.1 = k := by
  unfold netEntry at h
  cases hg : getProp m k with
  | none => simp [hg] at h
  | some b =>
    cases hn : net? b with
    | none => simp [hg, hn] at h
    | some n =>
      simp only [hg, hn, Option.some.injEq] at h
      rw [← h]

theorem foldl_addNet {K V N : Type} [DecidableEq K] (net? : V → Option N) (m : JsObject K V)
    (ks : List K) (acc : JsObject K N) (hnd : ks.Nodup) (hdis : ∀ k ∈ ks, k ∉ keysOf acc) :
    ks.foldl (addNet net? m) acc = acc ++ ks.filterMap (netEntry net? m) := by
  induction ks generalizing acc with
  | nil => simp
  | cons k ks ih =>
    have hk : k ∉ keysOf acc := hdis k (List.mem_cons_self _ _)
    have hnd2 : ks.Nodup := (List.nodup_cons.mp hnd).2
    have hk2 : k ∉ ks := (List.nodup_cons.mp hnd).1
    rw [List.foldl_cons]
    cases he : netEntry net? m k with
    | none =>
      have h1 : addNet net? m acc k = acc := by simp [addNet, he]
      rw [h1, ih acc hnd2 (fun x hx => hdis x (List.mem_cons_of_mem _ hx))]
      simp [List.filterMap_cons, he]
    | some e =>
      have he1 : e.1 = k := netEntry_fst net? m k e he
      have h1 : addNet net? m acc k = acc ++ [e] := by
        simp only [addNet, he]
        rw [he1, setProp_of_not_mem acc k e.2 hk, ← he1]
      rw [h1, ih]
      · simp [List.filterMap_cons, he]
      · exact hnd2
      · intro x hx
        rw [keysOf_append]
        simp only [List.mem_append, not_or]
        refine ⟨hdis x (List.mem_cons_of_mem _ hx), ?_⟩
        simp only [keysOf, List.map_cons, List.map_nil, List.mem_singleton, he1]
        rintro rfl
        exact hk2 hx

theorem addStockNet_eq (m : JsObject ℚ StockBucket) (r : JsObject ℚ StockNet) (k : ℚ) :
    addStockNet m r k = addNet stockNet? m r k := by
  unfold addStockNet addNet netEntry stockNet?
  cases getProp m k with
  | none => rfl
  | some b =>
    by_cases h : |b.totalPositive - b.totalNegative| > 1 / 100
        ∨ |b.gstPositive - b.gstNegative| > 1 / 100
    · simp only [if_pos h]
    · simp only [if_neg h]

theorem addPaymentNet_eq (m : JsObject String PaymentBucket) (r : JsObject String ℚ)
    (k : String) : addPaymentNet m r k = addNet paymentNet? m r k := by
  unfold addPaymentNet addNet netEntry paymentNet?
  cases getProp m k with
  | none => rfl
  | some b =>
    by_cases h : |b.positiveSum - b.negativeSum| > 1 / 100
    · simp only [if_pos h]
    · simp only [if_neg h]

theorem nodup_keysOf_foldl_upsert {K V : Type} [DecidableEq K] (zero : V)
    (es : List (K × (V → V))) : (keysOf (es.foldl (upsert zero) [])).Nodup := by
  rw [keysOf_foldl_upsert]
  exact nodup_foldl_insertKey _ _ List.nodup_nil

theorem nodup_objectKeys {K V : Type} (idx : K → Option ℕ) (m : JsObject K V)
    (h : (keysOf m).Nodup) : (objectKeys idx m).Nodup :=
  (arrangeKeys_perm idx (keysOf m)).nodup_iff.mpr h

/-! ## The aggregators as folds over entries -/

theorem updateProp_updateProp {K V : Type} [DecidableEq K] (m : JsObject K V) (k : K)
    (f g : V → V) : updateProp (updateProp m k f) k g = updateProp m k (fun v => g (f v)) := by
  unfold updateProp
  rw [List.map_map]
  apply List.map_congr_left
  intro e _
  by_cases h : e.1 = k <;> simp [h]

theorem updateProp_of_not_mem {K V : Type} [DecidableEq K] (m : JsObject K V) (k : K)
    (f : V → V) (h : k ∉ keysOf m) : updateProp m k f = m := by
  unfold updateProp
  conv_rhs => rw [← List.map_id m]
  apply List.map_congr_left
  intro e he
  have h1 : ¬ e.1 = k := by
    rintro rfl
    exact h (List.mem_map_of_mem Prod.fst he)
  simp [h1]

theorem addInvoiceItem_eq (m : JsObject ℚ StockBucket) (item : InvoiceItem) :
    addInvoiceItem m item =
      match invoiceEntry? item with
      | none => m
      | some e => upsert ⟨0, 0, 0, 0⟩ m (stockUpdate e) := by
  unfold addInvoiceItem invoiceEntry? invoiceItemSkipped
  cases hid : stockTypeIdOf item with
  | none => rfl
  | some q =>
    by_cases hq : q = 0
    · subst hq
      simp [idTruthy]
    · by_cases hn : (parseFloat (totalArg item)).isNone = true
          ∧ (parseFloat (gstAmountArg item)).isNone = true
      · simp [idTruthy, hq, hn]
      · have hn2 : ¬ ((parseFloat (totalArg item)).isNone
            && (parseFloat (gstAmountArg item)).isNone) = true := by
          simpa using hn
        simp only [if_neg hq, if_neg hn, idTruthy, hq, ne_eq, not_false_eq_true, decide_True,
          Bool.not_true, Bool.false_or, hn2, Bool.false_eq_true, if_false]
        unfold upsert stockUpdate
        simp only [updateProp_updateProp]

theorem foldl_addInvoiceItem (items : List InvoiceItem) (m : JsObject ℚ StockBucket) :
    items.foldl addInvoiceItem m =
      ((items.filterMap invoiceEntry?).map stockUpdate).foldl (upsert ⟨0, 0, 0, 0⟩) m := by
  induction items generalizing m with
  | nil => rfl
  | cons item items ih =>
    rw [List.foldl_cons, ih, addInvoiceItem_eq]
    cases h : invoiceEntry? item with
    | none => simp [List.filterMap_cons, h]
    | some e => simp [List.filterMap_cons, h]

theorem foldl_addInvoice (invoices : List Invoice) (m : JsObject ℚ StockBucket) :
    invoices.foldl addInvoice m = (allInvoiceItems invoices).foldl addInvoiceItem m := by
  induction invoices generalizing m with
  | nil => rfl
  | cons invoice invoices ih =>
    have h : addInvoice m invoice = (invoiceItemList invoice).foldl addInvoiceItem m := by
      unfold addInvoice invoiceItemList
      cases invoiceItems invoice <;> rfl
    rw [List.foldl_cons, ih, h]
    simp [allInvoiceItems, List.flatMap_cons, List.foldl_append]

/-- The bucket map of the invoice aggregator is the fold of the bucket updates of the items
that are not skipped. -/
theorem stockTypeMapOf_eq (invoices : List Invoice) :
    stockTypeMapOf invoices =
      ((invoiceEntries invoices).map stockUpdate).foldl (upsert ⟨0, 0, 0, 0⟩) [] := by
  unfold stockTypeMapOf invoiceEntries
  rw [foldl_addInvoice, foldl_addInvoiceItem]

theorem nodup_keysOf_stockTypeMapOf (invoices : List Invoice) :
    (keysOf (stockTypeMapOf invoices)).Nodup := by
  rw [stockTypeMapOf_eq]
  exact nodup_keysOf_foldl_upsert _ _

/-- The result of `calculateStockTypeAmounts` in closed form. -/
theorem calculateStockTypeAmounts_eq (invoices : List Invoice) (branchIdentifier : String) :
    calculateStockTypeAmounts invoices branchIdentifier =
      netsOf numIndex? stockNet? (stockTypeMapOf invoices) := by
  unfold calculateStockTypeAmounts netsOf
  have h : addStockNet (stockTypeMapOf invoices) = addNet stockNet? (stockTypeMapOf invoices) := by
    funext r k
    exact addStockNet_eq _ r k
  simp only [h]
  rw [foldl_addNet stockNet? _ _ [] (nodup_objectKeys _ _ (nodup_keysOf_stockTypeMapOf invoices))
    (by simp [keysOf])]
  simp

theorem addReceiptItem_eq (m : JsObject String PaymentBucket) (item : ReceiptItem)
    (hm : ∀ k ∈ keysOf m, k ∉ objectPrototypeKeys) :
    addReceiptItem m item =
      match receiptEntry? item with
      | none => m
      | some e => upsert ⟨0, 0⟩ m (paymentUpdate e) := by
  unfold addReceiptItem receiptEntry?
  cases hc : paymentTypeCodeOf item with
  | none => rfl
  | some code =>
    cases ha : parseFloat (amountArg item) with
    | none => by_cases h0 : code = "" <;> simp [h0]
    | some amount =>
      by_cases h0 : code = ""
      · simp [h0]
      · by_cases hp : code ∈ objectPrototypeKeys
        · have hk : code ∉ keysOf m := fun h => hm code h hp
          simp only [if_neg h0, h0, hp, or_true, if_true, not_true_eq_false, and_false, if_false]
          exact updateProp_of_not_mem m code _ hk
        · simp only [if_neg h0, h0, hp, or_self, if_false, not_false_eq_true, and_true]
          rfl

theorem upsert_keys_not_inherited (m : JsObject String PaymentBucket) (e : String × ℚ)
    (item : ReceiptItem) (he : receiptEntry? item = some e)
    (hm : ∀ k ∈ keysOf m, k ∉ objectPrototypeKeys) :
    ∀ k ∈ keysOf (upsert ⟨0, 0⟩ m (paymentUpdate e)), k ∉ objectPrototypeKeys := by
  intro k hk
  rw [keysOf_upsert, mem_insertKey] at hk
  rcases hk with hk | hk
  · exact hm k hk
  · unfold receiptEntry? at he
    cases hc : paymentTypeCodeOf item with
    | none => simp [hc] at he
    | some code =>
      cases ha : parseFloat (amountArg item) with
      | none => simp [hc, ha] at he
      | some amount =>
        simp only [hc, ha] at he
        by_cases h : code = "" ∨ code ∈ objectPrototypeKeys
        · rw [if_pos h] at he; cases he
        · rw [if_neg h] at he
          cases he
          rw [hk]
          exact fun h2 => h (Or.inr h2)

theorem foldl_addReceiptItem (items : List ReceiptItem) (m : JsObject String PaymentBucket)
    (hm : ∀ k ∈ keysOf m, k ∉ objectPrototypeKeys) :
    items.foldl addReceiptItem m =
      ((items.filterMap receiptEntry?).map paymentUpdate).foldl (upsert ⟨0, 0⟩) m := by
  induction items generalizing m with
  | nil => rfl
  | cons item items ih =>
    rw [List.foldl_cons, addReceiptItem_eq m item hm]
    cases h : receiptEntry? item with
    | none =>
      simp only [List.filterMap_cons, h]
      exact ih m hm
    | some e =>
      simp only [List.filterMap_cons, h, List.map_cons, List.foldl_cons]
      exact ih _ (upsert_keys_not_inherited m e item h hm)

theorem foldl_addReceipt (receipts : List Receipt) (m : JsObject String PaymentBucket) :
    receipts.foldl addReceipt m = (allReceiptItems receipts).foldl addReceiptItem m := by
  induction receipts generalizing m with
  | nil => rfl
  | cons receipt receipts ih =>
    have h : addReceipt m receipt = (receiptItemList receipt).foldl addReceiptItem m := by
      unfold addReceipt receiptItemList
      cases receiptItems receipt <;> rfl
    rw [List.foldl_cons, ih, h]
    simp [allReceiptItems, List.flatMap_cons, List.foldl_append]

/-- The bucket map of the receipt aggregator is the fold of the bucket updates of the items
that reach a bucket. -/
theorem paymentTypeMapOf_eq (receipts : List Receipt) :
    paymentTypeMapOf receipts =
      ((receiptEntries receipts).map paymentUpdate).foldl (upsert ⟨0, 0⟩) [] := by
  unfold paymentTypeMapOf receiptEntries
  rw [foldl_addReceipt, foldl_addReceiptItem _ _ (by simp [keysOf])]

theorem nodup_keysOf_paymentTypeMapOf (receipts : List Receipt) :
    (keysOf (paymentTypeMapOf receipts)).Nodup := by
  rw [paymentTypeMapOf_eq]
  exact nodup_keysOf_foldl_upsert _ _

/-- The result of `calculatePaymentTypeAmounts` in closed form. -/
theorem calculatePaymentTypeAmounts_eq (receipts : List Receipt) :
    calculatePaymentTypeAmounts receipts =
      netsOf strIndex? paymentNet? (paymentTypeMapOf receipts) := by
  unfold calculatePaymentTypeAmounts netsOf
  have h : addPaymentNet (paymentTypeMapOf receipts)
      = addNet paymentNet? (paymentTypeMapOf receipts) := by
    funext r k
    exact addPaymentNet_eq _ r k
  simp only [h]
  rw [foldl_addNet paymentNet? _ _ []
    (nodup_objectKeys _ _ (nodup_keysOf_paymentTypeMapOf receipts)) (by simp [keysOf])]
  simp

/-! ## The result objects -/

theorem getProp_filterMap_netEntry {K V N : Type} [DecidableEq K] (net? : V → Option N)
    (m : JsObject K V) (ks : List K) (k : K) :
    getProp (ks.filterMap (netEntry net? m)) k =
      if k ∈ ks then (getProp m k).bind net? else none := by
  induction ks with
  | nil => simp [getProp]
  | cons k1 ks ih =>
    have hnone : netEntry net? m k1 = none → (getProp m k1).bind net? = none := by
      intro h
      unfold netEntry at h
      cases hg : getProp m k1 with
      | none => rfl
      | some b =>
        cases hn : net? b with
        | none => simp [hn]
        | some n => simp [hg, hn] at h
    cases he : netEntry net? m k1 with
    | none =>
      rw [List.filterMap_cons_none he, ih]
      by_cases hk : k = k1
      · subst hk
        simp only [List.mem_cons, true_or, if_true, hnone he]
        split_ifs <;> rfl
      · simp only [List.mem_cons, hk, false_or]
    | some e =>
      have he1 : e.1 = k1 := netEntry_fst net? m k1 e he
      have he2 : (getProp m k1).bind net? = some e.2 := by
        unfold netEntry at he
        cases hg : getProp m k1 with
        | none => simp [hg] at he
        | some b =>
          cases hn : net? b with
          | none => simp [hg, hn] at he
          | some n =>
            simp only [hg, hn, Option.some.injEq] at he
            simp [hn, ← he]
      rw [List.filterMap_cons_some he]
      obtain ⟨e1, e2⟩ := e
      simp only at he1 he2
      subst he1
      by_cases hk : e1 = k
      · subst hk
        simp [getProp, he2]
      · have hk2 : ¬ k = e1 := fun h => hk h.symm
        simp only [getProp, if_neg hk, ih, List.mem_cons, hk2, false_or]

/-- A key of the result of an aggregator carries the net value of its bucket. -/
theorem getProp_netsOf {K V N : Type} [DecidableEq K] (idx : K → Option ℕ)
    (net? : V → Option N) (m : JsObject K V) (k : K) :
    getProp (netsOf idx net? m) k = (getProp m k).bind net? := by
  unfold netsOf
  rw [getProp_filterMap_netEntry]
  by_cases hk : k ∈ objectKeys idx m
  · rw [if_pos hk]
  · rw [if_neg hk]
    have h2 : k ∉ keysOf m := fun h => hk ((mem_arrangeKeys idx (keysOf m) k).mpr h)
    rw [(getProp_eq_none_iff m k).mpr h2]
    rfl

theorem keysOf_filterMap_netEntry {K V N : Type} [DecidableEq K] (net? : V → Option N)
    (m : JsObject K V) (ks : List K) :
    keysOf (ks.filterMap (netEntry net? m)) =
      ks.filter fun k => (netEntry net? m k).isSome := by
  induction ks with
  | nil => rfl
  | cons k ks ih =>
    cases he : netEntry net? m k with
    | none =>
      rw [List.filterMap_cons_none he, ih, List.filter_cons_of_neg (by simp [he])]
    | some e =>
      rw [List.filterMap_cons_some he, List.filter_cons_of_pos (by simp [he])]
      simp only [keysOf, List.map_cons] at ih ⊢
      rw [ih, netEntry_fst net? m k e he]

theorem keysOf_netsOf {K V N : Type} [DecidableEq K] (idx : K → Option ℕ)
    (net? : V → Option N) (m : JsObject K V) :
    keysOf (netsOf idx net? m) =
      (objectKeys idx m).filter fun k => (netEntry net? m k).isSome :=
  keysOf_filterMap_netEntry net? m _

/-- The keys of a result object are already in the order of `Object.keys`. -/
theorem objectKeys_netsOf {K V N : Type} [DecidableEq K] (idx : K → Option ℕ)
    (net? : V → Option N) (m : JsObject K V) :
    objectKeys idx (netsOf idx net? m) = keysOf (netsOf idx net? m) := by
  rw [objectKeys_eq_arrangeKeys, keysOf_netsOf, objectKeys_eq_arrangeKeys, arrangeKeys_filter,
    arrangeKeys_idem]

theorem netEntry_isSome_iff {K V N : Type} [DecidableEq K] (net? : V → Option N)
    (m : JsObject K V) (k : K) :
    (netEntry net? m k).isSome = ((getProp m k).bind net?).isSome := by
  unfold netEntry
  cases getProp m k with
  | none => rfl
  | some b => cases hn : net? b <;> simp [hn]

theorem netEntry_congr {K V N : Type} [DecidableEq K] (net? : V → Option N)
    (m1 m2 : JsObject K V) (k : K) (h : getProp m1 k = getProp m2 k) :
    netEntry net? m1 k = netEntry net? m2 k := by
  unfold netEntry
  rw [h]

/-- Leaving out the entries of some keys leaves out these keys from the result and changes
nothing else. -/
theorem netsOf_foldl_filter {K V N : Type} [DecidableEq K] (idx : K → Option ℕ)
    (net? : V → Option N) (zero : V) (p : K → Bool) (es : List (K × (V → V))) :
    netsOf idx net? ((es.filter fun e => p e.1).foldl (upsert zero) []) =
      (netsOf idx net? (es.foldl (upsert zero) [])).filter fun e => p e.1 := by
  have hkeys : keysOf ((es.filter fun e => p e.1).foldl (upsert zero) [])
      = (keysOf (es.foldl (upsert zero) [])).filter p := by
    rw [keysOf_foldl_upsert, keysOf_foldl_upsert, ← filter_foldl_insertKey]
    congr 1
    rw [List.filter_map]
    rfl
  have hget : ∀ k, p k = true →
      getProp ((es.filter fun e => p e.1).foldl (upsert zero) []) k
        = getProp (es.foldl (upsert zero) []) k := by
    intro k hk
    rw [getProp_foldl_upsert, getProp_foldl_upsert]
    have h1 : (k ∈ (es.filter fun e => p e.1).map Prod.fst) ↔ k ∈ es.map Prod.fst := by
      simp only [List.mem_map, List.mem_filter]
      constructor
      · rintro ⟨e, ⟨he, _⟩, rfl⟩; exact ⟨e, he, rfl⟩
      · rintro ⟨e, he, rfl⟩; exact ⟨e, ⟨he, hk⟩, rfl⟩
    have h2 : ((es.filter fun e => p e.1).filter fun e => decide (e.1 = k))
        = es.filter fun e => decide (e.1 = k) := by
      rw [List.filter_filter]
      apply List.filter_congr
      intro e _
      by_cases h : e.1 = k
      · simp [h, hk]
      · simp [h]
    simp only [h1, h2]
  unfold netsOf
  rw [objectKeys_eq_arrangeKeys, hkeys, arrangeKeys_filter, ← objectKeys_eq_arrangeKeys,
    List.filterMap_filter, List.filter_filterMap]
  apply List.filterMap_congr
  intro k _
  by_cases hk : p k = true
  · rw [if_pos hk, netEntry_congr net? _ _ k (hget k hk)]
    cases he : netEntry net? (es.foldl (upsert zero) []) k with
    | none => rfl
    | some e =>
      have := netEntry_fst net? _ k e he
      simp [Option.filter, this, hk]
  · rw [if_neg hk]
    cases he : netEntry net? (es.foldl (upsert zero) []) k with
    | none => rfl
    | some e =>
      have := netEntry_fst net? _ k e he
      simp [Option.filter, this, hk]

/-! ## Removing items from the input -/

theorem truthy_filterElems {α : Type} (keep : α → Bool) (x : JsItems α) :
    (x.filterElems keep).truthy = x.truthy := by
  cases x <;> rfl

theorem jsOr_filterElems {α : Type} (keep : α → Bool) (a b : JsItems α) :
    jsOr JsItems.truthy (a.filterElems keep) (b.filterElems keep)
      = (jsOr JsItems.truthy a b).filterElems keep := by
  unfold jsOr
  rw [truthy_filterElems]
  split_ifs <;> rfl

theorem invoiceItemList_remove (keep : InvoiceItem → Bool) (invoice : Invoice) :
    invoiceItemList (removeInvoiceItems keep invoice) = (invoiceItemList invoice).filter keep := by
  have h : invoiceItems (removeInvoiceItems keep invoice)
      = (invoiceItems invoice).filterElems keep := by
    unfold invoiceItems removeInvoiceItems
    simp only []
    rw [jsOr_filterElems, jsOr_filterElems]
    exact jsOr_filterElems keep _ (JsItems.array [])
  unfold invoiceItemList
  rw [h]
  cases invoiceItems invoice <;> rfl

theorem allInvoiceItems_remove (keep : InvoiceItem → Bool) (invoices : List Invoice) :
    allInvoiceItems (invoices.map (removeInvoiceItems keep))
      = (allInvoiceItems invoices).filter keep := by
  unfold allInvoiceItems
  induction invoices with
  | nil => rfl
  | cons invoice invoices ih =>
    simp only [List.map_cons, List.flatMap_cons, List.filter_append, ih, invoiceItemList_remove]

theorem receiptItemList_remove (keep : ReceiptItem → Bool) (receipt : Receipt) :
    receiptItemList (removeReceiptItems keep receipt) = (receiptItemList receipt).filter keep := by
  have h : receiptItems (removeReceiptItems keep receipt)
      = (receiptItems receipt).filterElems keep := by
    unfold receiptItems removeReceiptItems
    simp only []
    rw [jsOr_filterElems, jsOr_filterElems]
    exact jsOr_filterElems keep _ (JsItems.array [])
  unfold receiptItemList
  rw [h]
  cases receiptItems receipt <;> rfl

theorem allReceiptItems_remove (keep : ReceiptItem → Bool) (receipts : List Receipt) :
    allReceiptItems (receipts.map (removeReceiptItems keep))
      = (allReceiptItems receipts).filter keep := by
  unfold allReceiptItems
  induction receipts with
  | nil => rfl
  | cons receipt receipts ih =>
    simp only [List.map_cons, List.flatMap_cons, List.filter_append, ih, receiptItemList_remove]

theorem filterMap_filter_comm {α β : Type} (f : α → Option β) (q : α → Bool) (p : β → Bool)
    (l : List α) (h : ∀ x ∈ l, ∀ e, f x = some e → q x = p e) :
    (l.filter q).filterMap f = (l.filterMap f).filter p := by
  induction l with
  | nil => rfl
  | cons x l ih =>
    have ih2 := ih (fun y hy => h y (List.mem_cons_of_mem _ hy))
    cases hf : f x with
    | none =>
      rw [List.filterMap_cons_none hf, ← ih2]
      by_cases hq : q x = true
      · rw [List.filter_cons_of_pos hq, List.filterMap_cons_none hf]
      · rw [List.filter_cons_of_neg hq]
    | some e =>
      have hqe := h x (List.mem_cons_self _ _) e hf
      rw [List.filterMap_cons_some hf]
      by_cases hq : q x = true
      · rw [List.filter_cons_of_pos hq, List.filterMap_cons_some hf,
          List.filter_cons_of_pos (by rw [← hqe]; exact hq), ih2]
      · rw [List.filter_cons_of_neg hq, List.filter_cons_of_neg (by rw [← hqe]; exact hq), ih2]

theorem invoiceEntry?_some {item : InvoiceItem} {e : ℚ × Option ℚ × Option ℚ}
    (h : invoiceEntry? item = some e) :
    stockTypeIdOf item = some e.1 ∧ invoiceItemSkipped item = false ∧
      e.2.1 = parseFloat (totalArg item) ∧ e.2.2 = parseFloat (gstAmountArg item) := by
  unfold invoiceEntry? at h
  cases hid : stockTypeIdOf item with
  | none => simp [hid] at h
  | some q =>
    simp only [hid] at h
    by_cases hs : invoiceItemSkipped item = true
    · rw [if_pos hs] at h; cases h
    · rw [if_neg hs] at h
      cases h
      exact ⟨rfl, by simpa using hs, rfl, rfl⟩

theorem invoiceEntry?_none {item : InvoiceItem} (h : invoiceEntry? item = none) :
    invoiceItemSkipped item = true := by
  unfold invoiceEntry? at h
  cases hid : stockTypeIdOf item with
  | none => simp [invoiceItemSkipped, hid, idTruthy]
  | some q =>
    simp only [hid] at h
    by_cases hs : invoiceItemSkipped item = true
    · exact hs
    · rw [if_neg hs] at h; cases h

theorem receiptEntry?_some {item : ReceiptItem} {e : String × ℚ}
    (h : receiptEntry? item = some e) :
    paymentTypeCodeOf item = some e.1 ∧ receiptItemSkipped item = false ∧
      parseFloat (amountArg item) = some e.2 ∧ e.1 ∉ objectPrototypeKeys := by
  unfold receiptEntry? at h
  cases hc : paymentTypeCodeOf item with
  | none => simp [hc] at h
  | some code =>
    cases ha : parseFloat (amountArg item) with
    | none => simp [hc, ha] at h
    | some amount =>
      simp only [hc, ha] at h
      by_cases hp : code = "" ∨ code ∈ objectPrototypeKeys
      · rw [if_pos hp] at h; cases h
      · rw [if_neg hp] at h
        cases h
        simp only [not_or] at hp
        refine ⟨rfl, ?_, rfl, hp.2⟩
        simp [receiptItemSkipped, hc, ha, codeTruthy, hp.1]

theorem receiptEntry?_of_skipped {item : ReceiptItem} (h : receiptItemSkipped item = true) :
    receiptEntry? item = none := by
  cases he : receiptEntry? item with
  | none => rfl
  | some e =>
    have := (receiptEntry?_some he).2.1
    rw [h] at this
    cases this

/-- The result of the invoice aggregator depends on the input only through the entries of
the items that are not skipped. -/
theorem calculateStockTypeAmounts_entries (invoices : List Invoice) (br : String) :
    calculateStockTypeAmounts invoices br =
      netsOf numIndex? stockNet?
        (((invoiceEntries invoices).map stockUpdate).foldl (upsert ⟨0, 0, 0, 0⟩) []) := by
  rw [calculateStockTypeAmounts_eq, stockTypeMapOf_eq]

/-- The result of the receipt aggregator depends on the input only through the entries of
the items that reach a bucket. -/
theorem calculatePaymentTypeAmounts_entries (receipts : List Receipt) :
    calculatePaymentTypeAmounts receipts =
      netsOf strIndex? paymentNet?
        (((receiptEntries receipts).map paymentUpdate).foldl (upsert ⟨0, 0⟩) []) := by
  rw [calculatePaymentTypeAmounts_eq, paymentTypeMapOf_eq]

/-- Removing the invoice items of some categories removes these categories from the result
of the aggregator and changes nothing else. -/
theorem calculateStockTypeAmounts_remove (p : ℚ → Bool) (keep : InvoiceItem → Bool)
    (hkeep : ∀ item q, stockTypeIdOf item = some q → keep item = p q)
    (invoices : List Invoice) (br : String) :
    calculateStockTypeAmounts (invoices.map (removeInvoiceItems keep)) br =
      (calculateStockTypeAmounts invoices br).filter fun e => p e.1 := by
  rw [calculateStockTypeAmounts_entries, calculateStockTypeAmounts_entries,
    ← netsOf_foldl_filter]
  congr 2
  unfold invoiceEntries
  rw [allInvoiceItems_remove,
    filterMap_filter_comm invoiceEntry? keep (fun e => p e.1) _
      (fun x _ e he => hkeep x e.1 (invoiceEntry?_some he).1)]
  rw [List.filter_map]
  rfl

/-- Removing the receipt items of some payment codes removes these codes from the result of
the aggregator and changes nothing else. -/
theorem calculatePaymentTypeAmounts_remove (p : String → Bool) (keep : ReceiptItem → Bool)
    (hkeep : ∀ item c, paymentTypeCodeOf item = some c → keep item = p c)
    (receipts : List Receipt) :
    calculatePaymentTypeAmounts (receipts.map (removeReceiptItems keep)) =
      (calculatePaymentTypeAmounts receipts).filter fun e => p e.1 := by
  rw [calculatePaymentTypeAmounts_entries, calculatePaymentTypeAmounts_entries,
    ← netsOf_foldl_filter]
  congr 2
  unfold receiptEntries
  rw [allReceiptItems_remove,
    filterMap_filter_comm receiptEntry? keep (fun e => p e.1) _
      (fun x _ e he => hkeep x e.1 (receiptEntry?_some he).1)]
  rw [List.filter_map]
  rfl

/-! ## Threshold and malformed items -/

theorem filter_ne_eq_self_of_getProp_none {K V : Type} [DecidableEq K] (m : JsObject K V)
    (c : K) (h : getProp m c = none) : (m.filter fun e => decide (e.1 ≠ c)) = m := by
  apply List.filter_eq_self.mpr
  intro e he
  have hc : c ∉ keysOf m := (getProp_eq_none_iff m c).mp h
  have : e.1 ≠ c := by
    rintro rfl
    exact hc (List.mem_map_of_mem Prod.fst he)
  simpa using this

/-- C3: a category whose net total and net GST are both within the threshold is not a key of
the aggregated map, and the journal lines are those of the input without the items of that
category; likewise a payment code whose net amount is within the threshold is not a key of
the aggregated map, and the receipt lines are those of the input without the items of that
code. -/
theorem threshold_property :
    (∀ (invoices : List Invoice) (br bn : String) (c : ℚ) (b : StockBucket),
      getProp (stockTypeMapOf invoices) c = some b →
      |b.totalPositive - b.totalNegative| ≤ 1 / 100 →
      |b.gstPositive - b.gstNegative| ≤ 1 / 100 →
      getProp (calculateStockTypeAmounts invoices br) c = none ∧
      buildJournalLines (calculateStockTypeAmounts invoices br) bn =
        buildJournalLines
          (calculateStockTypeAmounts
            (invoices.map (removeInvoiceItems fun item => decide (stockTypeIdOf item ≠ some c)))
            br) bn) ∧
    (∀ (receipts : List Receipt) (bn : String) (code : String) (b : PaymentBucket),
      getProp (paymentTypeMapOf receipts) code = some b →
      |b.positiveSum - b.negativeSum| ≤ 1 / 100 →
      getProp (calculatePaymentTypeAmounts receipts) code = none ∧
      buildReceiptJournalLines receipts bn =
        buildReceiptJournalLines
          (receipts.map
            (removeReceiptItems fun item => decide (paymentTypeCodeOf item ≠ some code)))
          bn) := by
  constructor
  · intro invoices br bn c b hb ht hg
    have hnone : getProp (calculateStockTypeAmounts invoices br) c = none := by
      rw [calculateStockTypeAmounts_eq, getProp_netsOf, hb]
      show stockNet? b = none
      unfold stockNet?
      rw [if_neg]
      rintro (h | h) <;> linarith
    refine ⟨hnone, ?_⟩
    rw [calculateStockTypeAmounts_remove (fun q => decide (q ≠ c)) _
      (fun item q hq => by simp [hq]) invoices br,
      filter_ne_eq_self_of_getProp_none _ c hnone]
  · intro receipts bn code b hb ht
    have hnone : getProp (calculatePaymentTypeAmounts receipts) code = none := by
      rw [calculatePaymentTypeAmounts_eq, getProp_netsOf, hb]
      show paymentNet? b = none
      unfold paymentNet?
      rw [if_neg]
      intro h
      linarith
    refine ⟨hnone, ?_⟩
    unfold buildReceiptJournalLines
    rw [calculatePaymentTypeAmounts_remove (fun q => decide (q ≠ code)) _
      (fun item q hq => by simp [hq]) receipts,
      filter_ne_eq_self_of_getProp_none _ code hnone]

theorem threshold_property_witness :
    (getProp (calculateStockTypeAmounts refundedInvoices "PA1") 4 = none ∧
      buildJournalLines (calculateStockTypeAmounts refundedInvoices "PA1") "Parramatta" =
        buildJournalLines
          (calculateStockTypeAmounts
            (refundedInvoices.map
              (removeInvoiceItems fun item => decide (stockTypeIdOf item ≠ some 4)))
            "PA1") "Parramatta") ∧
    (getProp (calculatePaymentTypeAmounts refundedReceipts) "CAS" = none ∧
      buildReceiptJournalLines refundedReceipts "Parramatta" =
        buildReceiptJournalLines
          (refundedReceipts.map
            (removeReceiptItems fun item => decide (paymentTypeCodeOf item ≠ some "CAS")))
          "Parramatta") :=
  ⟨threshold_property.1 refundedInvoices "PA1" "Parramatta" 4 ⟨110, 110, 10, 10⟩
      (by decide!) (by norm_num) (by norm_num),
    threshold_property.2 refundedReceipts "Parramatta" "CAS" ⟨50, 50⟩
      (by decide!) (by norm_num)⟩

theorem filterMap_filter_of_none {α β : Type} (f : α → Option β) (q : α → Bool) (l : List α)
    (h : ∀ x ∈ l, q x = false → f x = none) : (l.filter q).filterMap f = l.filterMap f := by
  induction l with
  | nil => rfl
  | cons x l ih =>
    have ih2 := ih (fun y hy => h y (List.mem_cons_of_mem _ hy))
    by_cases hq : q x = true
    · rw [List.filter_cons_of_pos hq]
      cases hf : f x with
      | none => rw [List.filterMap_cons_none hf, List.filterMap_cons_none hf, ih2]
      | some e => rw [List.filterMap_cons_some hf, List.filterMap_cons_some hf, ih2]
    · rw [List.filter_cons_of_neg hq,
        List.filterMap_cons_none (h x (List.mem_cons_self _ _) (by simpa using hq)), ih2]

theorem addTotal_net (t : Option ℚ) (b : StockBucket) :
    (addTotal t b).totalPositive - (addTotal t b).totalNegative
        = b.totalPositive - b.totalNegative + t.getD 0 ∧
      (addTotal t b).gstPositive = b.gstPositive ∧
      (addTotal t b).gstNegative = b.gstNegative := by
  cases t with
  | none => simp [addTotal]
  | some t =>
    by_cases h1 : t > 0
    · have e : addTotal (some t) b = { b with totalPositive := b.totalPositive + t } := by
        simp only [addTotal, if_pos h1]
      rw [e]
      exact ⟨by simp only [Option.getD_some]; ring, rfl, rfl⟩
    · by_cases h2 : t < 0
      · have e : addTotal (some t) b = { b with totalNegative := b.totalNegative + |t| } := by
          simp only [addTotal, if_neg h1, if_pos h2]
        rw [e]
        exact ⟨by simp only [Option.getD_some, abs_of_neg h2]; ring, rfl, rfl⟩
      · have h3 : t = 0 := le_antisymm (not_lt.mp h1) (not_lt.mp h2)
        have e : addTotal (some t) b = b := by
          simp only [addTotal, if_neg h1, if_neg h2]
        rw [e]
        exact ⟨by simp [h3], rfl, rfl⟩

theorem addGst_net (g : Option ℚ) (b : StockBucket) :
    (addGst g b).gstPositive - (addGst g b).gstNegative
        = b.gstPositive - b.gstNegative + g.getD 0 ∧
      (addGst g b).totalPositive = b.totalPositive ∧
      (addGst g b).totalNegative = b.totalNegative := by
  cases g with
  | none => simp [addGst]
  | some g =>
    by_cases h1 : g > 0
    · have e : addGst (some g) b = { b with gstPositive := b.gstPositive + g } := by
        simp only [addGst, if_pos h1]
      rw [e]
      exact ⟨by simp only [Option.getD_some]; ring, rfl, rfl⟩
    · by_cases h2 : g < 0
      · have e : addGst (some g) b = { b with gstNegative := b.gstNegative + |g| } := by
          simp only [addGst, if_neg h1, if_pos h2]
        rw [e]
        exact ⟨by simp only [Option.getD_some, abs_of_neg h2]; ring, rfl, rfl⟩
      · have h3 : g = 0 := le_antisymm (not_lt.mp h1) (not_lt.mp h2)
        have e : addGst (some g) b = b := by
          simp only [addGst, if_neg h1, if_neg h2]
        rw [e]
        exact ⟨by simp [h3], rfl, rfl⟩

theorem addAmount_net (a : ℚ) (b : PaymentBucket) :
    (addAmount a b).positiveSum - (addAmount a b).negativeSum
      = b.positiveSum - b.negativeSum + a := by
  unfold addAmount
  by_cases h1 : a > 0
  · simp only [if_pos h1]; ring
  · simp only [if_neg h1, abs_of_nonpos (not_lt.mp h1)]; ring

/-- The effect on the map of an invoice item that is not skipped: the bucket of its category
receives its parsed total and its parsed GST amount, an unparseable one counting for zero. -/
theorem addInvoiceItem_effect (m : JsObject ℚ StockBucket) (item : InvoiceItem) (c : ℚ)
    (hid : stockTypeIdOf item = some c) (hs : invoiceItemSkipped item = false) :
    ∃ b1 : StockBucket, getProp (addInvoiceItem m item) c = some b1 ∧
      b1.totalPositive - b1.totalNegative
        = ((getProp m c).getD ⟨0, 0, 0, 0⟩).totalPositive
          - ((getProp m c).getD ⟨0, 0, 0, 0⟩).totalNegative
          + (parseFloat (totalArg item)).getD 0 ∧
      b1.gstPositive - b1.gstNegative
        = ((getProp m c).getD ⟨0, 0, 0, 0⟩).gstPositive
          - ((getProp m c).getD ⟨0, 0, 0, 0⟩).gstNegative
          + (parseFloat (gstAmountArg item)).getD 0 := by
  have he : invoiceEntry? item
      = some (c, parseFloat (totalArg item), parseFloat (gstAmountArg item)) := by
    unfold invoiceEntry?
    simp [hid, hs]
  rw [addInvoiceItem_eq, he]
  simp only []
  rw [getProp_upsert]
  simp only [stockUpdate, if_true]
  refine ⟨_, rfl, ?_, ?_⟩
  · have h1 := addTotal_net (parseFloat (totalArg item)) ((getProp m c).getD ⟨0, 0, 0, 0⟩)
    have h2 := addGst_net (parseFloat (gstAmountArg item))
      (addTotal (parseFloat (totalArg item)) ((getProp m c).getD ⟨0, 0, 0, 0⟩))
    rw [h2.2.1, h2.2.2, h1.1]
  · have h1 := addTotal_net (parseFloat (totalArg item)) ((getProp m c).getD ⟨0, 0, 0, 0⟩)
    have h2 := addGst_net (parseFloat (gstAmountArg item))
      (addTotal (parseFloat (totalArg item)) ((getProp m c).getD ⟨0, 0, 0, 0⟩))
    rw [h2.1, h1.2.1, h1.2.2]

/-- C9: removing the skipped invoice items (no truthy category id, or total and GST amount
both unparseable) does not change the result of `calculateStockTypeAmounts`; an item with a
category id and exactly one unparseable amount is not skipped and adds its parseable amount
to the net of its category and nothing for the other; removing the skipped receipt items (no
truthy payment code, or unparseable amount) does not change the result of
`calculatePaymentTypeAmounts`. -/
theorem malformed_items_skipped :
    (∀ (invoices : List Invoice) (br : String),
      calculateStockTypeAmounts
          (invoices.map (removeInvoiceItems fun item => !invoiceItemSkipped item)) br
        = calculateStockTypeAmounts invoices br) ∧
    (∀ (m : JsObject ℚ StockBucket) (item : InvoiceItem) (c t : ℚ),
      stockTypeIdOf item = some c → c ≠ 0 →
      parseFloat (totalArg item) = some t → parseFloat (gstAmountArg item) = none →
      invoiceItemSkipped item = false ∧
      ∃ b1 : StockBucket, getProp (addInvoiceItem m item) c = some b1 ∧
        b1.totalPositive - b1.totalNegative
          = ((getProp m c).getD ⟨0, 0, 0, 0⟩).totalPositive
            - ((getProp m c).getD ⟨0, 0, 0, 0⟩).totalNegative + t ∧
        b1.gstPositive - b1.gstNegative
          = ((getProp m c).getD ⟨0, 0, 0, 0⟩).gstPositive
            - ((getProp m c).getD ⟨0, 0, 0, 0⟩).gstNegative) ∧
    (∀ (m : JsObject ℚ StockBucket) (item : InvoiceItem) (c g : ℚ),
      stockTypeIdOf item = some c → c ≠ 0 →
      parseFloat (totalArg item) = none → parseFloat (gstAmountArg item) = some g →
      invoiceItemSkipped item = false ∧
      ∃ b1 : StockBucket, getProp (addInvoiceItem m item) c = some b1 ∧
        b1.totalPositive - b1.totalNegative
          = ((getProp m c).getD ⟨0, 0, 0, 0⟩).totalPositive
            - ((getProp m c).getD ⟨0, 0, 0, 0⟩).totalNegative ∧
        b1.gstPositive - b1.gstNegative
          = ((getProp m c).getD ⟨0, 0, 0, 0⟩).gstPositive
            - ((getProp m c).getD ⟨0, 0, 0, 0⟩).gstNegative + g) ∧
    (∀ receipts : List Receipt,
      calculatePaymentTypeAmounts
          (receipts.map (removeReceiptItems fun item => !receiptItemSkipped item))
        = calculatePaymentTypeAmounts receipts) := by
  refine ⟨?_, ?_, ?_, ?_⟩
  · intro invoices br
    rw [calculateStockTypeAmounts_entries, calculateStockTypeAmounts_entries]
    unfold invoiceEntries
    rw [allInvoiceItems_remove, filterMap_filter_of_none]
    intro x _ hx
    cases he : invoiceEntry? x with
    | none => rfl
    | some e =>
      have := (invoiceEntry?_some he).2.1
      simp [this] at hx
  · intro m item c t hid hc ht hg
    have hs : invoiceItemSkipped item = false := by
      simp [invoiceItemSkipped, hid, idTruthy, hc, ht]
    obtain ⟨b1, h1, h2, h3⟩ := addInvoiceItem_effect m item c hid hs
    refine ⟨hs, b1, h1, ?_, ?_⟩
    · rw [h2, ht]; rfl
    · rw [h3, hg]; simp
  · intro m item c g hid hc ht hg
    have hs : invoiceItemSkipped item = false := by
      simp [invoiceItemSkipped, hid, idTruthy, hc, hg]
    obtain ⟨b1, h1, h2, h3⟩ := addInvoiceItem_effect m item c hid hs
    refine ⟨hs, b1, h1, ?_, ?_⟩
    · rw [h2, ht]; simp
    · rw [h3, hg]; rfl
  · intro receipts
    rw [calculatePaymentTypeAmounts_entries, calculatePaymentTypeAmounts_entries]
    unfold receiptEntries
    rw [allReceiptItems_remove, filterMap_filter_of_none]
    intro x _ hx
    exact receiptEntry?_of_skipped (by simpa using hx)

theorem malformed_items_skipped_witness :
    invoiceItemSkipped halfParsedItem = false ∧
      ∃ b1 : StockBucket, getProp (addInvoiceItem [] halfParsedItem) 4 = some b1 ∧
        b1.totalPositive - b1.totalNegative
          = ((getProp ([] : JsObject ℚ StockBucket) 4).getD ⟨0, 0, 0, 0⟩).totalPositive
            - ((getProp ([] : JsObject ℚ StockBucket) 4).getD ⟨0, 0, 0, 0⟩).totalNegative + 110 ∧
        b1.gstPositive - b1.gstNegative
          = ((getProp ([] : JsObject ℚ StockBucket) 4).getD ⟨0, 0, 0, 0⟩).gstPositive
            - ((getProp ([] : JsObject ℚ StockBucket) 4).getD ⟨0, 0, 0, 0⟩).gstNegative :=
  malformed_items_skipped.2.1 [] halfParsedItem 4 110 (by decide!) (by norm_num) (by decide!)
    (by decide!)

/-! ## Net amounts as signed sums -/

theorem mem_map_fst_iff_filter_ne_nil {K E : Type} [DecidableEq K] (l : List (K × E)) (k : K) :
    k ∈ l.map Prod.fst ↔ (l.filter fun e => decide (e.1 = k)) ≠ [] := by
  rw [Ne, List.filter_eq_nil_iff]
  simp only [List.mem_map, decide_eq_true_eq, not_forall, Classical.not_not]
  constructor
  · rintro ⟨e, he, rfl⟩; exact ⟨e, he, rfl⟩
  · rintro ⟨e, he, h⟩; exact ⟨e, he, h⟩

theorem invoiceEntries_filter (invoices : List Invoice) (c : ℚ) :
    ((invoiceEntries invoices).filter fun e => decide (e.1 = c)) =
      (categoryItems invoices c).map fun item =>
        (c, parseFloat (totalArg item), parseFloat (gstAmountArg item)) := by
  unfold invoiceEntries categoryItems
  induction allInvoiceItems invoices with
  | nil => rfl
  | cons item items ih =>
    cases he : invoiceEntry? item with
    | none =>
      have hs := invoiceEntry?_none he
      rw [List.filterMap_cons_none he, ih, List.filter_cons_of_neg (by simp [hs])]
    | some e =>
      obtain ⟨hid, hs, ht, hg⟩ := invoiceEntry?_some he
      rw [List.filterMap_cons_some he]
      by_cases hc : e.1 = c
      · rw [List.filter_cons_of_pos (by simpa using hc),
          List.filter_cons_of_pos (by simp [hs, hid, hc]), List.map_cons, ih, ← ht, ← hg, ← hc]
      · rw [List.filter_cons_of_neg (by simpa using hc),
          List.filter_cons_of_neg (by simp [hs, hid, hc]), ih]

theorem receiptEntries_filter (receipts : List Receipt) (code : String)
    (hcode : code ∉ objectPrototypeKeys) :
    ((receiptEntries receipts).filter fun e => decide (e.1 = code)) =
      (codeItems receipts code).filterMap fun item =>
        (parseFloat (amountArg item)).map fun a => (code, a) := by
  unfold receiptEntries codeItems
  induction allReceiptItems receipts with
  | nil => rfl
  | cons item items ih =>
    cases he : receiptEntry? item with
    | none =>
      rw [List.filterMap_cons_none he, ih]
      by_cases hq : (!receiptItemSkipped item && decide (paymentTypeCodeOf item = some code))
          = true
      · exfalso
        simp only [Bool.and_eq_true, Bool.not_eq_true', decide_eq_true_eq] at hq
        obtain ⟨hs, hc⟩ := hq
        unfold receiptEntry? at he
        unfold receiptItemSkipped at hs
        rw [hc] at he hs
        cases ha : parseFloat (amountArg item) with
        | none => simp [ha] at hs
        | some a =>
          simp only [ha] at he
          by_cases h0 : code = ""
          · simp [h0, codeTruthy] at hs
          · simp [h0, hcode] at he
      · rw [List.filter_cons, if_neg hq]
    | some e =>
      obtain ⟨hc, hs, ha, _⟩ := receiptEntry?_some he
      rw [List.filterMap_cons_some he]
      by_cases hk : e.1 = code
      · rw [List.filter_cons_of_pos (by simpa using hk),
          List.filter_cons_of_pos (by simp [hs, hc, hk]),
          List.filterMap_cons_some (by rw [ha]; rfl), ih, ← hk]
      · rw [List.filter_cons_of_neg (by simpa using hk),
          List.filter_cons_of_neg (by simp [hs, hc, hk]), ih]

theorem stock_bucket_nets (ds : List (ℚ × Option ℚ × Option ℚ)) (b0 : StockBucket) :
    (applyAll ((ds.map stockUpdate).map Prod.snd) b0).totalPositive
        - (applyAll ((ds.map stockUpdate).map Prod.snd) b0).totalNegative
      = b0.totalPositive - b0.totalNegative + (ds.filterMap fun d => d.2.1).sum ∧
    (applyAll ((ds.map stockUpdate).map Prod.snd) b0).gstPositive
        - (applyAll ((ds.map stockUpdate).map Prod.snd) b0).gstNegative
      = b0.gstPositive - b0.gstNegative + (ds.filterMap fun d => d.2.2).sum := by
  induction ds generalizing b0 with
  | nil => simp [applyAll]
  | cons d ds ih =>
    obtain ⟨k, t, g⟩ := d
    have h1 := addTotal_net t b0
    have h2 := addGst_net g (addTotal t b0)
    have ih2 := ih (addGst g (addTotal t b0))
    simp only [applyAll, List.map_cons, List.foldl_cons, stockUpdate] at ih2 ⊢
    constructor
    · rw [ih2.1, h2.2.1, h2.2.2, h1.1]
      cases t with
      | none => simp [List.filterMap_cons]
      | some t => simp [List.filterMap_cons]; ring
    · rw [ih2.2, h2.1, h1.2.1, h1.2.2]
      cases g with
      | none => simp [List.filterMap_cons]
      | some g => simp [List.filterMap_cons]; ring

theorem payment_bucket_net (ds : List (String × ℚ)) (b0 : PaymentBucket) :
    (applyAll ((ds.map paymentUpdate).map Prod.snd) b0).positiveSum
        - (applyAll ((ds.map paymentUpdate).map Prod.snd) b0).negativeSum
      = b0.positiveSum - b0.negativeSum + (ds.map Prod.snd).sum := by
  induction ds generalizing b0 with
  | nil => simp [applyAll]
  | cons d ds ih =>
    have h1 := addAmount_net d.2 b0
    have ih2 := ih (addAmount d.2 b0)
    simp only [applyAll, List.map_cons, List.foldl_cons, paymentUpdate] at ih2 ⊢
    rw [ih2, h1, List.sum_cons]
    ring

theorem filter_map_update {K D V : Type} [DecidableEq K] (u : (K × D) → K × (V → V))
    (hu : ∀ d, (u d).1 = d.1) (ds : List (K × D)) (k : K) :
    ((ds.map u).filter fun e => decide (e.1 = k))
      = (ds.filter fun d => decide (d.1 = k)).map u := by
  rw [List.filter_map]
  congr 1
  apply List.filter_congr
  intro d _
  simp [hu]

/-- The bucket of a category at the end of the loops of the invoice aggregator. -/
theorem getProp_stockTypeMapOf (invoices : List Invoice) (c : ℚ) :
    getProp (stockTypeMapOf invoices) c =
      if categoryItems invoices c ≠ [] then
        some (applyAll ((((categoryItems invoices c).map fun item =>
          (c, parseFloat (totalArg item), parseFloat (gstAmountArg item))).map
            stockUpdate).map Prod.snd) ⟨0, 0, 0, 0⟩)
      else none := by
  rw [stockTypeMapOf_eq, getProp_foldl_upsert]
  have h1 : (c ∈ keysOf ([] : JsObject ℚ StockBucket)
      ∨ c ∈ ((invoiceEntries invoices).map stockUpdate).map Prod.fst)
      ↔ categoryItems invoices c ≠ [] := by
    rw [mem_map_fst_iff_filter_ne_nil, filter_map_update stockUpdate (fun _ => rfl),
      invoiceEntries_filter]
    simp [keysOf]
  rw [filter_map_update stockUpdate (fun _ => rfl), invoiceEntries_filter]
  by_cases h : categoryItems invoices c ≠ []
  · rw [if_pos (h1.mpr h), if_pos h]
    rfl
  · rw [if_neg (fun h2 => h (h1.mp h2)), if_neg h]

/-- The entry of a category in the result of `calculateStockTypeAmounts`: present when an
item of the category is not skipped and one of the signed sums exceeds the threshold, and
then made of the two signed sums. -/
theorem getProp_calculateStockTypeAmounts (invoices : List Invoice) (br : String) (c : ℚ) :
    getProp (calculateStockTypeAmounts invoices br) c =
      if categoryItems invoices c ≠ [] ∧
          (|signedTotal invoices c| > 1 / 100 ∨ |signedGst invoices c| > 1 / 100) then
        some ⟨signedTotal invoices c, signedGst invoices c⟩
      else none := by
  rw [calculateStockTypeAmounts_eq, getProp_netsOf, getProp_stockTypeMapOf]
  by_cases h : categoryItems invoices c ≠ []
  · rw [if_pos h]
    have hn := stock_bucket_nets ((categoryItems invoices c).map fun item =>
      (c, parseFloat (totalArg item), parseFloat (gstAmountArg item))) ⟨0, 0, 0, 0⟩
    simp only [List.filterMap_map, zero_sub, neg_zero, zero_add, sub_zero] at hn
    have e1 : ((categoryItems invoices c).filterMap
        ((fun d : ℚ × Option ℚ × Option ℚ => d.2.1) ∘ fun item =>
          (c, parseFloat (totalArg item), parseFloat (gstAmountArg item)))).sum
        = signedTotal invoices c := rfl
    have e2 : ((categoryItems invoices c).filterMap
        ((fun d : ℚ × Option ℚ × Option ℚ => d.2.2) ∘ fun item =>
          (c, parseFloat (totalArg item), parseFloat (gstAmountArg item)))).sum
        = signedGst invoices c := rfl
    rw [e1, e2] at hn
    show stockNet? _ = _
    unfold stockNet?
    rw [hn.1, hn.2]
    by_cases ht : |signedTotal invoices c| > 1 / 100 ∨ |signedGst invoices c| > 1 / 100
    · rw [if_pos ht, if_pos ⟨h, ht⟩]
    · rw [if_neg ht, if_neg (fun h2 => ht h2.2)]
  · rw [if_neg h, if_neg (fun h2 => h h2.1)]
    rfl

theorem receiptEntries_filter_inherited (receipts : List Receipt) (code : String)
    (hcode : code ∈ objectPrototypeKeys) :
    ((receiptEntries receipts).filter fun e => decide (e.1 = code)) = [] := by
  rw [List.filter_eq_nil_iff]
  intro e he
  unfold receiptEntries at he
  obtain ⟨item, _, hitem⟩ := List.mem_filterMap.mp he
  have := (receiptEntry?_some hitem).2.2.2
  simp only [decide_eq_true_eq]
  rintro rfl
  exact this hcode

theorem codeItems_parse {receipts : List Receipt} {code : String} {item : ReceiptItem}
    (h : item ∈ codeItems receipts code) : parseFloat (amountArg item) ≠ none := by
  unfold codeItems at h
  have h2 := (List.mem_filter.mp h).2
  simp only [Bool.and_eq_true, Bool.not_eq_true', decide_eq_true_eq] at h2
  intro hn
  have := h2.1
  simp [receiptItemSkipped, hn] at this

/-- The bucket of a payment code at the end of the loops of the receipt aggregator. -/
theorem getProp_paymentTypeMapOf (receipts : List Receipt) (code : String) :
    getProp (paymentTypeMapOf receipts) code =
      if code ∉ objectPrototypeKeys ∧ codeItems receipts code ≠ [] then
        some (applyAll ((((codeItems receipts code).filterMap fun item =>
          (parseFloat (amountArg item)).map fun a => (code, a)).map paymentUpdate).map
            Prod.snd) ⟨0, 0⟩)
      else none := by
  rw [paymentTypeMapOf_eq, getProp_foldl_upsert]
  have hD := filter_map_update (V := PaymentBucket) paymentUpdate (fun _ => rfl)
    (receiptEntries receipts) code
  have h1 : (code ∈ keysOf ([] : JsObject String PaymentBucket)
      ∨ code ∈ ((receiptEntries receipts).map paymentUpdate).map Prod.fst)
      ↔ ((receiptEntries receipts).filter fun e => decide (e.1 = code)) ≠ [] := by
    rw [mem_map_fst_iff_filter_ne_nil, hD]
    simp [keysOf]
  rw [hD]
  by_cases hcode : code ∈ objectPrototypeKeys
  · have e := receiptEntries_filter_inherited receipts code hcode
    rw [if_neg (fun h3 => (h1.mp h3) e), if_neg (fun h3 => h3.1 hcode)]
  · have e := receiptEntries_filter receipts code hcode
    by_cases h : codeItems receipts code ≠ []
    · have h2 : ((codeItems receipts code).filterMap fun item =>
          (parseFloat (amountArg item)).map fun a => (code, a)) ≠ [] := by
        intro hnil
        rw [List.filterMap_eq_nil_iff] at hnil
        obtain ⟨x, xs, hx⟩ := List.exists_cons_of_ne_nil h
        have hm : x ∈ codeItems receipts code := by rw [hx]; exact List.mem_cons_self _ _
        have h3 := hnil x hm
        have h4 := codeItems_parse hm
        cases hp : parseFloat (amountArg x) with
        | none => exact h4 hp
        | some a => simp [hp] at h3
      rw [if_pos (h1.mpr (by rw [e]; exact h2)), if_pos ⟨hcode, h⟩, e]
      rfl
    · have h2 : codeItems receipts code = [] := by simpa using h
      rw [if_neg (fun h3 => (h1.mp h3) (by rw [e, h2]; rfl)), if_neg (fun h3 => h h3.2)]

/-- The entry of a payment code in the result of `calculatePaymentTypeAmounts`: present when
the code is not the name of an inherited member, an item of the code is not skipped and the
signed sum exceeds the threshold, and then equal to the signed sum. -/
theorem getProp_calculatePaymentTypeAmounts (receipts : List Receipt) (code : String) :
    getProp (calculatePaymentTypeAmounts receipts) code =
      if code ∉ objectPrototypeKeys ∧ codeItems receipts code ≠ [] ∧
          |signedAmount receipts code| > 1 / 100 then
        some (signedAmount receipts code)
      else none := by
  rw [calculatePaymentTypeAmounts_eq, getProp_netsOf, getProp_paymentTypeMapOf]
  by_cases h : code ∉ objectPrototypeKeys ∧ codeItems receipts code ≠ []
  · rw [if_pos h]
    have hn := payment_bucket_net ((codeItems receipts code).filterMap fun item =>
      (parseFloat (amountArg item)).map fun a => (code, a)) ⟨0, 0⟩
    have e1 : (((codeItems receipts code).filterMap fun item =>
        (parseFloat (amountArg item)).map fun a => (code, a)).map Prod.snd).sum
        = signedAmount receipts code := by
      unfold signedAmount
      rw [List.map_filterMap]
      congr 1
      apply List.filterMap_congr
      intro x _
      cases parseFloat (amountArg x) <;> rfl
    rw [e1] at hn
    simp only [sub_zero, zero_add] at hn
    show paymentNet? _ = _
    unfold paymentNet?
    rw [hn]
    by_cases ht : |signedAmount receipts code| > 1 / 100
    · rw [if_pos ht, if_pos ⟨h.1, h.2, ht⟩]
    · rw [if_neg ht, if_neg (fun h2 => ht h2.2.2)]
  · rw [if_neg h, if_neg (fun h2 => h ⟨h2.1, h2.2.1⟩)]
    rfl

/-- C7: the two-bucket netting equals a plain signed sum. For every category in the result of
`calculateStockTypeAmounts`, `netTotal` is the signed sum of the parsed totals and `netGst`
the signed sum of the parsed GST amounts of the items of the category that are not skipped;
for every code in the result of `calculatePaymentTypeAmounts`, the net amount is the signed
sum of the parsed amounts of the items of the code that are not skipped. -/
theorem netting_eq_signed_sum :
    (∀ (invoices : List Invoice) (br : String) (c : ℚ) (net : StockNet),
      getProp (calculateStockTypeAmounts invoices br) c = some net →
      net.netTotal = signedTotal invoices c ∧ net.netGst = signedGst invoices c) ∧
    (∀ (receipts : List Receipt) (code : String) (net : ℚ),
      getProp (calculatePaymentTypeAmounts receipts) code = some net →
      net = signedAmount receipts code) := by
  constructor
  · intro invoices br c net h
    rw [getProp_calculateStockTypeAmounts] at h
    split_ifs at h
    cases h
    exact ⟨rfl, rfl⟩
  · intro receipts code net h
    rw [getProp_calculatePaymentTypeAmounts] at h
    split_ifs at h
    cases h
    rfl

theorem netting_eq_signed_sum_witness :
    ((100 : ℚ) = signedTotal refundedInvoices 5 ∧ (0 : ℚ) = signedGst refundedInvoices 5) ∧
    (75 : ℚ) = signedAmount refundedReceipts "VIS" :=
  ⟨netting_eq_signed_sum.1 refundedInvoices "PA1" 5 ⟨100, 0⟩ (by decide!),
    netting_eq_signed_sum.2 refundedReceipts "VIS" 75 (by decide!)⟩

/-! ## The two sort orders -/

theorem unitsLE_refl (a : List ℕ) : unitsLE a a = true := by
  induction a with
  | nil => rfl
  | cons x xs ih => simp [unitsLE, ih]

theorem unitsLE_total (a b : List ℕ) : unitsLE a b = true ∨ unitsLE b a = true := by
  induction a generalizing b with
  | nil => exact Or.inl rfl
  | cons x xs ih =>
    cases b with
    | nil => exact Or.inr rfl
    | cons y ys =>
      simp only [unitsLE, Bool.or_eq_true, Bool.and_eq_true, decide_eq_true_eq]
      rcases lt_trichotomy x y with h | h | h
      · exact Or.inl (Or.inl h)
      · rcases ih ys with h2 | h2
        · exact Or.inl (Or.inr ⟨h, h2⟩)
        · exact Or.inr (Or.inr ⟨h.symm, h2⟩)
      · exact Or.inr (Or.inl h)

theorem unitsLE_trans (a b c : List ℕ) (h1 : unitsLE a b = true) (h2 : unitsLE b c = true) :
    unitsLE a c = true := by
  induction a generalizing b c with
  | nil => rfl
  | cons x xs ih =>
    cases b with
    | nil => simp [unitsLE] at h1
    | cons y ys =>
      cases c with
      | nil => simp [unitsLE] at h2
      | cons z zs =>
        simp only [unitsLE, Bool.or_eq_true, Bool.and_eq_true, decide_eq_true_eq] at h1 h2 ⊢
        rcases h1 with h1 | ⟨h1, h1b⟩
        · rcases h2 with h2 | ⟨h2, _⟩
          · exact Or.inl (lt_trans h1 h2)
          · exact Or.inl (h2 ▸ h1)
        · rcases h2 with h2 | ⟨h2, h2b⟩
          · exact Or.inl (h1 ▸ h2)
          · exact Or.inr ⟨h1.trans h2, ih ys zs h1b h2b⟩

theorem unitsLE_antisymm (a b : List ℕ) (h1 : unitsLE a b = true) (h2 : unitsLE b a = true) :
    a = b := by
  induction a generalizing b with
  | nil =>
    cases b with
    | nil => rfl
    | cons y ys => simp [unitsLE] at h2
  | cons x xs ih =>
    cases b with
    | nil => simp [unitsLE] at h1
    | cons y ys =>
      simp only [unitsLE, Bool.or_eq_true, Bool.and_eq_true, decide_eq_true_eq] at h1 h2
      rcases h1 with h1 | ⟨h1, h1b⟩
      · rcases h2 with h2 | ⟨h2, _⟩
        · exact absurd h1 (lt_asymm h2)
        · exact absurd h1 (by rw [h2]; exact lt_irrefl _)
      · rcases h2 with h2 | ⟨_, h2b⟩
        · exact absurd h2 (by rw [h1]; exact lt_irrefl _)
        · rw [h1, ih ys h1b h2b]

theorem defaultSortLE_total : IsTotal String defaultSortLE :=
  ⟨fun a b => unitsLE_total (toUTF16 a) (toUTF16 b)⟩

theorem defaultSortLE_trans : IsTrans String defaultSortLE :=
  ⟨fun a b c => unitsLE_trans (toUTF16 a) (toUTF16 b) (toUTF16 c)⟩

theorem parseIntLE_total : IsTotal ℚ parseIntLE :=
  ⟨fun a b => le_total (parseIntKey a) (parseIntKey b)⟩

theorem parseIntLE_trans : IsTrans ℚ parseIntLE :=
  ⟨fun _ _ _ h1 h2 => le_trans h1 h2⟩

theorem sortedStockTypeIds_filter (p : ℚ → Bool) (m : JsObject ℚ StockNet) :
    sortedStockTypeIds (m.filter fun e => p e.1) = (sortedStockTypeIds m).filter p := by
  haveI := parseIntLE_total
  haveI := parseIntLE_trans
  unfold sortedStockTypeIds
  rw [objectKeys_filter, filter_insertionSort]

theorem sortedPaymentCodes_filter (p : String → Bool) (m : JsObject String ℚ) :
    sortedPaymentCodes (m.filter fun e => p e.1) = (sortedPaymentCodes m).filter p := by
  haveI := defaultSortLE_total
  haveI := defaultSortLE_trans
  unfold sortedPaymentCodes
  rw [objectKeys_filter, filter_insertionSort]

/-- Categories that `getStockTypeInfo` does not find have no influence on the journal
lines. -/
theorem buildJournalLines_filter (p : ℚ → Bool) (m : JsObject ℚ StockNet) (bn : String)
    (hp : ∀ k, p k = false → getStockTypeInfo (parseIntKey k) = none) :
    buildJournalLines (m.filter fun e => p e.1) bn = buildJournalLines m bn := by
  have h1 : (sortedStockTypeIds (m.filter fun e => p e.1)).filterMap
      (gstOnIncomeLine? (m.filter fun e => p e.1) bn)
      = (sortedStockTypeIds m).filterMap (gstOnIncomeLine? m bn) := by
    rw [sortedStockTypeIds_filter, List.filterMap_filter]
    apply List.filterMap_congr
    intro k _
    by_cases hk : p k = true
    · rw [if_pos hk]
      unfold gstOnIncomeLine?
      rw [getProp_filter, if_pos hk]
    · rw [if_neg hk]
      unfold gstOnIncomeLine?
      rw [hp k (by simpa using hk)]
      cases getProp m k <;> rfl
  have h2 : (sortedStockTypeIds (m.filter fun e => p e.1)).filterMap
      (gstFreeIncomeLine? (m.filter fun e => p e.1) bn)
      = (sortedStockTypeIds m).filterMap (gstFreeIncomeLine? m bn) := by
    rw [sortedStockTypeIds_filter, List.filterMap_filter]
    apply List.filterMap_congr
    intro k _
    by_cases hk : p k = true
    · rw [if_pos hk]
      unfold gstFreeIncomeLine?
      rw [getProp_filter, if_pos hk]
    · rw [if_neg hk]
      unfold gstFreeIncomeLine?
      rw [hp k (by simpa using hk)]
      cases getProp m k <;> rfl
  rw [buildJournalLines_eq, buildJournalLines_eq, h1, h2]

/-- Payment codes that `getPaymentTypeInfo` does not find have no influence on the receipt
lines. -/
theorem receiptLinesOf_filter (p : String → Bool) (m : JsObject String ℚ) (bn : String)
    (hp : ∀ k, p k = false → getPaymentTypeInfo k = none) :
    receiptLinesOf (m.filter fun e => p e.1) bn = receiptLinesOf m bn := by
  have h1 : (sortedPaymentCodes (m.filter fun e => p e.1)).filterMap
      (paymentLine? (m.filter fun e => p e.1) bn)
      = (sortedPaymentCodes m).filterMap (paymentLine? m bn) := by
    rw [sortedPaymentCodes_filter, List.filterMap_filter]
    apply List.filterMap_congr
    intro k _
    by_cases hk : p k = true
    · rw [if_pos hk]
      unfold paymentLine?
      rw [getProp_filter, if_pos hk]
    · rw [if_neg hk]
      unfold paymentLine?
      rw [hp k (by simpa using hk)]
      cases getProp m k <;> rfl
  rw [receiptLinesOf_eq, receiptLinesOf_eq, h1]

/-! ## Unknown references -/

/-- On an integer of magnitude below `1e21`, `parseInt` of the key reads the integer. -/
theorem parseIntKey_of_plainInteger (q : ℚ) (h : plainInteger q) : parseIntKey q = q.num := by
  obtain ⟨hden, hlt⟩ := h
  have hcond : q = 0 ∨ (1 / 10 ^ 6 ≤ |q| ∧ |q| < 10 ^ 21) := by
    by_cases h0 : q = 0
    · exact Or.inl h0
    · right
      refine ⟨?_, hlt⟩
      have hcast : ((q.num : ℤ) : ℚ) = q := Rat.coe_int_num_of_den_eq_one hden
      have hn : q.num ≠ 0 := Rat.num_ne_zero.mpr h0
      have h1 : (1 : ℤ) ≤ |q.num| := Int.one_le_abs hn
      have h2 : (1 : ℚ) ≤ |q| := by
        rw [← hcast, ← Int.cast_abs]
        exact_mod_cast h1
      have h3 : (1 : ℚ) / 10 ^ 6 ≤ 1 := by norm_num
      linarith
  unfold parseIntKey
  rw [if_pos hcond, hden]
  simp

theorem getStockTypeInfo_of_notInStockTypes (q : ℚ) (hplain : plainInteger q)
    (h : notInStockTypes q = true) : getStockTypeInfo (parseIntKey q) = none := by
  have hq : parseIntKey q = q.num := parseIntKey_of_plainInteger q hplain
  have hcast : ((q.num : ℤ) : ℚ) = q := Rat.coe_int_num_of_den_eq_one hplain.1
  unfold notInStockTypes at h
  simp only [decide_eq_true_eq] at h
  unfold getStockTypeInfo
  rw [List.find?_eq_none]
  intro st hst
  simp only [decide_eq_true_eq]
  intro heq
  apply h st hst
  rw [heq, hq, hcast]

theorem getPaymentTypeInfo_of_notInPaymentTypes (code : String)
    (h : notInPaymentTypes code = true) : getPaymentTypeInfo code = none := by
  unfold notInPaymentTypes at h
  simp only [decide_eq_true_eq] at h
  unfold getPaymentTypeInfo
  rw [List.find?_eq_none]
  intro pt hpt
  simpa using h pt hpt

/-- Removing from an invoice input every item whose category identifier is not read as an
id of `STOCK_TYPES` leaves the journal lines unchanged. -/
theorem unresolved_reference_removal (invoices : List Invoice) (br bn : String) :
    buildJournalLines
        (calculateStockTypeAmounts
          (invoices.map (removeInvoiceItems fun item => !hasUnresolvedId item)) br) bn
      = buildJournalLines (calculateStockTypeAmounts invoices br) bn := by
  rw [calculateStockTypeAmounts_remove
    (fun q => !(getStockTypeInfo (parseIntKey q)).isNone) _
    (fun item q hq => by simp [hasUnresolvedId, hq]) invoices br]
  refine buildJournalLines_filter (fun q => !(getStockTypeInfo (parseIntKey q)).isNone)
    (calculateStockTypeAmounts invoices br) bn ?_
  intro k hk
  simpa using hk

/-- Removing from an invoice input every item whose category identifier is an integer of
magnitude below `1e21` that is not an id of `STOCK_TYPES` leaves the journal lines unchanged,
and removing from a receipt
input every item whose payment code is not a code of `PAYMENT_TYPES` leaves the receipt lines
unchanged. -/
theorem unknown_reference_removal :
    (∀ (invoices : List Invoice) (br bn : String),
      buildJournalLines
          (calculateStockTypeAmounts
            (invoices.map (removeInvoiceItems fun item => !hasIntegerIdOutsideStockTypes item))
            br) bn
        = buildJournalLines (calculateStockTypeAmounts invoices br) bn) ∧
    (∀ (receipts : List Receipt) (bn : String),
      buildReceiptJournalLines
          (receipts.map (removeReceiptItems fun item => !hasCodeOutsidePaymentTypes item)) bn
        = buildReceiptJournalLines receipts bn) := by
  constructor
  · intro invoices br bn
    rw [calculateStockTypeAmounts_remove
      (fun q => !(decide (plainInteger q) && notInStockTypes q)) _
      (fun item q hq => by simp [hasIntegerIdOutsideStockTypes, hq]) invoices br]
    refine buildJournalLines_filter (fun q => !(decide (plainInteger q) && notInStockTypes q))
      (calculateStockTypeAmounts invoices br) bn ?_
    intro k hk
    simp only [Bool.not_eq_false', Bool.and_eq_true, decide_eq_true_eq] at hk
    exact getStockTypeInfo_of_notInStockTypes k hk.1 hk.2
  · intro receipts bn
    unfold buildReceiptJournalLines
    rw [calculatePaymentTypeAmounts_remove (fun c => !notInPaymentTypes c) _
      (fun item c hc => by simp [hasCodeOutsidePaymentTypes, hc]) receipts]
    refine receiptLinesOf_filter (fun c => !notInPaymentTypes c)
      (calculatePaymentTypeAmounts receipts) bn ?_
    intro k hk
    exact getPaymentTypeInfo_of_notInPaymentTypes k (by simpa using hk)

/-- C5 (as stated) fails: the category identifier 4.5 is not an id of `STOCK_TYPES`, yet
`parseInt` reads its key `4.5` as 4 and the item yields the lines of category 4, which
disappear when the item is removed; the same holds for the integer identifier `4e21`, whose
key `4e+21` is read as 4. -/
theorem unknown_reference_skip_counterexample :
    (∀ item ∈ allInvoiceItems fractionalIdInvoices, hasIdOutsideStockTypes item = true) ∧
    buildJournalLines (calculateStockTypeAmounts fractionalIdInvoices "PA1") "Parramatta"
      = [contentLine "Spectacle Lens" "40004" "OUTPUT" 220 "Parramatta",
          clearingLine 220 "Parramatta"] ∧
    buildJournalLines
        (calculateStockTypeAmounts
          (fractionalIdInvoices.map (removeInvoiceItems fun item => !hasIdOutsideStockTypes item))
          "PA1") "Parramatta"
      = [] ∧
    (∀ item ∈ allInvoiceItems exponentIdInvoice,
      hasIdOutsideStockTypes item = true ∧ hasIntegerId item = true) ∧
    buildJournalLines (calculateStockTypeAmounts exponentIdInvoice "PA1") "Parramatta"
      = [contentLine "Spectacle Lens" "40004" "OUTPUT" 220 "Parramatta",
          clearingLine 220 "Parramatta"] ∧
    buildJournalLines
        (calculateStockTypeAmounts
          (exponentIdInvoice.map (removeInvoiceItems fun item => !hasIdOutsideStockTypes item))
          "PA1") "Parramatta"
      = [] := by
  decide!

/-- C5 (as amended): two invoice inputs that differ only by items whose category identifier
is not read as an id of `STOCK_TYPES` (one is the other with such items added; the lookup
`getStockTypeInfo(parseInt(key))` finds nothing for the key of the identifier) give the same
lines `buildJournalLines(calculateStockTypeAmounts(.), branchName)`; so do two invoice inputs
that differ only by items whose category identifier is an integer of magnitude below `1e21`
that is not an id of `STOCK_TYPES`; two receipt inputs that differ only by items whose
payment code is not a code of `PAYMENT_TYPES` give the same lines
`buildReceiptJournalLines`. -/
theorem unknown_reference_skip :
    (∀ (invoices added : List Invoice) (br bn : String),
      (allInvoiceItems added).filter (fun item => !hasUnresolvedId item)
        = (allInvoiceItems invoices).filter (fun item => !hasUnresolvedId item) →
      buildJournalLines (calculateStockTypeAmounts added br) bn
        = buildJournalLines (calculateStockTypeAmounts invoices br) bn) ∧
    (∀ (invoices added : List Invoice) (br bn : String),
      (allInvoiceItems added).filter (fun item => !hasIntegerIdOutsideStockTypes item)
        = (allInvoiceItems invoices).filter (fun item => !hasIntegerIdOutsideStockTypes item) →
      buildJournalLines (calculateStockTypeAmounts added br) bn
        = buildJournalLines (calculateStockTypeAmounts invoices br) bn) ∧
    (∀ (receipts added : List Receipt) (bn : String),
      (allReceiptItems added).filter (fun item => !hasCodeOutsidePaymentTypes item)
        = (allReceiptItems receipts).filter (fun item => !hasCodeOutsidePaymentTypes item) →
      buildReceiptJournalLines added bn = buildReceiptJournalLines receipts bn) := by
  refine ⟨?_, ?_, ?_⟩
  · intro invoices added br bn h
    rw [← unresolved_reference_removal added br bn, ← unresolved_reference_removal invoices br bn,
      calculateStockTypeAmounts_entries, calculateStockTypeAmounts_entries]
    unfold invoiceEntries
    rw [allInvoiceItems_remove, allInvoiceItems_remove, h]
  · intro invoices added br bn h
    rw [← unknown_reference_removal.1 added br bn, ← unknown_reference_removal.1 invoices br bn,
      calculateStockTypeAmounts_entries, calculateStockTypeAmounts_entries]
    unfold invoiceEntries
    rw [allInvoiceItems_remove, allInvoiceItems_remove, h]
  · intro receipts added bn h
    rw [← unknown_reference_removal.2 added bn, ← unknown_reference_removal.2 receipts bn]
    unfold buildReceiptJournalLines
    rw [calculatePaymentTypeAmounts_entries, calculatePaymentTypeAmounts_entries]
    unfold receiptEntries
    rw [allReceiptItems_remove, allReceiptItems_remove, h]

theorem unknown_reference_skip_witness :
    buildJournalLines (calculateStockTypeAmounts unknownIdInvoices "PA1") "Parramatta"
        = buildJournalLines (calculateStockTypeAmounts scenarioA "PA1") "Parramatta" ∧
      buildReceiptJournalLines unknownCodeReceipts "Parramatta"
        = buildReceiptJournalLines scenarioC "Parramatta" :=
  ⟨unknown_reference_skip.2.1 scenarioA unknownIdInvoices "PA1" "Parramatta" (by decide!),
    unknown_reference_skip.2.2 scenarioC unknownCodeReceipts "Parramatta" (by decide!)⟩

/-! ## Alias resolution -/

/-- C6 (as amended): the value used for a logical field is the first alias, in the order of
the source, whose value is truthy; when no alias is truthy, the category identifier and the
payment code are the value of the last alias (which is falsy, so the item is skipped) and an
amount is `0`. -/
theorem alias_resolution_first_truthy :
    (∀ item : InvoiceItem,
      stockTypeIdOf item
        = ([item.STOCK_TYPE_ID, item.StockTypeId, item.stock_type_id].find? idTruthy).getD
            item.stock_type_id ∧
      totalArg item
        = ([item.TOTAL, item.Total, item.total].find? JsVal.truthy).getD (.num 0) ∧
      gstAmountArg item
        = ([item.GST_AMOUNT, item.GstAmount, item.gst_amount].find? JsVal.truthy).getD
            (.num 0)) ∧
    (∀ item : ReceiptItem,
      paymentTypeCodeOf item
        = ([item.PAYMENT_TYPE_CODE, item.PaymentTypeCode, item.payment_type_code].find?
            codeTruthy).getD item.payment_type_code ∧
      amountArg item
        = ([item.AMOUNT, item.Amount, item.amount].find? JsVal.truthy).getD (.num 0)) := by
  constructor
  · intro item
    refine ⟨?_, ?_, ?_⟩
    · unfold stockTypeIdOf jsOr
      cases h1 : idTruthy item.STOCK_TYPE_ID <;> cases h2 : idTruthy item.StockTypeId <;>
        cases h3 : idTruthy item.stock_type_id <;> simp [List.find?, h1, h2, h3]
    · unfold totalArg jsOr
      cases h1 : item.TOTAL.truthy <;> cases h2 : item.Total.truthy <;>
        cases h3 : item.total.truthy <;> simp [List.find?, h1, h2, h3]
    · unfold gstAmountArg jsOr
      cases h1 : item.GST_AMOUNT.truthy <;> cases h2 : item.GstAmount.truthy <;>
        cases h3 : item.gst_amount.truthy <;> simp [List.find?, h1, h2, h3]
  · intro item
    refine ⟨?_, ?_⟩
    · unfold paymentTypeCodeOf jsOr
      cases h1 : codeTruthy item.PAYMENT_TYPE_CODE <;>
        cases h2 : codeTruthy item.PaymentTypeCode <;>
        cases h3 : codeTruthy item.payment_type_code <;> simp [List.find?, h1, h2, h3]
    · unfold amountArg jsOr
      cases h1 : item.AMOUNT.truthy <;> cases h2 : item.Amount.truthy <;>
        cases h3 : item.amount.truthy <;> simp [List.find?, h1, h2, h3]

/-- C6 (as stated) fails: on an item with `TOTAL: 0` and `Total: 5` the first alias present
is `TOTAL`, with value `0`, but the value used is that of `Total`, and the net total of the
category is 5; on an item with the category identifiers `STOCK_TYPE_ID: 0` and
`StockTypeId: 4` the identifier used is 4. -/
theorem alias_resolution_counterexample :
    firstPresent [zeroTotalItem.TOTAL, zeroTotalItem.Total, zeroTotalItem.total] = .num 0 ∧
    totalArg zeroTotalItem = .num 5 ∧
    firstPresentId
        [zeroTotalItem.STOCK_TYPE_ID, zeroTotalItem.StockTypeId, zeroTotalItem.stock_type_id]
      = some 0 ∧
    stockTypeIdOf zeroTotalItem = some 4 ∧
    calculateStockTypeAmounts [{ ITEMS := .array [zeroTotalItem] }] "PA1" = [(4, ⟨5, 1⟩)] := by
  decide!

/-! ## Order independence -/

theorem char_toNat_valid (c : Char) :
    c.toNat < 55296 ∨ (57343 < c.toNat ∧ c.toNat < 1114112) := by
  have h := c.valid
  simpa [UInt32.isValidChar, Nat.isValidChar, Char.toNat] using h

theorem char_toNat_inj (a b : Char) (h : a.toNat = b.toNat) : a = b := by
  apply Char.ext
  apply UInt32.ext
  exact h

theorem utf16Units_append_inj (a b : Char) (xs ys : List ℕ)
    (h : utf16Units a ++ xs = utf16Units b ++ ys) : a = b ∧ xs = ys := by
  have va := char_toNat_valid a
  have vb := char_toNat_valid b
  unfold utf16Units at h
  by_cases ha : a.toNat < 65536 <;> by_cases hb : b.toNat < 65536
  · simp only [if_pos ha, if_pos hb, List.singleton_append, List.cons.injEq] at h
    exact ⟨char_toNat_inj a b h.1, h.2⟩
  · simp only [if_pos ha, if_neg hb, List.singleton_append, List.cons_append,
      List.nil_append, List.cons.injEq] at h
    omega
  · simp only [if_neg ha, if_pos hb, List.singleton_append, List.cons_append,
      List.nil_append, List.cons.injEq] at h
    omega
  · simp only [if_neg ha, if_neg hb, List.cons_append, List.nil_append,
      List.cons.injEq] at h
    refine ⟨char_toNat_inj a b (by omega), h.2.2⟩

theorem flatMap_utf16Units_inj (l1 l2 : List Char)
    (h : l1.flatMap utf16Units = l2.flatMap utf16Units) : l1 = l2 := by
  induction l1 generalizing l2 with
  | nil =>
    cases l2 with
    | nil => rfl
    | cons b l2 =>
      simp only [List.flatMap_nil, List.flatMap_cons] at h
      unfold utf16Units at h
      split_ifs at h <;> simp at h
  | cons a l1 ih =>
    cases l2 with
    | nil =>
      simp only [List.flatMap_nil, List.flatMap_cons] at h
      unfold utf16Units at h
      split_ifs at h <;> simp at h
    | cons b l2 =>
      simp only [List.flatMap_cons] at h
      obtain ⟨hab, hrest⟩ := utf16Units_append_inj a b _ _ h
      rw [hab, ih l2 hrest]

theorem toUTF16_inj (a b : String) (h : toUTF16 a = toUTF16 b) : a = b := by
  unfold toUTF16 at h
  have := flatMap_utf16Units_inj _ _ h
  exact String.ext this

theorem defaultSortLE_antisymm : IsAntisymm String defaultSortLE :=
  ⟨fun a b h1 h2 => toUTF16_inj a b (unitsLE_antisymm _ _ h1 h2)⟩

theorem map_eq_of_injOn {α β : Type} (f : α → β) (l1 l2 : List α)
    (h : l1.map f = l2.map f) (hinj : ∀ a ∈ l1, ∀ b ∈ l2, f a = f b → a = b) : l1 = l2 := by
  induction l1 generalizing l2 with
  | nil =>
    cases l2 with
    | nil => rfl
    | cons b l2 => simp at h
  | cons a l1 ih =>
    cases l2 with
    | nil => simp at h
    | cons b l2 =>
      simp only [List.map_cons, List.cons.injEq] at h
      rw [hinj a (List.mem_cons_self _ _) b (List.mem_cons_self _ _) h.1,
        ih l2 h.2 (fun x hx y hy =>
          hinj x (List.mem_cons_of_mem _ hx) y (List.mem_cons_of_mem _ hy))]

theorem parseIntKey_cast_of_plainInteger (q : ℚ) (h : plainInteger q) :
    ((parseIntKey q : ℤ) : ℚ) = q := by
  rw [parseIntKey_of_plainInteger q h]
  exact Rat.coe_int_num_of_den_eq_one h.1

/-- Two lists of integer keys of magnitude below `1e21` with the same elements are sorted
alike by the comparator of `buildJournalLines`. -/
theorem insertionSort_parseIntLE_perm (l1 l2 : List ℚ) (hp : l1.Perm l2)
    (hint : ∀ q ∈ l1, plainInteger q) :
    l1.insertionSort parseIntLE = l2.insertionSort parseIntLE := by
  haveI := parseIntLE_total
  haveI := parseIntLE_trans
  apply map_eq_of_injOn parseIntKey
  · apply List.eq_of_perm_of_sorted (r := (· ≤ ·))
    · exact ((List.perm_insertionSort _ l1).trans
        (hp.trans (List.perm_insertionSort _ l2).symm)).map _
    · exact List.pairwise_map.mpr (List.sorted_insertionSort parseIntLE l1)
    · exact List.pairwise_map.mpr (List.sorted_insertionSort parseIntLE l2)
  · intro a ha b hb hab
    have ha2 : a ∈ l1 := (List.perm_insertionSort _ l1).mem_iff.mp ha
    have hb2 : b ∈ l1 := hp.mem_iff.mpr ((List.perm_insertionSort _ l2).mem_iff.mp hb)
    rw [← parseIntKey_cast_of_plainInteger a (hint a ha2),
      ← parseIntKey_cast_of_plainInteger b (hint b hb2), hab]

theorem insertionSort_defaultSortLE_perm (l1 l2 : List String) (hp : l1.Perm l2) :
    l1.insertionSort defaultSortLE = l2.insertionSort defaultSortLE := by
  haveI := defaultSortLE_total
  haveI := defaultSortLE_trans
  haveI := defaultSortLE_antisymm
  exact List.eq_of_perm_of_sorted
    ((List.perm_insertionSort _ l1).trans (hp.trans (List.perm_insertionSort _ l2).symm))
    (List.sorted_insertionSort defaultSortLE l1) (List.sorted_insertionSort defaultSortLE l2)

theorem nodup_keysOf_netsOf {K V N : Type} [DecidableEq K] (idx : K → Option ℕ)
    (net? : V → Option N) (m : JsObject K V) (h : (keysOf m).Nodup) :
    (keysOf (netsOf idx net? m)).Nodup := by
  rw [keysOf_netsOf]
  exact (nodup_objectKeys idx m h).filter _

theorem keysOf_perm_of_getProp_eq {K V : Type} [DecidableEq K] (m1 m2 : JsObject K V)
    (h1 : (keysOf m1).Nodup) (h2 : (keysOf m2).Nodup)
    (h : ∀ k, getProp m1 k = getProp m2 k) : (keysOf m1).Perm (keysOf m2) := by
  rw [List.perm_ext_iff_of_nodup h1 h2]
  intro k
  rw [← getProp_isSome_iff, ← getProp_isSome_iff, h k]

theorem objectKeys_calculateStockTypeAmounts (invoices : List Invoice) (br : String) :
    objectKeys numIndex? (calculateStockTypeAmounts invoices br)
      = keysOf (calculateStockTypeAmounts invoices br) := by
  rw [calculateStockTypeAmounts_eq, objectKeys_netsOf]

theorem objectKeys_calculatePaymentTypeAmounts (receipts : List Receipt) :
    objectKeys strIndex? (calculatePaymentTypeAmounts receipts)
      = keysOf (calculatePaymentTypeAmounts receipts) := by
  rw [calculatePaymentTypeAmounts_eq, objectKeys_netsOf]

theorem nodup_keysOf_calculateStockTypeAmounts (invoices : List Invoice) (br : String) :
    (keysOf (calculateStockTypeAmounts invoices br)).Nodup := by
  rw [calculateStockTypeAmounts_eq]
  exact nodup_keysOf_netsOf _ _ _ (nodup_keysOf_stockTypeMapOf invoices)

theorem nodup_keysOf_calculatePaymentTypeAmounts (receipts : List Receipt) :
    (keysOf (calculatePaymentTypeAmounts receipts)).Nodup := by
  rw [calculatePaymentTypeAmounts_eq]
  exact nodup_keysOf_netsOf _ _ _ (nodup_keysOf_paymentTypeMapOf receipts)

theorem categoryItems_perm (invoices1 invoices2 : List Invoice)
    (h : (allInvoiceItems invoices1).Perm (allInvoiceItems invoices2)) (c : ℚ) :
    (categoryItems invoices1 c).Perm (categoryItems invoices2 c) :=
  h.filter _

theorem codeItems_perm (receipts1 receipts2 : List Receipt)
    (h : (allReceiptItems receipts1).Perm (allReceiptItems receipts2)) (code : String) :
    (codeItems receipts1 code).Perm (codeItems receipts2 code) :=
  h.filter _

theorem getProp_calculateStockTypeAmounts_perm (invoices1 invoices2 : List Invoice)
    (br : String) (h : (allInvoiceItems invoices1).Perm (allInvoiceItems invoices2)) (c : ℚ) :
    getProp (calculateStockTypeAmounts invoices1 br) c
      = getProp (calculateStockTypeAmounts invoices2 br) c := by
  have hc := categoryItems_perm invoices1 invoices2 h c
  have e1 : signedTotal invoices1 c = signedTotal invoices2 c :=
    (hc.filterMap _).sum_eq
  have e2 : signedGst invoices1 c = signedGst invoices2 c :=
    (hc.filterMap _).sum_eq
  have e3 : categoryItems invoices1 c ≠ [] ↔ categoryItems invoices2 c ≠ [] := by
    constructor
    · intro h1 h2; rw [h2] at hc; exact h1 hc.eq_nil
    · intro h1 h2; rw [h2] at hc; exact h1 hc.symm.eq_nil
  rw [getProp_calculateStockTypeAmounts, getProp_calculateStockTypeAmounts, e1, e2]
  by_cases hne : categoryItems invoices1 c ≠ []
      ∧ (|signedTotal invoices2 c| > 1 / 100 ∨ |signedGst invoices2 c| > 1 / 100)
  · rw [if_pos hne, if_pos ⟨e3.mp hne.1, hne.2⟩]
  · rw [if_neg hne, if_neg (fun h2 => hne ⟨e3.mpr h2.1, h2.2⟩)]

theorem getProp_calculatePaymentTypeAmounts_perm (receipts1 receipts2 : List Receipt)
    (h : (allReceiptItems receipts1).Perm (allReceiptItems receipts2)) (code : String) :
    getProp (calculatePaymentTypeAmounts receipts1) code
      = getProp (calculatePaymentTypeAmounts receipts2) code := by
  have hc := codeItems_perm receipts1 receipts2 h code
  have e1 : signedAmount receipts1 code = signedAmount receipts2 code :=
    (hc.filterMap _).sum_eq
  have e3 : codeItems receipts1 code ≠ [] ↔ codeItems receipts2 code ≠ [] := by
    constructor
    · intro h1 h2; rw [h2] at hc; exact h1 hc.eq_nil
    · intro h1 h2; rw [h2] at hc; exact h1 hc.symm.eq_nil
  rw [getProp_calculatePaymentTypeAmounts, getProp_calculatePaymentTypeAmounts, e1]
  by_cases hne : code ∉ objectPrototypeKeys ∧ codeItems receipts1 code ≠ []
      ∧ |signedAmount receipts2 code| > 1 / 100
  · rw [if_pos hne, if_pos ⟨hne.1, e3.mp hne.2.1, hne.2.2⟩]
  · rw [if_neg hne, if_neg (fun h2 => hne ⟨h2.1, e3.mpr h2.2.1, h2.2.2⟩)]

theorem plainInteger_of_mem_keysOf (invoices : List Invoice) (br : String)
    (hint : ∀ item ∈ allInvoiceItems invoices, ∀ q, stockTypeIdOf item = some q → plainInteger q)
    (c : ℚ) (hc : c ∈ keysOf (calculateStockTypeAmounts invoices br)) : plainInteger c := by
  rw [← getProp_isSome_iff, getProp_calculateStockTypeAmounts] at hc
  split_ifs at hc with h
  · obtain ⟨x, xs, hx⟩ := List.exists_cons_of_ne_nil h.1
    have hm : x ∈ categoryItems invoices c := by rw [hx]; exact List.mem_cons_self _ _
    unfold categoryItems at hm
    obtain ⟨hm1, hm2⟩ := List.mem_filter.mp hm
    simp only [Bool.and_eq_true, Bool.not_eq_true', decide_eq_true_eq] at hm2
    exact hint x hm1 c hm2.2
  · simp at hc

/-- C4 as stated fails: the two items of `exponentIdInvoices` have the integer category
identifiers `4e21` and `4.5e21`, whose keys `4e+21` and `4.5e+21` are both read as 4 by
`parseInt`; the sort leaves them in the order of insertion, so the input and the input with
the two items swapped give the two lines of `Spectacle Lens` in different orders. -/
theorem order_independence_counterexample :
    (allInvoiceItems exponentIdInvoices).Perm (allInvoiceItems exponentIdInvoicesSwapped) ∧
    (∀ item ∈ allInvoiceItems exponentIdInvoices, hasIntegerId item = true) ∧
    buildJournalLines (calculateStockTypeAmounts exponentIdInvoices "PA1") "Parramatta"
      = [contentLine "Spectacle Lens" "40004" "OUTPUT" 110 "Parramatta",
          contentLine "Spectacle Lens" "40004" "OUTPUT" 220 "Parramatta",
          clearingLine 330 "Parramatta"] ∧
    buildJournalLines (calculateStockTypeAmounts exponentIdInvoicesSwapped "PA1") "Parramatta"
      = [contentLine "Spectacle Lens" "40004" "OUTPUT" 220 "Parramatta",
          contentLine "Spectacle Lens" "40004" "OUTPUT" 110 "Parramatta",
          clearingLine 330 "Parramatta"] := by
  decide!

/-- C4 (as amended): order independence. Two invoice inputs whose line items are
permutations of each other, with category identifiers that are integers of magnitude below
`1e21`, give the same list of journal lines in the same order; two receipt inputs whose items
are permutations of each other give the same list of receipt lines in the same order. -/
theorem order_independence :
    (∀ (invoices1 invoices2 : List Invoice) (br bn : String),
      (allInvoiceItems invoices1).Perm (allInvoiceItems invoices2) →
      (∀ item ∈ allInvoiceItems invoices1, ∀ q, stockTypeIdOf item = some q → plainInteger q) →
      buildJournalLines (calculateStockTypeAmounts invoices1 br) bn
        = buildJournalLines (calculateStockTypeAmounts invoices2 br) bn) ∧
    (∀ (receipts1 receipts2 : List Receipt) (bn : String),
      (allReceiptItems receipts1).Perm (allReceiptItems receipts2) →
      buildReceiptJournalLines receipts1 bn = buildReceiptJournalLines receipts2 bn) := by
  constructor
  · intro invoices1 invoices2 br bn hp hint
    have hget := getProp_calculateStockTypeAmounts_perm invoices1 invoices2 br hp
    have hkeys := keysOf_perm_of_getProp_eq _ _
      (nodup_keysOf_calculateStockTypeAmounts invoices1 br)
      (nodup_keysOf_calculateStockTypeAmounts invoices2 br) hget
    have hsorted : sortedStockTypeIds (calculateStockTypeAmounts invoices1 br)
        = sortedStockTypeIds (calculateStockTypeAmounts invoices2 br) := by
      unfold sortedStockTypeIds
      rw [objectKeys_calculateStockTypeAmounts, objectKeys_calculateStockTypeAmounts]
      exact insertionSort_parseIntLE_perm _ _ hkeys
        (plainInteger_of_mem_keysOf invoices1 br hint)
    have h1 : gstOnIncomeLine? (calculateStockTypeAmounts invoices1 br) bn
        = gstOnIncomeLine? (calculateStockTypeAmounts invoices2 br) bn := by
      funext k
      unfold gstOnIncomeLine?
      rw [hget k]
    have h2 : gstFreeIncomeLine? (calculateStockTypeAmounts invoices1 br) bn
        = gstFreeIncomeLine? (calculateStockTypeAmounts invoices2 br) bn := by
      funext k
      unfold gstFreeIncomeLine?
      rw [hget k]
    rw [buildJournalLines_eq, buildJournalLines_eq, hsorted, h1, h2]
  · intro receipts1 receipts2 bn hp
    have hget := getProp_calculatePaymentTypeAmounts_perm receipts1 receipts2 hp
    have hkeys := keysOf_perm_of_getProp_eq _ _
      (nodup_keysOf_calculatePaymentTypeAmounts receipts1)
      (nodup_keysOf_calculatePaymentTypeAmounts receipts2) hget
    have hsorted : sortedPaymentCodes (calculatePaymentTypeAmounts receipts1)
        = sortedPaymentCodes (calculatePaymentTypeAmounts receipts2) := by
      unfold sortedPaymentCodes
      rw [objectKeys_calculatePaymentTypeAmounts, objectKeys_calculatePaymentTypeAmounts]
      exact insertionSort_defaultSortLE_perm _ _ hkeys
    have h1 : paymentLine? (calculatePaymentTypeAmounts receipts1) bn
        = paymentLine? (calculatePaymentTypeAmounts receipts2) bn := by
      funext k
      unfold paymentLine?
      rw [hget k]
    unfold buildReceiptJournalLines
    rw [receiptLinesOf_eq, receiptLinesOf_eq, hsorted, h1]

theorem order_independence_witness :
    buildJournalLines (calculateStockTypeAmounts refundedInvoices "PA1") "Parramatta"
        = buildJournalLines (calculateStockTypeAmounts reorderedInvoices "PA1") "Parramatta" ∧
      buildReceiptJournalLines scenarioC "Parramatta"
        = buildReceiptJournalLines reorderedReceipts "Parramatta" :=
  ⟨order_independence.1 refundedInvoices reorderedInvoices "PA1" "Parramatta"
      (by decide!) (by decide!),
    order_independence.2 scenarioC reorderedReceipts "Parramatta" (by decide!)⟩

/-! ## The keys of the results -/

/-- The keys of the result of `calculateStockTypeAmounts`. -/
theorem mem_keysOf_calculateStockTypeAmounts (invoices : List Invoice) (br : String) (c : ℚ) :
    c ∈ keysOf (calculateStockTypeAmounts invoices br) ↔
      (∃ item ∈ allInvoiceItems invoices,
          invoiceItemSkipped item = false ∧ stockTypeIdOf item = some c) ∧
        (|signedTotal invoices c| > 1 / 100 ∨ |signedGst invoices c| > 1 / 100) := by
  have hne : categoryItems invoices c ≠ [] ↔ ∃ item ∈ allInvoiceItems invoices,
      invoiceItemSkipped item = false ∧ stockTypeIdOf item = some c := by
    unfold categoryItems
    rw [Ne, List.filter_eq_nil_iff]
    simp
  rw [← getProp_isSome_iff, getProp_calculateStockTypeAmounts, ← hne]
  split_ifs with h
  · simp only [Option.isSome_some, true_iff]
    exact h
  · simp only [Option.isSome_none, Bool.false_eq_true, false_iff]
    exact h

/-- The keys of the result of `calculatePaymentTypeAmounts`: a code that is the name of a
member inherited from `Object.prototype` is never one. -/
theorem mem_keysOf_calculatePaymentTypeAmounts (receipts : List Receipt) (code : String) :
    code ∈ keysOf (calculatePaymentTypeAmounts receipts) ↔
      code ∉ objectPrototypeKeys ∧
        (∃ item ∈ allReceiptItems receipts,
          receiptItemSkipped item = false ∧ paymentTypeCodeOf item = some code) ∧
        |signedAmount receipts code| > 1 / 100 := by
  have hne : codeItems receipts code ≠ [] ↔ ∃ item ∈ allReceiptItems receipts,
      receiptItemSkipped item = false ∧ paymentTypeCodeOf item = some code := by
    unfold codeItems
    rw [Ne, List.filter_eq_nil_iff]
    simp
  rw [← getProp_isSome_iff, getProp_calculatePaymentTypeAmounts, ← hne]
  split_ifs with h
  · simp only [Option.isSome_some, true_iff]
    exact h
  · simp only [Option.isSome_none, Bool.false_eq_true, false_iff]
    exact h

/-- C8 on the failing input: the receipt item with code `toString` and amount 5 is not
skipped and its net amount exceeds the threshold, yet the result of
`calculatePaymentTypeAmounts` has no key. -/
theorem inherited_name_is_no_key :
    (∃ item ∈ allReceiptItems inheritedNameReceipts,
      receiptItemSkipped item = false ∧ paymentTypeCodeOf item = some "toString") ∧
    |signedAmount inheritedNameReceipts "toString"| > 1 / 100 ∧
    calculatePaymentTypeAmounts inheritedNameReceipts = [] := by
  decide!

/-! ## The taxable-income stage -/

theorem stockTypes_ids_sorted : (STOCK_TYPES.map fun st => st.id).Sorted (· < ·) := by
  decide

theorem stockTypeKeys_sorted : stockTypeKeys.Sorted parseIntLE := by
  decide!

theorem stockTypeKeys_nodup : stockTypeKeys.Nodup := by
  decide!

theorem getStockTypeInfo_self : ∀ st ∈ STOCK_TYPES, getStockTypeInfo st.id = some st := by
  decide

theorem parseIntKey_stockType :
    ∀ st ∈ STOCK_TYPES, parseIntKey (st.id : ℚ) = st.id := by
  decide!

theorem getStockTypeInfo_some {n : ℤ} {st : StockType} (h : getStockTypeInfo n = some st) :
    st ∈ STOCK_TYPES ∧ st.id = n := by
  unfold getStockTypeInfo at h
  exact ⟨List.mem_of_find?_eq_some h, by simpa using List.find?_some h⟩

theorem getProp_some_mem {K V : Type} [DecidableEq K] (m : JsObject K V) (k : K) (v : V)
    (h : getProp m k = some v) : (k, v) ∈ m := by
  induction m with
  | nil => simp [getProp] at h
  | cons e m ih =>
    obtain ⟨k1, v1⟩ := e
    by_cases hk : k1 = k
    · simp only [getProp, if_pos hk, Option.some.injEq] at h
      rw [← hk, ← h]
      exact List.mem_cons_self _ _
    · simp only [getProp, if_neg hk] at h
      exact List.mem_cons_of_mem _ (ih h)

/-- Among the keys of a map whose keys are integers of magnitude below `1e21`, those that
`getStockTypeInfo` finds are visited in the order of the table `STOCK_TYPES`. -/
theorem sortedStockTypeIds_known (m : JsObject ℚ StockNet) (hnodup : (keysOf m).Nodup)
    (hint : ∀ k ∈ keysOf m, plainInteger k) :
    (sortedStockTypeIds m).filter (fun k => (getStockTypeInfo (parseIntKey k)).isSome)
      = stockTypeKeys.filter fun k => decide (k ∈ keysOf m) := by
  haveI := parseIntLE_total
  haveI := parseIntLE_trans
  unfold sortedStockTypeIds
  rw [filter_insertionSort]
  have hT : (stockTypeKeys.filter fun k => decide (k ∈ keysOf m)).insertionSort parseIntLE
      = stockTypeKeys.filter fun k => decide (k ∈ keysOf m) :=
    List.Sorted.insertionSort_eq (List.Sorted.filter _ stockTypeKeys_sorted)
  rw [← hT]
  apply insertionSort_parseIntLE_perm
  · rw [List.perm_ext_iff_of_nodup ((nodup_objectKeys _ m hnodup).filter _)
      (stockTypeKeys_nodup.filter _)]
    intro k
    simp only [List.mem_filter, decide_eq_true_eq, objectKeys_eq_arrangeKeys, mem_arrangeKeys]
    constructor
    · rintro ⟨hk, hknown⟩
      refine ⟨?_, hk⟩
      cases hi : getStockTypeInfo (parseIntKey k) with
      | none => simp [hi] at hknown
      | some st =>
        obtain ⟨hst, hid⟩ := getStockTypeInfo_some hi
        unfold stockTypeKeys
        rw [List.mem_map]
        exact ⟨st, hst, by rw [hid]; exact parseIntKey_cast_of_plainInteger k (hint k hk)⟩
    · rintro ⟨hk, hkeys⟩
      refine ⟨hkeys, ?_⟩
      unfold stockTypeKeys at hk
      rw [List.mem_map] at hk
      obtain ⟨st, hst, rfl⟩ := hk
      rw [parseIntKey_stockType st hst, getStockTypeInfo_self st hst]
      rfl
  · intro q hq
    have := (List.mem_filter.mp hq).1
    rw [objectKeys_eq_arrangeKeys, mem_arrangeKeys] at this
    exact hint q this

/-- The OUTPUT lines of `buildJournalLines` are those of the specification. -/
theorem gstOnIncomeLines_eq (m : JsObject ℚ StockNet) (bn : String)
    (hnodup : (keysOf m).Nodup) (hint : ∀ k ∈ keysOf m, plainInteger k) :
    (sortedStockTypeIds m).filterMap (gstOnIncomeLine? m bn) = taxableIncomeLines m bn := by
  rw [← filterMap_filter_of_none (gstOnIncomeLine? m bn)
    (fun k => (getStockTypeInfo (parseIntKey k)).isSome) (sortedStockTypeIds m)
    (fun k _ hk => by
      unfold gstOnIncomeLine?
      cases hi : getStockTypeInfo (parseIntKey k) with
      | none => cases getProp m k <;> rfl
      | some st => simp [hi] at hk)]
  rw [sortedStockTypeIds_known m hnodup hint,
    filterMap_filter_of_none (gstOnIncomeLine? m bn) (fun k => decide (k ∈ keysOf m))
      stockTypeKeys (fun k _ hk => by
        unfold gstOnIncomeLine?
        rw [(getProp_eq_none_iff m k).mpr (by simpa using hk)])]
  unfold stockTypeKeys taxableIncomeLines
  rw [List.filterMap_map]
  apply List.filterMap_congr
  intro st hst
  simp only [Function.comp, gstOnIncomeLine?]
  rw [parseIntKey_stockType st hst, getStockTypeInfo_self st hst]
  cases getProp m (st.id : ℚ) with
  | none => rfl
  | some amounts =>
    simp only [contentLine, mul_comm amounts.netGst 11]

theorem taxableIncomeTotal_eq (m : JsObject ℚ StockNet) (bn : String) :
    -lineSum (taxableIncomeLines m bn) = taxableIncomeTotal m ∧ 0 ≤ taxableIncomeTotal m := by
  unfold taxableIncomeLines taxableIncomeTotal
  induction STOCK_TYPES with
  | nil => simp [lineSum]
  | cons st l ih =>
    cases hg : getProp m (st.id : ℚ) with
    | none =>
      simp only [List.filterMap_cons, hg]
      exact ih
    | some amounts =>
      by_cases ht : |11 * amounts.netGst| > 1 / 100
      · simp only [List.filterMap_cons, hg, if_pos ht, lineSum_cons, List.sum_cons]
        constructor
        · rw [← ih.1]; ring
        · have := abs_nonneg (11 * amounts.netGst)
          linarith [ih.2]
      · simp only [List.filterMap_cons, hg, if_neg ht]
        exact ih

theorem clearingOf_taxableIncomeLines (m : JsObject ℚ StockNet) (bn : String) :
    clearingOf (taxableIncomeLines m bn) bn = taxableIncomeClearing m bn := by
  obtain ⟨h1, h2⟩ := taxableIncomeTotal_eq m bn
  unfold clearingOf taxableIncomeClearing
  rw [h1, abs_of_nonneg h2]
  rfl

/-- C10 as stated fails: the key of the map `{ '4e+21': { netTotal: 220, netGst: 20 } }` is
the integer `4e21`, which is no id of `STOCK_TYPES`, so the specification gives no OUTPUT
line; `parseInt` reads the key as 4, and `buildJournalLines` emits an OUTPUT line of
`Spectacle Lens` and a clearing line. -/
theorem taxable_income_stage_counterexample :
    (∀ k ∈ keysOf exponentIdAmounts, k.den = 1 ∧ notInStockTypes k = true) ∧
    taxableIncomeLines exponentIdAmounts "Parramatta" = [] ∧
    taxableIncomeClearing exponentIdAmounts "Parramatta" = [] ∧
    buildJournalLines exponentIdAmounts "Parramatta"
      = [contentLine "Spectacle Lens" "40004" "OUTPUT" 220 "Parramatta",
          clearingLine 220 "Parramatta"] := by
  decide!

/-- C10 (as amended): for a map whose category identifiers are integers of magnitude below
`1e21`, the output of `buildJournalLines` starts with the OUTPUT lines of the specification (one line per entry of `STOCK_TYPES`, in
ascending order of id, whose category is in the map with `abs(11 * netGst) > 0.01`), followed
by the POS Clearing line of their total exactly when the total exceeds 0.01; no other line
has the tax type OUTPUT, and nothing else is emitted when `netTotal = 11 * netGst` for every
category. -/
theorem taxable_income_stage (stockTypeAmounts : JsObject ℚ StockNet) (branchName : String)
    (hnodup : (keysOf stockTypeAmounts).Nodup)
    (hint : ∀ k ∈ keysOf stockTypeAmounts, plainInteger k) :
    (STOCK_TYPES.map fun st => st.id).Sorted (· < ·) ∧
    ∃ rest : List JournalLine,
      buildJournalLines stockTypeAmounts branchName
        = taxableIncomeLines stockTypeAmounts branchName
          ++ taxableIncomeClearing stockTypeAmounts branchName ++ rest ∧
      (∀ l ∈ rest, l.TaxType ≠ "OUTPUT") ∧
      ((∀ e ∈ stockTypeAmounts, e.2.netTotal = 11 * e.2.netGst) → rest = []) := by
  refine ⟨stockTypes_ids_sorted,
    (sortedStockTypeIds stockTypeAmounts).filterMap
        (gstFreeIncomeLine? stockTypeAmounts branchName)
      ++ clearingOf ((sortedStockTypeIds stockTypeAmounts).filterMap
        (gstFreeIncomeLine? stockTypeAmounts branchName)) branchName, ?_, ?_, ?_⟩
  · rw [buildJournalLines_eq, gstOnIncomeLines_eq stockTypeAmounts branchName hnodup hint,
      clearingOf_taxableIncomeLines, List.append_assoc]
  · intro l hl
    rcases List.mem_append.mp hl with h | h
    · obtain ⟨k, _, hk⟩ := List.mem_filterMap.mp h
      rw [(gstFreeIncomeLine?_some hk).1]
      decide
    · rw [(clearingOf_mem h).2.1]
      decide
  · intro hall
    have hnil : (sortedStockTypeIds stockTypeAmounts).filterMap
        (gstFreeIncomeLine? stockTypeAmounts branchName) = [] := by
      rw [List.filterMap_eq_nil_iff]
      intro k _
      unfold gstFreeIncomeLine?
      cases hg : getProp stockTypeAmounts k with
      | none => rfl
      | some amounts =>
        have h0 := hall (k, amounts) (getProp_some_mem _ k amounts hg)
        simp only at h0
        cases getStockTypeInfo (parseIntKey k) with
        | none => rfl
        | some info =>
          simp only []
          rw [if_neg]
          have hz : amounts.netTotal - amounts.netGst * 11 = 0 := by rw [h0]; ring
          rw [hz]
          norm_num
    rw [hnil]
    simp [clearingOf, lineSum_nil]

theorem taxable_income_stage_witness :
    (STOCK_TYPES.map fun st => st.id).Sorted (· < ·) ∧
    ∃ rest : List JournalLine,
      buildJournalLines [(4, ⟨220, 20⟩)] "Parramatta"
        = taxableIncomeLines [(4, ⟨220, 20⟩)] "Parramatta"
          ++ taxableIncomeClearing [(4, ⟨220, 20⟩)] "Parramatta" ++ rest ∧
      (∀ l ∈ rest, l.TaxType ≠ "OUTPUT") ∧
      ((∀ e ∈ ([(4, ⟨220, 20⟩)] : JsObject ℚ StockNet), e.2.netTotal = 11 * e.2.netGst) →
        rest = []) :=
  taxable_income_stage [(4, ⟨220, 20⟩)] "Parramatta" (by decide!) (by decide!)

/-! ## The tax-exempt-income stage -/

/-- The EXEMPTOUTPUT lines of `buildJournalLines` are those of the specification. -/
theorem gstFreeIncomeLines_eq (m : JsObject ℚ StockNet) (bn : String)
    (hnodup : (keysOf m).Nodup) (hint : ∀ k ∈ keysOf m, plainInteger k) :
    (sortedStockTypeIds m).filterMap (gstFreeIncomeLine? m bn) = exemptIncomeLines m bn := by
  rw [← filterMap_filter_of_none (gstFreeIncomeLine? m bn)
    (fun k => (getStockTypeInfo (parseIntKey k)).isSome) (sortedStockTypeIds m)
    (fun k _ hk => by
      unfold gstFreeIncomeLine?
      cases hi : getStockTypeInfo (parseIntKey k) with
      | none => cases getProp m k <;> rfl
      | some st => simp [hi] at hk)]
  rw [sortedStockTypeIds_known m hnodup hint,
    filterMap_filter_of_none (gstFreeIncomeLine? m bn) (fun k => decide (k ∈ keysOf m))
      stockTypeKeys (fun k _ hk => by
        unfold gstFreeIncomeLine?
        rw [(getProp_eq_none_iff m k).mpr (by simpa using hk)])]
  unfold stockTypeKeys exemptIncomeLines
  rw [List.filterMap_map]
  apply List.filterMap_congr
  intro st hst
  simp only [Function.comp, gstFreeIncomeLine?]
  rw [parseIntKey_stockType st hst, getStockTypeInfo_self st hst]
  cases getProp m (st.id : ℚ) with
  | none => rfl
  | some amounts =>
    simp only [contentLine, mul_comm amounts.netGst 11]

theorem exemptIncomeTotal_eq (m : JsObject ℚ StockNet) (bn : String) :
    -lineSum (exemptIncomeLines m bn) = exemptIncomeTotal m ∧ 0 ≤ exemptIncomeTotal m := by
  unfold exemptIncomeLines exemptIncomeTotal
  induction STOCK_TYPES with
  | nil => simp [lineSum]
  | cons st l ih =>
    cases hg : getProp m (st.id : ℚ) with
    | none =>
      simp only [List.filterMap_cons, hg]
      exact ih
    | some amounts =>
      by_cases ht : |amounts.netTotal - 11 * amounts.netGst| > 1 / 100
      · simp only [List.filterMap_cons, hg, if_pos ht, lineSum_cons, List.sum_cons]
        constructor
        · rw [← ih.1]; ring
        · have := abs_nonneg (amounts.netTotal - 11 * amounts.netGst)
          linarith [ih.2]
      · simp only [List.filterMap_cons, hg, if_neg ht]
        exact ih

theorem clearingOf_exemptIncomeLines (m : JsObject ℚ StockNet) (bn : String) :
    clearingOf (exemptIncomeLines m bn) bn = exemptIncomeClearing m bn := by
  obtain ⟨h1, h2⟩ := exemptIncomeTotal_eq m bn
  unfold clearingOf exemptIncomeClearing
  rw [h1, abs_of_nonneg h2]
  rfl

/-- The output of `buildJournalLines` on a map whose category identifiers are integers of
magnitude below `1e21`, in the words of the specification. -/
theorem buildJournalLines_spec (m : JsObject ℚ StockNet) (bn : String)
    (hnodup : (keysOf m).Nodup) (hint : ∀ k ∈ keysOf m, plainInteger k) :
    buildJournalLines m bn =
      taxableIncomeLines m bn ++ taxableIncomeClearing m bn
        ++ exemptIncomeLines m bn ++ exemptIncomeClearing m bn := by
  rw [buildJournalLines_eq, gstOnIncomeLines_eq m bn hnodup hint,
    gstFreeIncomeLines_eq m bn hnodup hint, clearingOf_taxableIncomeLines,
    clearingOf_exemptIncomeLines]

theorem taxableIncomeLines_taxType (m : JsObject ℚ StockNet) (bn : String) :
    ∀ l ∈ taxableIncomeLines m bn ++ taxableIncomeClearing m bn,
      l.TaxType = "OUTPUT" ∨ l.TaxType = "NONE" := by
  intro l hl
  rcases List.mem_append.mp hl with h | h
  · unfold taxableIncomeLines at h
    obtain ⟨st, _, hst⟩ := List.mem_filterMap.mp h
    cases hg : getProp m (st.id : ℚ) with
    | none => simp [hg] at hst
    | some amounts =>
      simp only [hg] at hst
      split_ifs at hst
      cases hst
      exact Or.inl rfl
  · unfold taxableIncomeClearing at h
    split_ifs at h
    · simp only [List.mem_singleton] at h
      subst h
      exact Or.inr rfl
    · simp at h

/-- C11 as stated fails: the key of the map `{ '4e+21': { netTotal: 100, netGst: 0 } }` is
the integer `4e21`, which is no id of `STOCK_TYPES`, so the specification gives no
EXEMPTOUTPUT line; `parseInt` reads the key as 4, and `buildJournalLines` emits an
EXEMPTOUTPUT line of `Spectacle Lens` and a clearing line. -/
theorem tax_exempt_income_stage_counterexample :
    (∀ k ∈ keysOf exponentIdExemptAmounts, k.den = 1 ∧ notInStockTypes k = true) ∧
    exemptIncomeLines exponentIdExemptAmounts "Parramatta" = [] ∧
    exemptIncomeClearing exponentIdExemptAmounts "Parramatta" = [] ∧
    buildJournalLines exponentIdExemptAmounts "Parramatta"
      = [contentLine "Spectacle Lens" "40004" "EXEMPTOUTPUT" 100 "Parramatta",
          clearingLine 100 "Parramatta"] := by
  decide!

/-- C11 (as amended): for a map whose category identifiers are integers of magnitude below
`1e21`, the output of `buildJournalLines` is the stage-1 lines followed by the EXEMPTOUTPUT lines of the specification (one line per entry
of `STOCK_TYPES`, in ascending order of id, whose category is in the map with
`abs(netTotal - 11 * netGst) > 0.01`) and by the POS Clearing line of their total exactly
when the total exceeds 0.01; no stage-1 line has the tax type EXEMPTOUTPUT, and there is no
stage-1 line at all when `netGst = 0` for every category. -/
theorem tax_exempt_income_stage (stockTypeAmounts : JsObject ℚ StockNet) (branchName : String)
    (hnodup : (keysOf stockTypeAmounts).Nodup)
    (hint : ∀ k ∈ keysOf stockTypeAmounts, plainInteger k) :
    (STOCK_TYPES.map fun st => st.id).Sorted (· < ·) ∧
    ∃ stage1 : List JournalLine,
      buildJournalLines stockTypeAmounts branchName
        = stage1 ++ exemptIncomeLines stockTypeAmounts branchName
          ++ exemptIncomeClearing stockTypeAmounts branchName ∧
      (∀ l ∈ stage1, l.TaxType ≠ "EXEMPTOUTPUT") ∧
      ((∀ e ∈ stockTypeAmounts, e.2.netGst = 0) → stage1 = []) := by
  refine ⟨stockTypes_ids_sorted,
    taxableIncomeLines stockTypeAmounts branchName
      ++ taxableIncomeClearing stockTypeAmounts branchName, ?_, ?_, ?_⟩
  · exact buildJournalLines_spec stockTypeAmounts branchName hnodup hint
  · intro l hl
    rcases taxableIncomeLines_taxType stockTypeAmounts branchName l hl with h | h <;>
      rw [h] <;> decide
  · intro hall
    have hnil : taxableIncomeLines stockTypeAmounts branchName = [] := by
      unfold taxableIncomeLines
      rw [List.filterMap_eq_nil_iff]
      intro st _
      cases hg : getProp stockTypeAmounts (st.id : ℚ) with
      | none => rfl
      | some amounts =>
        have h0 := hall (_, amounts) (getProp_some_mem _ _ amounts hg)
        simp only at h0
        simp only []
        rw [if_neg]
        rw [h0]
        norm_num
    have hc : taxableIncomeClearing stockTypeAmounts branchName = [] := by
      have h1 := (taxableIncomeTotal_eq stockTypeAmounts branchName).1
      rw [hnil] at h1
      unfold taxableIncomeClearing
      rw [← h1, if_neg]
      simp [lineSum_nil]
    rw [hnil, hc]
    rfl

theorem tax_exempt_income_stage_witness :
    (STOCK_TYPES.map fun st => st.id).Sorted (· < ·) ∧
    ∃ stage1 : List JournalLine,
      buildJournalLines [(5, ⟨100, 0⟩)] "Parramatta"
        = stage1 ++ exemptIncomeLines [(5, ⟨100, 0⟩)] "Parramatta"
          ++ exemptIncomeClearing [(5, ⟨100, 0⟩)] "Parramatta" ∧
      (∀ l ∈ stage1, l.TaxType ≠ "EXEMPTOUTPUT") ∧
      ((∀ e ∈ ([(5, ⟨100, 0⟩)] : JsObject ℚ StockNet), e.2.netGst = 0) → stage1 = []) :=
  tax_exempt_income_stage [(5, ⟨100, 0⟩)] "Parramatta" (by decide!) (by decide!)

/-! ## The receipt path -/

theorem paymentTypesByCode_perm : paymentTypesByCode.Perm PAYMENT_TYPES :=
  List.perm_insertionSort _ _

theorem paymentTypeCodes_ascending : paymentTypeCodes.Sorted (· < ·) := by
  decide!

theorem paymentTypeCodes_sorted : paymentTypeCodes.Sorted defaultSortLE := by
  decide!

theorem paymentTypeCodes_nodup : paymentTypeCodes.Nodup := by
  decide!

theorem getPaymentTypeInfo_self :
    ∀ pt ∈ PAYMENT_TYPES, getPaymentTypeInfo pt.code = some pt := by
  decide

theorem mem_paymentTypeCodes (k : String) :
    k ∈ paymentTypeCodes ↔ ∃ pt ∈ PAYMENT_TYPES, pt.code = k := by
  unfold paymentTypeCodes
  rw [List.mem_map]
  constructor
  · rintro ⟨pt, hpt, rfl⟩
    exact ⟨pt, paymentTypesByCode_perm.mem_iff.mp hpt, rfl⟩
  · rintro ⟨pt, hpt, rfl⟩
    exact ⟨pt, paymentTypesByCode_perm.mem_iff.mpr hpt, rfl⟩

/-- Among the keys of a map, those that `getPaymentTypeInfo` finds are visited in ascending
order of code. -/
theorem sortedPaymentCodes_known (m : JsObject String ℚ) (hnodup : (keysOf m).Nodup) :
    (sortedPaymentCodes m).filter (fun k => (getPaymentTypeInfo k).isSome)
      = paymentTypeCodes.filter fun k => decide (k ∈ keysOf m) := by
  haveI := defaultSortLE_total
  haveI := defaultSortLE_trans
  unfold sortedPaymentCodes
  rw [filter_insertionSort]
  have hT : (paymentTypeCodes.filter fun k => decide (k ∈ keysOf m)).insertionSort
      defaultSortLE = paymentTypeCodes.filter fun k => decide (k ∈ keysOf m) :=
    List.Sorted.insertionSort_eq (List.Sorted.filter _ paymentTypeCodes_sorted)
  rw [← hT]
  apply insertionSort_defaultSortLE_perm
  rw [List.perm_ext_iff_of_nodup ((nodup_objectKeys _ m hnodup).filter _)
    (paymentTypeCodes_nodup.filter _)]
  intro k
  simp only [List.mem_filter, decide_eq_true_eq, objectKeys_eq_arrangeKeys, mem_arrangeKeys]
  constructor
  · rintro ⟨hk, hknown⟩
    refine ⟨?_, hk⟩
    cases hi : getPaymentTypeInfo k with
    | none => simp [hi] at hknown
    | some pt =>
      obtain ⟨hpt, hcode⟩ := getPaymentTypeInfo_mem hi
      exact (mem_paymentTypeCodes k).mpr ⟨pt, hpt, hcode⟩
  · rintro ⟨hk, hkeys⟩
    refine ⟨hkeys, ?_⟩
    obtain ⟨pt, hpt, rfl⟩ := (mem_paymentTypeCodes k).mp hk
    rw [getPaymentTypeInfo_self pt hpt]
    rfl

/-- The payment-method lines of `buildReceiptJournalLines` are those of the
specification. -/
theorem paymentLines_eq (m : JsObject String ℚ) (bn : String) (hnodup : (keysOf m).Nodup) :
    (sortedPaymentCodes m).filterMap (paymentLine? m bn) = receiptPathLines m bn := by
  rw [← filterMap_filter_of_none (paymentLine? m bn)
    (fun k => (getPaymentTypeInfo k).isSome) (sortedPaymentCodes m)
    (fun k _ hk => by
      unfold paymentLine?
      cases hi : getPaymentTypeInfo k with
      | none => cases getProp m k <;> rfl
      | some pt => simp [hi] at hk)]
  rw [sortedPaymentCodes_known m hnodup,
    filterMap_filter_of_none (paymentLine? m bn) (fun k => decide (k ∈ keysOf m))
      paymentTypeCodes (fun k _ hk => by
        unfold paymentLine?
        rw [(getProp_eq_none_iff m k).mpr (by simpa using hk)])]
  unfold paymentTypeCodes receiptPathLines
  rw [List.filterMap_map]
  apply List.filterMap_congr
  intro pt hpt
  simp only [Function.comp, paymentLine?]
  rw [getPaymentTypeInfo_self pt (paymentTypesByCode_perm.mem_iff.mp hpt)]
  cases getProp m pt.code with
  | none => rfl
  | some netAmount => simp only [contentLine]

theorem receiptPathTotal_eq (m : JsObject String ℚ) (bn : String) :
    -lineSum (receiptPathLines m bn) = receiptPathTotal m ∧ 0 ≤ receiptPathTotal m := by
  unfold receiptPathLines receiptPathTotal
  induction paymentTypesByCode with
  | nil => simp [lineSum]
  | cons pt l ih =>
    cases hg : getProp m pt.code with
    | none =>
      simp only [List.filterMap_cons, hg]
      exact ih
    | some netAmount =>
      by_cases ht : |netAmount| > 1 / 100
      · simp only [List.filterMap_cons, hg, if_pos ht, lineSum_cons, List.sum_cons]
        constructor
        · rw [← ih.1]; ring
        · have := abs_nonneg netAmount
          linarith [ih.2]
      · simp only [List.filterMap_cons, hg, if_neg ht]
        exact ih

theorem clearingOf_receiptPathLines (m : JsObject String ℚ) (bn : String) :
    clearingOf (receiptPathLines m bn) bn = receiptPathClearing m bn := by
  obtain ⟨h1, h2⟩ := receiptPathTotal_eq m bn
  unfold clearingOf receiptPathClearing
  rw [h1, abs_of_nonneg h2]
  rfl

/-- The lines built from a map of net amounts per payment code, in the words of the
specification. -/
theorem receiptLinesOf_spec (m : JsObject String ℚ) (bn : String)
    (hnodup : (keysOf m).Nodup) :
    receiptLinesOf m bn = receiptPathLines m bn ++ receiptPathClearing m bn := by
  rw [receiptLinesOf_eq, paymentLines_eq m bn hnodup, clearingOf_receiptPathLines]

/-- C12: `buildReceiptJournalLines` returns the payment-method lines of the specification
(one line per entry of `PAYMENT_TYPES`, in ascending order of code, whose code has a net
amount with `abs(netAmount) > 0.01`, with the description and account code of the entry, the
amount `-abs(netAmount)` and the tax type NONE) followed by the POS Clearing line of their
total exactly when the total exceeds 0.01; for CAS 50.00 and VIS 75.00 these are the CAS
line, the VIS line and a clearing line of 125.00. -/
theorem receipt_path (receipts : List Receipt) (branchName : String) :
    paymentTypesByCode.Perm PAYMENT_TYPES ∧
    (paymentTypesByCode.map fun pt => pt.code).Sorted (· < ·) ∧
    buildReceiptJournalLines receipts branchName
      = receiptPathLines (calculatePaymentTypeAmounts receipts) branchName
        ++ receiptPathClearing (calculatePaymentTypeAmounts receipts) branchName ∧
    buildReceiptJournalLines scenarioC branchName
      = [ { Description := "Cash", LineAmount := -50, AccountCode := "18000",
            TaxType := "NONE", Tracking := [⟨"Store", branchName⟩] },
          { Description := "EFTPOS - Visa", LineAmount := -75, AccountCode := "18001",
            TaxType := "NONE", Tracking := [⟨"Store", branchName⟩] },
          { Description := "POS Clearing", LineAmount := 125, AccountCode := "18011",
            TaxType := "NONE", Tracking := [⟨"Store", branchName⟩] } ] := by
  have hspec : ∀ rs : List Receipt, buildReceiptJournalLines rs branchName
      = receiptPathLines (calculatePaymentTypeAmounts rs) branchName
        ++ receiptPathClearing (calculatePaymentTypeAmounts rs) branchName := fun rs =>
    receiptLinesOf_spec _ branchName (nodup_keysOf_calculatePaymentTypeAmounts rs)
  refine ⟨paymentTypesByCode_perm, paymentTypeCodes_ascending, hspec receipts, ?_⟩
  rw [hspec scenarioC]
  have hm : calculatePaymentTypeAmounts scenarioC = [("VIS", 75), ("CAS", 50)] := by
    decide!
  rw [hm]
  have h1 : receiptPathLines [("VIS", 75), ("CAS", 50)] branchName
      = [ { Description := "Cash", LineAmount := -50, AccountCode := "18000",
            TaxType := "NONE", Tracking := [⟨"Store", branchName⟩] },
          { Description := "EFTPOS - Visa", LineAmount := -75, AccountCode := "18001",
            TaxType := "NONE", Tracking := [⟨"Store", branchName⟩] } ] := by
    have hl : paymentTypesByCode =
        [ ⟨"AFT", "Pay Later - Afterpay", "18004"⟩, ⟨"AMX", "EFTPOS - American Express", "18001"⟩,
          ⟨"CAS", "Cash", "18000"⟩, ⟨"CHQ", "Cheque", "18000"⟩,
          ⟨"DDP", "Direct Deposit", "18005"⟩, ⟨"DIN", "EFTPOS - Diners", "18001"⟩,
          ⟨"EFT", "EFTPOS - Cheque/Savings", "18001"⟩, ⟨"HFD", "Health Fund", "18003"⟩,
          ⟨"LAT", "Pay Later - LatitudePay", "18004"⟩, ⟨"MAS", "EFTPOS - MasterCard", "18001"⟩,
          ⟨"OPN", "Pay Later - Openpay", "18004"⟩, ⟨"OTH", "EFTPOS - Other", "18001"⟩,
          ⟨"OTP", "Pay Later - Other", "18004"⟩, ⟨"VIS", "EFTPOS - Visa", "18001"⟩,
          ⟨"VOU", "Voucher", "63071"⟩, ⟨"ZIP", "Pay Later - zipPay", "18004"⟩ ] := by
      decide!
    unfold receiptPathLines
    rw [hl]
    simp [List.filterMap_cons, getProp]
    norm_num
  have h2 : receiptPathTotal [("VIS", 75), ("CAS", 50)] = 125 := by
    have h3 := (receiptPathTotal_eq [("VIS", 75), ("CAS", 50)] branchName).1
    rw [h1] at h3
    rw [← h3]
    simp [lineSum]
    norm_num
  unfold receiptPathClearing
  rw [h1, h2]
  norm_num

/-! ## The journal document -/

theorem buildJournalLines_nil (bn : String) : buildJournalLines [] bn = [] := by
  rw [buildJournalLines_eq]
  simp [sortedStockTypeIds, objectKeys, clearingOf, lineSum_nil]

theorem receiptLinesOf_nil (bn : String) : receiptLinesOf [] bn = [] := by
  rw [receiptLinesOf_eq]
  simp [sortedPaymentCodes, objectKeys, clearingOf, lineSum_nil]

theorem eq_nil_of_objectKeys_length {K V : Type} (idx : K → Option ℕ) (m : JsObject K V)
    (h : ¬ (objectKeys idx m).length > 0) : m = [] := by
  have h1 : (objectKeys idx m).length = (keysOf m).length :=
    (arrangeKeys_perm idx (keysOf m)).length_eq
  have h2 : (keysOf m).length = m.length := by simp [keysOf]
  have h3 : m.length = 0 := by omega
  exact List.length_eq_zero.mp h3

/-- The lines that `processBranchAndDate` collects are the invoice-path lines followed by
the receipt-path lines: the guards on empty inputs only skip computations that yield no
line. -/
theorem processBranchAndDate_eq {R : Type} (createManualJournal : ManualJournal → R)
    (branchCode dateStr : String) (invoices : List Invoice) (receipts : List Receipt) :
    processBranchAndDate createManualJournal branchCode dateStr invoices receipts =
      if combinedLines branchCode invoices receipts = [] then Outcome.nothingToPost
      else
        Outcome.posted
          { Date := dateStr
            Status := "DRAFT"
            Narration := "Daily Trading Sales and receipt"
            LineAmountTypes := "Inclusive"
            ShowOnCashBasisReports := false
            JournalLines := combinedLines branchCode invoices receipts }
          (createManualJournal
            { Date := dateStr
              Status := "DRAFT"
              Narration := "Daily Trading Sales and receipt"
              LineAmountTypes := "Inclusive"
              ShowOnCashBasisReports := false
              JournalLines := combinedLines branchCode invoices receipts }) := by
  have h1 : (if invoices.length > 0 then
        if (objectKeys numIndex? (calculateStockTypeAmounts invoices branchCode)).length > 0
        then buildJournalLines (calculateStockTypeAmounts invoices branchCode)
          (getBranchName branchCode)
        else []
      else [])
      = buildJournalLines (calculateStockTypeAmounts invoices branchCode)
          (getBranchName branchCode) := by
    by_cases hi : invoices.length > 0
    · rw [if_pos hi]
      by_cases hk : (objectKeys numIndex?
          (calculateStockTypeAmounts invoices branchCode)).length > 0
      · rw [if_pos hk]
      · rw [if_neg hk, eq_nil_of_objectKeys_length _ _ hk, buildJournalLines_nil]
    · rw [if_neg hi]
      have : invoices = [] := List.length_eq_zero.mp (by omega)
      subst this
      have hc : calculateStockTypeAmounts [] branchCode = [] := rfl
      rw [hc, buildJournalLines_nil]
  have h2 : ∀ l : List JournalLine,
      (if receipts.length > 0 then
        l ++ buildReceiptJournalLines receipts (getBranchName branchCode) else l)
      = l ++ buildReceiptJournalLines receipts (getBranchName branchCode) := by
    intro l
    by_cases hr : receipts.length > 0
    · rw [if_pos hr]
    · rw [if_neg hr]
      have : receipts = [] := List.length_eq_zero.mp (by omega)
      subst this
      have hc : buildReceiptJournalLines [] (getBranchName branchCode) = [] :=
        receiptLinesOf_nil _
      rw [hc, List.append_nil]
  unfold processBranchAndDate
  simp only [h1, h2, List.length_eq_zero]
  rfl

/-- C13: `processBranchAndDate` returns `null` without posting exactly when the invoice-path
lines followed by the receipt-path lines are empty; empty invoices with empty receipts yield
no document, and a document that is posted has a non-empty list of journal lines. -/
theorem nothing_to_post {R : Type} (createManualJournal : ManualJournal → R)
    (branchCode dateStr : String) :
    (∀ (invoices : List Invoice) (receipts : List Receipt),
      processBranchAndDate createManualJournal branchCode dateStr invoices receipts
          = Outcome.nothingToPost
        ↔ combinedLines branchCode invoices receipts = []) ∧
    processBranchAndDate createManualJournal branchCode dateStr [] [] = Outcome.nothingToPost ∧
    (∀ (invoices : List Invoice) (receipts : List Receipt) (doc : ManualJournal) (r : R),
      processBranchAndDate createManualJournal branchCode dateStr invoices receipts
          = Outcome.posted doc r →
      doc.JournalLines ≠ []) := by
  refine ⟨?_, ?_, ?_⟩
  · intro invoices receipts
    rw [processBranchAndDate_eq]
    by_cases h : combinedLines branchCode invoices receipts = []
    · simp [h]
    · simp [h]
  · rw [processBranchAndDate_eq]
    have h : combinedLines branchCode [] [] = [] := by
      unfold combinedLines
      have hc : calculateStockTypeAmounts [] branchCode = [] := rfl
      have hr : buildReceiptJournalLines [] (getBranchName branchCode) = [] :=
        receiptLinesOf_nil _
      rw [hc, hr, buildJournalLines_nil]
      rfl
    rw [if_pos h]
  · intro invoices receipts doc r h
    rw [processBranchAndDate_eq] at h
    by_cases hl : combinedLines branchCode invoices receipts = []
    · rw [if_pos hl] at h
      cases h
    · rw [if_neg hl] at h
      cases h
      exact hl

theorem nothing_to_post_witness :
    (⟨"2025-11-23", "DRAFT", "Daily Trading Sales and receipt", "Inclusive", false,
        combinedLines "PA1" scenarioA scenarioC⟩ : ManualJournal).JournalLines ≠ [] :=
  (nothing_to_post id "PA1" "2025-11-23").2.2 scenarioA scenarioC
    ⟨"2025-11-23", "DRAFT", "Daily Trading Sales and receipt", "Inclusive", false,
      combinedLines "PA1" scenarioA scenarioC⟩
    ⟨"2025-11-23", "DRAFT", "Daily Trading Sales and receipt", "Inclusive", false,
      combinedLines "PA1" scenarioA scenarioC⟩
    (by decide!)

/-- C14: a document that `processBranchAndDate` posts has for journal lines the lines
`buildJournalLines(calculateStockTypeAmounts(invoices), branchName)` followed by the lines
`buildReceiptJournalLines(receipts, branchName)`, where `branchName` is the name of the
branch, and for other fields the trading-date string, the status DRAFT, the narration
`Daily Trading Sales and receipt`, the line-amount mode Inclusive and the cash-basis flag
`false`; the result is that of `createManualJournal` on this document. -/
theorem journal_document_assembly {R : Type} (createManualJournal : ManualJournal → R)
    (branchCode dateStr : String) (invoices : List Invoice) (receipts : List Receipt)
    (doc : ManualJournal) (r : R)
    (h : processBranchAndDate createManualJournal branchCode dateStr invoices receipts
      = Outcome.posted doc r) :
    doc.JournalLines
        = buildJournalLines (calculateStockTypeAmounts invoices branchCode)
            (getBranchName branchCode)
          ++ buildReceiptJournalLines receipts (getBranchName branchCode) ∧
      doc.Date = dateStr ∧ doc.Status = "DRAFT" ∧
      doc.Narration = "Daily Trading Sales and receipt" ∧
      doc.LineAmountTypes = "Inclusive" ∧ doc.ShowOnCashBasisReports = false ∧
      r = createManualJournal doc := by
  rw [processBranchAndDate_eq] at h
  by_cases hl : combinedLines branchCode invoices receipts = []
  · rw [if_pos hl] at h
    cases h
  · rw [if_neg hl] at h
    cases h
    exact ⟨rfl, rfl, rfl, rfl, rfl, rfl, rfl⟩

theorem journal_document_assembly_witness :
    (⟨"2025-11-23", "DRAFT", "Daily Trading Sales and receipt", "Inclusive", false,
          combinedLines "PA1" scenarioA scenarioC⟩ : ManualJournal).JournalLines
        = buildJournalLines (calculateStockTypeAmounts scenarioA "PA1") (getBranchName "PA1")
          ++ buildReceiptJournalLines scenarioC (getBranchName "PA1") ∧
      "2025-11-23" = "2025-11-23" ∧ "DRAFT" = "DRAFT" ∧
      "Daily Trading Sales and receipt" = "Daily Trading Sales and receipt" ∧
      "Inclusive" = "Inclusive" ∧ false = false ∧
      (⟨"2025-11-23", "DRAFT", "Daily Trading Sales and receipt", "Inclusive", false,
          combinedLines "PA1" scenarioA scenarioC⟩ : ManualJournal)
        = id (⟨"2025-11-23", "DRAFT", "Daily Trading Sales and receipt", "Inclusive", false,
          combinedLines "PA1" scenarioA scenarioC⟩ : ManualJournal) :=
  journal_document_assembly id "PA1" "2025-11-23" scenarioA scenarioC _ _ (by decide!)

/-! ## Exceptions -/

theorem forEachE_eq_ok {σ α β : Type} (body : σ → α → Except JsError σ) (step : σ → β → σ)
    (g : β → α) (l : List β) (h : ∀ s, ∀ b ∈ l, body s (g b) = .ok (step s b)) (s : σ) :
    forEachE body s (l.map g) = .ok (l.foldl step s) := by
  induction l generalizing s with
  | nil => rfl
  | cons b l ih =>
    simp only [List.map_cons, forEachE, h s b (List.mem_cons_self b l), List.foldl_cons]
    exact ih (fun s1 b1 hb1 => h s1 b1 (List.mem_cons_of_mem b hb1)) _

theorem forEachE_eq_ok_id {σ α : Type} (body : σ → α → Except JsError σ) (step : σ → α → σ)
    (l : List α) (h : ∀ s, ∀ a ∈ l, body s a = .ok (step s a)) (s : σ) :
    forEachE body s l = .ok (l.foldl step s) := by
  have := forEachE_eq_ok body step id l h s
  rwa [List.map_id] at this

theorem getProp_setProp_self {K V : Type} [DecidableEq K] (m : JsObject K V) (k : K) (v : V) :
    getProp (setProp m k v) k = some v := by
  induction m with
  | nil => simp [setProp, getProp]
  | cons e m ih =>
    obtain ⟨k1, v1⟩ := e
    by_cases h : k1 = k
    · simp [setProp, getProp, h]
    · simp [setProp, getProp, h, ih]

theorem jsOr_value {α : Type} (truthy : α → Bool) (a b : α) :
    jsOr (Fetched.truthy truthy) (Fetched.value a) (Fetched.value b)
      = Fetched.value (jsOr truthy a b) := by
  unfold jsOr
  simp only [Fetched.truthy]
  split <;> rfl

theorem tryAddInvoiceItem_some (m : JsObject ℚ StockBucket) (item : InvoiceItem) :
    tryAddInvoiceItem m (some (fetchedInvoiceItem item)) = .ok (addInvoiceItem m item) := by
  have hid : jsOr (Fetched.truthy idTruthy)
      (jsOr (Fetched.truthy idTruthy) (Fetched.value item.STOCK_TYPE_ID)
        (Fetched.value item.StockTypeId)) (Fetched.value item.stock_type_id)
      = Fetched.value (stockTypeIdOf item) := by
    simp only [jsOr_value, stockTypeIdOf]
  have ht : jsOr (Fetched.truthy JsVal.truthy)
      (jsOr (Fetched.truthy JsVal.truthy)
        (jsOr (Fetched.truthy JsVal.truthy) (Fetched.value item.TOTAL)
          (Fetched.value item.Total)) (Fetched.value item.total))
      (Fetched.value (JsVal.num 0)) = Fetched.value (totalArg item) := by
    simp only [jsOr_value, totalArg]
  have hg : jsOr (Fetched.truthy JsVal.truthy)
      (jsOr (Fetched.truthy JsVal.truthy)
        (jsOr (Fetched.truthy JsVal.truthy) (Fetched.value item.GST_AMOUNT)
          (Fetched.value item.GstAmount)) (Fetched.value item.gst_amount))
      (Fetched.value (JsVal.num 0)) = Fetched.value (gstAmountArg item) := by
    simp only [jsOr_value, gstAmountArg]
  unfold tryAddInvoiceItem addInvoiceItem
  simp only [fetchedInvoiceItem, hid, ht, hg, tryParseFloat, Fetched.truthy]
  cases hc : stockTypeIdOf item with
  | none => rfl
  | some c =>
    by_cases h0 : c = 0
    · simp only [idTruthy, h0, ne_eq, not_true_eq_false, decide_False, Bool.not_false,
        if_true]
    · have htr : (!idTruthy (some c)) = false := by simp [idTruthy, h0]
      simp only [htr, Bool.false_eq_true, if_false, if_neg h0]
      by_cases hs : (parseFloat (totalArg item)).isNone = true
          ∧ (parseFloat (gstAmountArg item)).isNone = true
      · rw [if_pos hs, if_pos hs]
      · rw [if_neg hs, if_neg hs]
        cases hgp : getProp m c with
        | none =>
          simp only [Option.isNone_none, if_true, getProp_setProp_self]
        | some b =>
          simp only [Option.isNone_some, Bool.false_eq_true, if_false, hgp]

theorem truthy_mapElems {α β : Type} (f : α → β) (x : JsItems α) :
    (x.mapElems f).truthy = x.truthy := by
  cases x <;> rfl

theorem jsOr_mapElems {α β : Type} (f : α → β) (x y : JsItems α) :
    jsOr JsItems.truthy (x.mapElems f) (y.mapElems f)
      = (jsOr JsItems.truthy x y).mapElems f := by
  unfold jsOr
  rw [truthy_mapElems]
  split <;> rfl

theorem tryAddInvoice_some (m : JsObject ℚ StockBucket) (invoice : Invoice) :
    tryAddInvoice m (some (fetchedInvoice invoice)) = .ok (addInvoice m invoice) := by
  have h : jsOr JsItems.truthy
      (jsOr JsItems.truthy
        (jsOr JsItems.truthy (fetchedInvoice invoice).ITEMS (fetchedInvoice invoice).Items)
        (fetchedInvoice invoice).items)
      (.array []) = (invoiceItems invoice).mapElems fun item =>
        some (fetchedInvoiceItem item) := by
    unfold invoiceItems fetchedInvoice
    simp only [jsOr_mapElems]
    exact jsOr_mapElems (fun item => some (fetchedInvoiceItem item)) _ (.array [])
  unfold tryAddInvoice addInvoice
  simp only [h]
  cases invoiceItems invoice with
  | falsy => rfl
  | nonArray => rfl
  | array elems =>
    simp only [JsItems.mapElems, JsItems.truthy, JsItems.isArray, Bool.not_true, Bool.or_self,
      Bool.false_eq_true, if_false]
    exact forEachE_eq_ok tryAddInvoiceItem addInvoiceItem
      (fun item => some (fetchedInvoiceItem item)) elems
      (fun s b _ => tryAddInvoiceItem_some s b) m

theorem tryAddStockNet_of_mem (m : JsObject ℚ StockBucket) (r : JsObject ℚ StockNet) (k : ℚ)
    (hk : k ∈ keysOf m) : tryAddStockNet m r k = .ok (addStockNet m r k) := by
  unfold tryAddStockNet addStockNet
  cases hg : getProp m k with
  | none => exact absurd hk ((getProp_eq_none_iff m k).mp hg)
  | some b =>
    simp only
    split <;> rfl

theorem mem_keysOf_of_mem_objectKeys {K V : Type} (idx : K → Option ℕ) (m : JsObject K V)
    (k : K) (h : k ∈ objectKeys idx m) : k ∈ keysOf m := by
  rw [objectKeys_eq_arrangeKeys, mem_arrangeKeys] at h
  exact h

theorem tryCalculateStockTypeAmounts_fetched (invoices : List Invoice) (br : String) :
    tryCalculateStockTypeAmounts (fetchedInvoices invoices) br
      = .ok (calculateStockTypeAmounts invoices br) := by
  have h1 : forEachE tryAddInvoice [] (fetchedInvoices invoices)
      = .ok (stockTypeMapOf invoices) :=
    forEachE_eq_ok tryAddInvoice addInvoice (fun invoice => some (fetchedInvoice invoice))
      invoices (fun s b _ => tryAddInvoice_some s b) []
  unfold tryCalculateStockTypeAmounts calculateStockTypeAmounts
  simp only [h1]
  exact forEachE_eq_ok_id _ _ _
    (fun s k hk => tryAddStockNet_of_mem _ s k (mem_keysOf_of_mem_objectKeys _ _ k hk)) []

theorem tryAddReceiptItem_some (m : JsObject String PaymentBucket) (item : ReceiptItem) :
    tryAddReceiptItem m (some (fetchedReceiptItem item)) = .ok (addReceiptItem m item) := by
  have hid : jsOr (Fetched.truthy codeTruthy)
      (jsOr (Fetched.truthy codeTruthy) (Fetched.value item.PAYMENT_TYPE_CODE)
        (Fetched.value item.PaymentTypeCode)) (Fetched.value item.payment_type_code)
      = Fetched.value (paymentTypeCodeOf item) := by
    simp only [jsOr_value, paymentTypeCodeOf]
  have ha : jsOr (Fetched.truthy JsVal.truthy)
      (jsOr (Fetched.truthy JsVal.truthy)
        (jsOr (Fetched.truthy JsVal.truthy) (Fetched.value item.AMOUNT)
          (Fetched.value item.Amount)) (Fetched.value item.amount))
      (Fetched.value (JsVal.num 0)) = Fetched.value (amountArg item) := by
    simp only [jsOr_value, amountArg]
  unfold tryAddReceiptItem addReceiptItem
  simp only [fetchedReceiptItem, hid, ha, tryParseFloat, Fetched.truthy]
  cases hc : paymentTypeCodeOf item with
  | none => rfl
  | some c =>
    by_cases h0 : c = ""
    · simp only [codeTruthy, h0, ne_eq, not_true_eq_false, decide_False, Bool.not_false,
        if_true]
    · have htr : (!codeTruthy (some c)) = false := by simp [codeTruthy, h0]
      simp only [htr, Bool.false_eq_true, if_false, if_neg h0]
      cases hp : parseFloat (amountArg item) with
      | none => rfl
      | some a =>
        simp only
        by_cases hn : (getProp m c).isNone = true ∧ c ∉ objectPrototypeKeys
        · rw [if_pos hn, if_neg]
          rw [getProp_setProp_self]
          simp
        · rw [if_neg hn, if_neg hn]

theorem tryAddReceipt_some (m : JsObject String PaymentBucket) (receipt : Receipt) :
    tryAddReceipt m (some (fetchedReceipt receipt)) = .ok (addReceipt m receipt) := by
  have h : jsOr JsItems.truthy
      (jsOr JsItems.truthy
        (jsOr JsItems.truthy (fetchedReceipt receipt).RECEIPT_ITEMS
          (fetchedReceipt receipt).ReceiptItems)
        (fetchedReceipt receipt).receipt_items)
      (.array []) = (receiptItems receipt).mapElems fun item =>
        some (fetchedReceiptItem item) := by
    unfold receiptItems fetchedReceipt
    simp only [jsOr_mapElems]
    exact jsOr_mapElems (fun item => some (fetchedReceiptItem item)) _ (.array [])
  unfold tryAddReceipt addReceipt
  simp only [h]
  cases receiptItems receipt with
  | falsy => rfl
  | nonArray => rfl
  | array elems =>
    simp only [JsItems.mapElems, JsItems.truthy, JsItems.isArray, Bool.not_true, Bool.or_self,
      Bool.false_eq_true, if_false]
    exact forEachE_eq_ok tryAddReceiptItem addReceiptItem
      (fun item => some (fetchedReceiptItem item)) elems
      (fun s b _ => tryAddReceiptItem_some s b) m

theorem tryAddPaymentNet_of_mem (m : JsObject String PaymentBucket) (r : JsObject String ℚ)
    (k : String) (hk : k ∈ keysOf m) : tryAddPaymentNet m r k = .ok (addPaymentNet m r k) := by
  unfold tryAddPaymentNet addPaymentNet
  cases hg : getProp m k with
  | none => exact absurd hk ((getProp_eq_none_iff m k).mp hg)
  | some b =>
    simp only
    split <;> rfl

theorem tryCalculatePaymentTypeAmounts_fetched (receipts : List Receipt) :
    tryCalculatePaymentTypeAmounts (fetchedReceipts receipts)
      = .ok (calculatePaymentTypeAmounts receipts) := by
  have h1 : forEachE tryAddReceipt [] (fetchedReceipts receipts)
      = .ok (paymentTypeMapOf receipts) :=
    forEachE_eq_ok tryAddReceipt addReceipt (fun receipt => some (fetchedReceipt receipt))
      receipts (fun s b _ => tryAddReceipt_some s b) []
  unfold tryCalculatePaymentTypeAmounts calculatePaymentTypeAmounts
  simp only [h1]
  exact forEachE_eq_ok_id _ _ _
    (fun s k hk => tryAddPaymentNet_of_mem _ s k (mem_keysOf_of_mem_objectKeys _ _ k hk)) []

theorem tryBuildReceiptJournalLines_fetched (receipts : List Receipt) (bn : String) :
    tryBuildReceiptJournalLines (fetchedReceipts receipts) bn
      = .ok (buildReceiptJournalLines receipts bn) := by
  unfold tryBuildReceiptJournalLines buildReceiptJournalLines receiptLinesOf
  simp only [tryCalculatePaymentTypeAmounts_fetched]
  have h1 : ∀ ks : List String,
      forEachE (tryAddPaymentLine (calculatePaymentTypeAmounts receipts) bn) ⟨[], 0⟩ ks
        = .ok (ks.foldl (addPaymentLine (calculatePaymentTypeAmounts receipts) bn) ⟨[], 0⟩) :=
    fun ks => forEachE_eq_ok_id _ _ ks (fun _ _ _ => rfl) _
  simp only [h1]
  split
  · rfl
  · split <;> rfl

theorem mem_keysOf_of_mem_sorted {V : Type} (m : JsObject ℚ V) (k : ℚ)
    (h : k ∈ (objectKeys numIndex? m).insertionSort parseIntLE) : k ∈ keysOf m :=
  mem_keysOf_of_mem_objectKeys _ _ k ((List.perm_insertionSort _ _).mem_iff.mp h)

theorem tryAddGstOnIncomeLine_of_mem (m : JsObject ℚ StockNet) (bn : String)
    (st : JournalLinesState) (k : ℚ) (hk : k ∈ keysOf m) :
    tryAddGstOnIncomeLine m bn st k = .ok (addGstOnIncomeLine m bn st k) := by
  unfold tryAddGstOnIncomeLine
  cases hg : getProp m k with
  | none => exact absurd hk ((getProp_eq_none_iff m k).mp hg)
  | some b => rfl

theorem tryAddGstFreeIncomeLine_of_mem (m : JsObject ℚ StockNet) (bn : String)
    (st : JournalLinesState) (k : ℚ) (hk : k ∈ keysOf m) :
    tryAddGstFreeIncomeLine m bn st k = .ok (addGstFreeIncomeLine m bn st k) := by
  unfold tryAddGstFreeIncomeLine
  cases hg : getProp m k with
  | none => exact absurd hk ((getProp_eq_none_iff m k).mp hg)
  | some b => rfl

theorem tryBuildJournalLines_eq (m : JsObject ℚ StockNet) (bn : String) :
    tryBuildJournalLines m bn = .ok (buildJournalLines m bn) := by
  have h1 : ∀ st : JournalLinesState,
      forEachE (tryAddGstOnIncomeLine m bn) st
          ((objectKeys numIndex? m).insertionSort parseIntLE)
        = .ok (((objectKeys numIndex? m).insertionSort parseIntLE).foldl
            (addGstOnIncomeLine m bn) st) :=
    fun st => forEachE_eq_ok_id _ _ _
      (fun s k hk => tryAddGstOnIncomeLine_of_mem m bn s k (mem_keysOf_of_mem_sorted m k hk)) st
  have h2 : ∀ st : JournalLinesState,
      forEachE (tryAddGstFreeIncomeLine m bn) st
          ((objectKeys numIndex? m).insertionSort parseIntLE)
        = .ok (((objectKeys numIndex? m).insertionSort parseIntLE).foldl
            (addGstFreeIncomeLine m bn) st) :=
    fun st => forEachE_eq_ok_id _ _ _
      (fun s k hk => tryAddGstFreeIncomeLine_of_mem m bn s k (mem_keysOf_of_mem_sorted m k hk))
      st
  unfold tryBuildJournalLines buildJournalLines
  simp only [h1, h2]

theorem eq_value_of_isValue {α : Type} (x : Fetched α) (h : x.isValue = true) :
    ∃ v, x = Fetched.value v := by
  cases x with
  | value v => exact ⟨v, rfl⟩
  | unconvertible => cases h

theorem invoiceItem_of_readable (x : Option FetchedInvoiceItem)
    (h : invoiceItemReadable x = true) : ∃ item, x = some (fetchedInvoiceItem item) := by
  cases x with
  | none => cases h
  | some r =>
    obtain ⟨x1, x2, x3, x4, x5, x6, x7, x8, x9⟩ := r
    simp only [invoiceItemReadable, Bool.and_eq_true] at h
    obtain ⟨⟨⟨⟨⟨⟨⟨⟨h1, h2⟩, h3⟩, h4⟩, h5⟩, h6⟩, h7⟩, h8⟩, h9⟩ := h
    obtain ⟨v1, rfl⟩ := eq_value_of_isValue x1 h1
    obtain ⟨v2, rfl⟩ := eq_value_of_isValue x2 h2
    obtain ⟨v3, rfl⟩ := eq_value_of_isValue x3 h3
    obtain ⟨v4, rfl⟩ := eq_value_of_isValue x4 h4
    obtain ⟨v5, rfl⟩ := eq_value_of_isValue x5 h5
    obtain ⟨v6, rfl⟩ := eq_value_of_isValue x6 h6
    obtain ⟨v7, rfl⟩ := eq_value_of_isValue x7 h7
    obtain ⟨v8, rfl⟩ := eq_value_of_isValue x8 h8
    obtain ⟨v9, rfl⟩ := eq_value_of_isValue x9 h9
    exact ⟨⟨v1, v2, v3, v4, v5, v6, v7, v8, v9⟩, rfl⟩

theorem receiptItem_of_readable (x : Option FetchedReceiptItem)
    (h : receiptItemReadable x = true) : ∃ item, x = some (fetchedReceiptItem item) := by
  cases x with
  | none => cases h
  | some r =>
    obtain ⟨x1, x2, x3, x4, x5, x6⟩ := r
    simp only [receiptItemReadable, Bool.and_eq_true] at h
    obtain ⟨⟨⟨⟨⟨h1, h2⟩, h3⟩, h4⟩, h5⟩, h6⟩ := h
    obtain ⟨v1, rfl⟩ := eq_value_of_isValue x1 h1
    obtain ⟨v2, rfl⟩ := eq_value_of_isValue x2 h2
    obtain ⟨v3, rfl⟩ := eq_value_of_isValue x3 h3
    obtain ⟨v4, rfl⟩ := eq_value_of_isValue x4 h4
    obtain ⟨v5, rfl⟩ := eq_value_of_isValue x5 h5
    obtain ⟨v6, rfl⟩ := eq_value_of_isValue x6 h6
    exact ⟨⟨v1, v2, v3, v4, v5, v6⟩, rfl⟩

theorem map_of_all {α β : Type} (f : β → α) (p : α → Bool)
    (hp : ∀ x, p x = true → ∃ y, x = f y) (l : List α) (h : l.all p = true) :
    ∃ ys : List β, l = ys.map f := by
  induction l with
  | nil => exact ⟨[], rfl⟩
  | cons a l ih =>
    simp only [List.all_cons, Bool.and_eq_true] at h
    obtain ⟨y, rfl⟩ := hp a h.1
    obtain ⟨ys, rfl⟩ := ih h.2
    exact ⟨y :: ys, rfl⟩

theorem mapElems_of_allElems {α β : Type} (f : β → α) (p : α → Bool)
    (hp : ∀ x, p x = true → ∃ y, x = f y) (x : JsItems α) (h : x.allElems p = true) :
    ∃ y : JsItems β, x = y.mapElems f := by
  cases x with
  | falsy => exact ⟨.falsy, rfl⟩
  | nonArray => exact ⟨.nonArray, rfl⟩
  | array elems =>
    obtain ⟨ys, rfl⟩ := map_of_all f p hp elems h
    exact ⟨.array ys, rfl⟩

theorem fetchedInvoices_of_readable (invoices : List (Option FetchedInvoice))
    (h : invoicesReadable invoices = true) :
    ∃ objs : List Invoice, invoices = fetchedInvoices objs := by
  refine map_of_all (fun invoice => some (fetchedInvoice invoice)) _ ?_ invoices h
  intro x hx
  cases x with
  | none => cases hx
  | some r =>
    simp only [Bool.and_eq_true] at hx
    obtain ⟨⟨h1, h2⟩, h3⟩ := hx
    obtain ⟨y1, e1⟩ := mapElems_of_allElems _ _ invoiceItem_of_readable _ h1
    obtain ⟨y2, e2⟩ := mapElems_of_allElems _ _ invoiceItem_of_readable _ h2
    obtain ⟨y3, e3⟩ := mapElems_of_allElems _ _ invoiceItem_of_readable _ h3
    obtain ⟨r1, r2, r3⟩ := r
    simp only at e1 e2 e3
    subst e1 e2 e3
    exact ⟨⟨y1, y2, y3⟩, rfl⟩

theorem fetchedReceipts_of_readable (receipts : List (Option FetchedReceipt))
    (h : receiptsReadable receipts = true) :
    ∃ objs : List Receipt, receipts = fetchedReceipts objs := by
  refine map_of_all (fun receipt => some (fetchedReceipt receipt)) _ ?_ receipts h
  intro x hx
  cases x with
  | none => cases hx
  | some r =>
    simp only [Bool.and_eq_true] at hx
    obtain ⟨⟨h1, h2⟩, h3⟩ := hx
    obtain ⟨y1, e1⟩ := mapElems_of_allElems _ _ receiptItem_of_readable _ h1
    obtain ⟨y2, e2⟩ := mapElems_of_allElems _ _ receiptItem_of_readable _ h2
    obtain ⟨y3, e3⟩ := mapElems_of_allElems _ _ receiptItem_of_readable _ h3
    obtain ⟨r1, r2, r3⟩ := r
    simp only at e1 e2 e3
    subst e1 e2 e3
    exact ⟨⟨y1, y2, y3⟩, rfl⟩

theorem addInvoice_of_not_array (m : JsObject ℚ StockBucket) (invoice : Invoice)
    (h : (invoiceItems invoice).isArray = false) : addInvoice m invoice = m := by
  unfold addInvoice
  cases hi : invoiceItems invoice with
  | falsy => rfl
  | nonArray => rfl
  | array elems => rw [hi] at h; cases h

theorem addReceipt_of_not_array (m : JsObject String PaymentBucket) (receipt : Receipt)
    (h : (receiptItems receipt).isArray = false) : addReceipt m receipt = m := by
  unfold addReceipt
  cases hi : receiptItems receipt with
  | falsy => rfl
  | nonArray => rfl
  | array elems => rw [hi] at h; cases h

/-- C15 as stated fails: `calculateStockTypeAmounts` throws a `TypeError` on the invoice
array `[{ ITEMS: [null] }]` (the read `item.STOCK_TYPE_ID` on `null`), on an item whose
total is `{ toString: 1 }` (`parseFloat` cannot convert it to a string) and on an item whose
category identifier is `{ toString: 1 }` (it cannot be converted to a property key);
`calculatePaymentTypeAmounts` and `buildReceiptJournalLines` throw on the receipt arrays of
the same three kinds. -/
theorem no_exceptions_counterexample :
    tryCalculateStockTypeAmounts nullItemInvoices "PA1" = .error .typeError ∧
    tryCalculateStockTypeAmounts unconvertibleTotalInvoices "PA1" = .error .typeError ∧
    tryCalculateStockTypeAmounts unconvertibleIdInvoices "PA1" = .error .typeError ∧
    tryCalculatePaymentTypeAmounts nullItemReceipts = .error .typeError ∧
    tryBuildReceiptJournalLines nullItemReceipts "Parramatta" = .error .typeError ∧
    tryBuildReceiptJournalLines unconvertibleAmountReceipts "Parramatta"
      = .error .typeError ∧
    tryBuildReceiptJournalLines unconvertibleCodeReceipts "Parramatta"
      = .error .typeError := by
  decide!

/-- C15 (amended): for fetched invoice and receipt arrays in which no record and no element
of an item array is `null` and no property of an item is an object or array without a
primitive value, the functions `calculateStockTypeAmounts`, `calculatePaymentTypeAmounts`,
`buildJournalLines` and `buildReceiptJournalLines` return a value and throw no exception:
the value is the one computed by the functions without exceptions on the same records. This
includes records with a missing or non-array item list, which are passed over, items with
missing or unparseable properties and unknown category ids or payment codes;
`buildJournalLines` returns a value on every map. -/
theorem no_exceptions_on_readable_input (invoices : List (Option FetchedInvoice))
    (receipts : List (Option FetchedReceipt)) (branchIdentifier branchName : String)
    (hi : invoicesReadable invoices = true) (hr : receiptsReadable receipts = true) :
    (∃ objs : List Invoice, invoices = fetchedInvoices objs ∧
      tryCalculateStockTypeAmounts invoices branchIdentifier
        = .ok (calculateStockTypeAmounts objs branchIdentifier) ∧
      tryBuildJournalLines (calculateStockTypeAmounts objs branchIdentifier) branchName
        = .ok (buildJournalLines (calculateStockTypeAmounts objs branchIdentifier)
            branchName)) ∧
    (∃ objs : List Receipt, receipts = fetchedReceipts objs ∧
      tryCalculatePaymentTypeAmounts receipts = .ok (calculatePaymentTypeAmounts objs) ∧
      tryBuildReceiptJournalLines receipts branchName
        = .ok (buildReceiptJournalLines objs branchName)) ∧
    (∀ m : JsObject ℚ StockNet,
      tryBuildJournalLines m branchName = .ok (buildJournalLines m branchName)) ∧
    (∀ (m : JsObject ℚ StockBucket) (invoice : Invoice),
      (invoiceItems invoice).isArray = false → addInvoice m invoice = m) ∧
    (∀ (m : JsObject String PaymentBucket) (receipt : Receipt),
      (receiptItems receipt).isArray = false → addReceipt m receipt = m) := by
  obtain ⟨invs, rfl⟩ := fetchedInvoices_of_readable invoices hi
  obtain ⟨recs, rfl⟩ := fetchedReceipts_of_readable receipts hr
  exact ⟨⟨invs, rfl, tryCalculateStockTypeAmounts_fetched invs branchIdentifier,
      tryBuildJournalLines_eq _ branchName⟩,
    ⟨recs, rfl, tryCalculatePaymentTypeAmounts_fetched recs,
      tryBuildReceiptJournalLines_fetched recs branchName⟩,
    fun m => tryBuildJournalLines_eq m branchName,
    addInvoice_of_not_array, addReceipt_of_not_array⟩

theorem no_exceptions_on_readable_input_witness :
    invoicesReadable malformedInvoices = true ∧ receiptsReadable malformedReceipts = true ∧
    (∃ objs : List Invoice, malformedInvoices = fetchedInvoices objs ∧
      tryCalculateStockTypeAmounts malformedInvoices "PA1"
        = .ok (calculateStockTypeAmounts objs "PA1") ∧
      tryBuildJournalLines (calculateStockTypeAmounts objs "PA1") "Parramatta"
        = .ok (buildJournalLines (calculateStockTypeAmounts objs "PA1") "Parramatta")) ∧
    (∃ objs : List Receipt, malformedReceipts = fetchedReceipts objs ∧
      tryCalculatePaymentTypeAmounts malformedReceipts
        = .ok (calculatePaymentTypeAmounts objs) ∧
      tryBuildReceiptJournalLines malformedReceipts "Parramatta"
        = .ok (buildReceiptJournalLines objs "Parramatta")) :=
  ⟨by decide!, by decide!,
    (no_exceptions_on_readable_input malformedInvoices malformedReceipts "PA1" "Parramatta"
      (by decide!) (by decide!)).1,
    (no_exceptions_on_readable_input malformedInvoices malformedReceipts "PA1" "Parramatta"
      (by decide!) (by decide!)).2.1⟩

/-! ## Sign independence -/

theorem keysOf_negateNets (m : JsObject ℚ StockNet) : keysOf (negateNets m) = keysOf m := by
  unfold keysOf negateNets
  rw [List.map_map]
  rfl

theorem sortedStockTypeIds_negateNets (m : JsObject ℚ StockNet) :
    sortedStockTypeIds (negateNets m) = sortedStockTypeIds m := by
  have h := keysOf_negateNets m
  unfold keysOf at h
  unfold sortedStockTypeIds objectKeys
  simp only [h]

theorem getProp_negateNets (m : JsObject ℚ StockNet) (k : ℚ) :
    getProp (negateNets m) k
      = (getProp m k).map fun a => (⟨-a.netTotal, -a.netGst⟩ : StockNet) := by
  induction m with
  | nil => rfl
  | cons e m ih =>
    obtain ⟨k1, v1⟩ := e
    have hc : negateNets ((k1, v1) :: m) = (k1, ⟨-v1.netTotal, -v1.netGst⟩) :: negateNets m :=
      rfl
    rw [hc]
    by_cases h : k1 = k
    · simp only [getProp, if_pos h, Option.map_some']
    · simp only [getProp, if_neg h, ih]

theorem contentLine_neg (d a t : String) (x : ℚ) (bn : String) :
    contentLine d a t (-x) bn = contentLine d a t x bn := by
  unfold contentLine
  rw [abs_neg]

theorem gstOnIncomeLine?_negateNets (m : JsObject ℚ StockNet) (bn : String) (k : ℚ) :
    gstOnIncomeLine? (negateNets m) bn k = gstOnIncomeLine? m bn k := by
  unfold gstOnIncomeLine?
  rw [getProp_negateNets]
  cases getProp m k with
  | none => rfl
  | some a =>
    simp only [Option.map_some']
    cases getStockTypeInfo (parseIntKey k) with
    | none => rfl
    | some info =>
      simp only [neg_mul, abs_neg, contentLine_neg]

theorem gstFreeIncomeLine?_negateNets (m : JsObject ℚ StockNet) (bn : String) (k : ℚ) :
    gstFreeIncomeLine? (negateNets m) bn k = gstFreeIncomeLine? m bn k := by
  unfold gstFreeIncomeLine?
  rw [getProp_negateNets]
  cases getProp m k with
  | none => rfl
  | some a =>
    simp only [Option.map_some']
    cases getStockTypeInfo (parseIntKey k) with
    | none => rfl
    | some info =>
      have e : -a.netTotal - -a.netGst * 11 = -(a.netTotal - a.netGst * 11) := by ring
      simp only [e, abs_neg, contentLine_neg]

theorem buildJournalLines_negateNets (m : JsObject ℚ StockNet) (bn : String) :
    buildJournalLines (negateNets m) bn = buildJournalLines m bn := by
  have h1 : gstOnIncomeLine? (negateNets m) bn = gstOnIncomeLine? m bn :=
    funext (gstOnIncomeLine?_negateNets m bn)
  have h2 : gstFreeIncomeLine? (negateNets m) bn = gstFreeIncomeLine? m bn :=
    funext (gstFreeIncomeLine?_negateNets m bn)
  rw [buildJournalLines_eq, buildJournalLines_eq, sortedStockTypeIds_negateNets, h1, h2]

theorem truthy_negate (v : JsVal) : v.negate.truthy = v.truthy := by
  cases v <;> simp [JsVal.negate, JsVal.truthy]

theorem jsOr_negate (x y : JsVal) :
    jsOr JsVal.truthy x.negate y.negate = (jsOr JsVal.truthy x y).negate := by
  unfold jsOr
  rw [truthy_negate]
  split <;> rfl

theorem parseFloat_negate (v : JsVal) :
    parseFloat v.negate = (parseFloat v).map fun q => -q := by
  cases v <;> rfl

theorem amountArg_negate (item : ReceiptItem) :
    amountArg (negateReceiptItem item) = (amountArg item).negate := by
  have h0 : (JsVal.num 0) = (JsVal.num 0).negate := by simp [JsVal.negate]
  unfold amountArg negateReceiptItem
  simp only [jsOr_negate]
  conv_lhs => rw [h0]
  rw [jsOr_negate]

theorem paymentTypeCodeOf_negate (item : ReceiptItem) :
    paymentTypeCodeOf (negateReceiptItem item) = paymentTypeCodeOf item := rfl

theorem receiptItemSkipped_negate (item : ReceiptItem) :
    receiptItemSkipped (negateReceiptItem item) = receiptItemSkipped item := by
  unfold receiptItemSkipped
  rw [paymentTypeCodeOf_negate, amountArg_negate, parseFloat_negate]
  cases parseFloat (amountArg item) <;> rfl

theorem receiptItemList_negate (receipt : Receipt) :
    receiptItemList (negateReceipt receipt)
      = (receiptItemList receipt).map negateReceiptItem := by
  have h : receiptItems (negateReceipt receipt)
      = (receiptItems receipt).mapElems negateReceiptItem := by
    unfold receiptItems negateReceipt
    simp only [jsOr_mapElems]
    exact jsOr_mapElems negateReceiptItem _ (.array [])
  unfold receiptItemList
  rw [h]
  cases receiptItems receipt <;> rfl

theorem allReceiptItems_negate (receipts : List Receipt) :
    allReceiptItems (receipts.map negateReceipt)
      = (allReceiptItems receipts).map negateReceiptItem := by
  unfold allReceiptItems
  induction receipts with
  | nil => rfl
  | cons receipt receipts ih =>
    simp only [List.map_cons, List.flatMap_cons, List.map_append, ih, receiptItemList_negate]

theorem codeItems_negate (receipts : List Receipt) (code : String) :
    codeItems (receipts.map negateReceipt) code
      = (codeItems receipts code).map negateReceiptItem := by
  unfold codeItems
  rw [allReceiptItems_negate, List.filter_map]
  congr 2
  funext item
  simp only [Function.comp, receiptItemSkipped_negate, paymentTypeCodeOf_negate]

theorem signedAmount_negate (receipts : List Receipt) (code : String) :
    signedAmount (receipts.map negateReceipt) code = -signedAmount receipts code := by
  unfold signedAmount
  rw [codeItems_negate]
  induction codeItems receipts code with
  | nil => simp
  | cons item items ih =>
    rw [List.map_cons, List.filterMap_cons, List.filterMap_cons, amountArg_negate,
      parseFloat_negate]
    cases parseFloat (amountArg item) with
    | none => exact ih
    | some a =>
      simp only [Option.map_some', List.sum_cons, ih]
      ring

theorem getProp_calculatePaymentTypeAmounts_negate (receipts : List Receipt) (code : String) :
    getProp (calculatePaymentTypeAmounts (receipts.map negateReceipt)) code
      = (getProp (calculatePaymentTypeAmounts receipts) code).map fun q => -q := by
  have hne : codeItems (receipts.map negateReceipt) code ≠ [] ↔ codeItems receipts code ≠ [] := by
    rw [codeItems_negate]
    simp
  rw [getProp_calculatePaymentTypeAmounts, getProp_calculatePaymentTypeAmounts,
    signedAmount_negate, abs_neg]
  by_cases h : code ∉ objectPrototypeKeys ∧ codeItems receipts code ≠ []
      ∧ |signedAmount receipts code| > 1 / 100
  · rw [if_pos h, if_pos ⟨h.1, hne.mpr h.2.1, h.2.2⟩]
    rfl
  · rw [if_neg h, if_neg (fun h2 => h ⟨h2.1, hne.mp h2.2.1, h2.2.2⟩)]
    rfl

theorem sortedPaymentCodes_negate (receipts : List Receipt) :
    sortedPaymentCodes (calculatePaymentTypeAmounts (receipts.map negateReceipt))
      = sortedPaymentCodes (calculatePaymentTypeAmounts receipts) := by
  unfold sortedPaymentCodes
  rw [objectKeys_calculatePaymentTypeAmounts, objectKeys_calculatePaymentTypeAmounts]
  apply insertionSort_defaultSortLE_perm
  rw [List.perm_ext_iff_of_nodup (nodup_keysOf_calculatePaymentTypeAmounts _)
    (nodup_keysOf_calculatePaymentTypeAmounts _)]
  intro k
  rw [← getProp_isSome_iff, ← getProp_isSome_iff, getProp_calculatePaymentTypeAmounts_negate]
  cases getProp (calculatePaymentTypeAmounts receipts) k <;> rfl

theorem paymentLine?_negate (receipts : List Receipt) (bn : String) (code : String) :
    paymentLine? (calculatePaymentTypeAmounts (receipts.map negateReceipt)) bn code
      = paymentLine? (calculatePaymentTypeAmounts receipts) bn code := by
  unfold paymentLine?
  rw [getProp_calculatePaymentTypeAmounts_negate]
  cases getProp (calculatePaymentTypeAmounts receipts) code with
  | none => rfl
  | some a =>
    simp only [Option.map_some']
    cases getPaymentTypeInfo code with
    | none => rfl
    | some info =>
      simp only [abs_neg, contentLine_neg]

/-- C16: the journal lines do not depend on the sign of the net amounts. Negating `netTotal`
and `netGst` of every category of a map leaves `buildJournalLines` unchanged, and negating
the amount of every receipt item leaves `buildReceiptJournalLines` unchanged; a refund of
220 with GST 20 in category 4 gives the credit line of -220 and the clearing line of 220
that the sale gives, and a cash refund of 50 the credit line of -50 and the clearing line of
50. -/
theorem sign_independence :
    (∀ (stockTypeAmounts : JsObject ℚ StockNet) (branchName : String),
      buildJournalLines (negateNets stockTypeAmounts) branchName
        = buildJournalLines stockTypeAmounts branchName) ∧
    (∀ (receipts : List Receipt) (branchName : String),
      buildReceiptJournalLines (receipts.map negateReceipt) branchName
        = buildReceiptJournalLines receipts branchName) ∧
    buildJournalLines [(4, ⟨-220, -20⟩)] "Parramatta"
      = [ { Description := "Spectacle Lens", LineAmount := -220, AccountCode := "40004",
            TaxType := "OUTPUT", Tracking := [⟨"Store", "Parramatta"⟩] },
          { Description := "POS Clearing", LineAmount := 220, AccountCode := "18011",
            TaxType := "NONE", Tracking := [⟨"Store", "Parramatta"⟩] } ] ∧
    buildReceiptJournalLines
        [ { RECEIPT_ITEMS := .array [ { PAYMENT_TYPE_CODE := some "CAS", AMOUNT := .num (-50) } ] } ]
        "Parramatta"
      = [ { Description := "Cash", LineAmount := -50, AccountCode := "18000",
            TaxType := "NONE", Tracking := [⟨"Store", "Parramatta"⟩] },
          { Description := "POS Clearing", LineAmount := 50, AccountCode := "18011",
            TaxType := "NONE", Tracking := [⟨"Store", "Parramatta"⟩] } ] := by
  refine ⟨buildJournalLines_negateNets, ?_, by decide!, by decide!⟩
  intro receipts bn
  have h : paymentLine? (calculatePaymentTypeAmounts (receipts.map negateReceipt)) bn
      = paymentLine? (calculatePaymentTypeAmounts receipts) bn :=
    funext (paymentLine?_negate receipts bn)
  unfold buildReceiptJournalLines
  rw [receiptLinesOf_eq, receiptLinesOf_eq, sortedPaymentCodes_negate, h]

/-! ## Conservation of the taxable and exempt split -/

theorem clearingSum_append (xs ys : List JournalLine) :
    clearingSum (xs ++ ys) = clearingSum xs + clearingSum ys := by
  unfold clearingSum
  rw [List.filter_append, lineSum_append]

theorem stockType_description_ne :
    ∀ st ∈ STOCK_TYPES, st.description ≠ "POS Clearing" := by
  decide

theorem clearingSum_taxableIncomeLines (m : JsObject ℚ StockNet) (bn : String) :
    clearingSum (taxableIncomeLines m bn) = 0 := by
  unfold clearingSum
  have h : (taxableIncomeLines m bn).filter
      (fun l => decide (l.Description = "POS Clearing")) = [] := by
    rw [List.filter_eq_nil_iff]
    intro l hl
    unfold taxableIncomeLines at hl
    obtain ⟨st, hmem, hst⟩ := List.mem_filterMap.mp hl
    cases hg : getProp m (st.id : ℚ) with
    | none => simp [hg] at hst
    | some amounts =>
      simp only [hg] at hst
      split_ifs at hst
      cases hst
      simpa using stockType_description_ne st hmem
  rw [h, lineSum_nil]

theorem clearingSum_exemptIncomeLines (m : JsObject ℚ StockNet) (bn : String) :
    clearingSum (exemptIncomeLines m bn) = 0 := by
  unfold clearingSum
  have h : (exemptIncomeLines m bn).filter
      (fun l => decide (l.Description = "POS Clearing")) = [] := by
    rw [List.filter_eq_nil_iff]
    intro l hl
    unfold exemptIncomeLines at hl
    obtain ⟨st, hmem, hst⟩ := List.mem_filterMap.mp hl
    cases hg : getProp m (st.id : ℚ) with
    | none => simp [hg] at hst
    | some amounts =>
      simp only [hg] at hst
      split_ifs at hst
      cases hst
      simpa using stockType_description_ne st hmem
  rw [h, lineSum_nil]

theorem clearingSum_taxableIncomeClearing (m : JsObject ℚ StockNet) (bn : String)
    (h : taxableIncomeTotal m = 0 ∨ taxableIncomeTotal m > 1 / 100) :
    clearingSum (taxableIncomeClearing m bn) = taxableIncomeTotal m := by
  unfold clearingSum taxableIncomeClearing
  by_cases ht : taxableIncomeTotal m > 1 / 100
  · rw [if_pos ht]
    simp [lineSum]
  · rw [if_neg ht]
    rcases h with h0 | h1
    · rw [h0]; rfl
    · exact absurd h1 ht

theorem clearingSum_exemptIncomeClearing (m : JsObject ℚ StockNet) (bn : String)
    (h : exemptIncomeTotal m = 0 ∨ exemptIncomeTotal m > 1 / 100) :
    clearingSum (exemptIncomeClearing m bn) = exemptIncomeTotal m := by
  unfold clearingSum exemptIncomeClearing
  by_cases ht : exemptIncomeTotal m > 1 / 100
  · rw [if_pos ht]
    simp [lineSum]
  · rw [if_neg ht]
    rcases h with h0 | h1
    · rw [h0]; rfl
    · exact absurd h1 ht

theorem sum_zero_or_above (l : List ℚ) (h : ∀ x ∈ l, x = 0 ∨ x > 1 / 100) :
    l.sum = 0 ∨ l.sum > 1 / 100 := by
  induction l with
  | nil => exact Or.inl rfl
  | cons x l ih =>
    rw [List.sum_cons]
    rcases ih (fun y hy => h y (List.mem_cons_of_mem x hy)) with h1 | h1 <;>
      rcases h x (List.mem_cons_self x l) with h2 | h2
    · left; rw [h1, h2]; norm_num
    · right; rw [h1]; linarith
    · right; rw [h2]; linarith
    · right; linarith

theorem abs_zero_or_above {x : ℚ} (h : x = 0 ∨ |x| > 1 / 100) : |x| = 0 ∨ |x| > 1 / 100 := by
  rcases h with h | h
  · left; rw [h, abs_zero]
  · exact Or.inr h

theorem taxableIncomeTotal_of_threshold (m : JsObject ℚ StockNet)
    (hthr : ∀ a ∈ knownNets m, 11 * a.netGst = 0 ∨ |11 * a.netGst| > 1 / 100) :
    taxableIncomeTotal m = ((knownNets m).map fun a => |11 * a.netGst|).sum := by
  unfold knownNets at hthr ⊢
  unfold taxableIncomeTotal
  revert hthr
  induction STOCK_TYPES with
  | nil => intro _; rfl
  | cons st l ih =>
    intro hthr
    cases hg : getProp m (st.id : ℚ) with
    | none =>
      simp only [List.filterMap_cons, hg] at hthr ⊢
      exact ih hthr
    | some a =>
      simp only [List.filterMap_cons, hg] at hthr ⊢
      have ih2 := ih (fun b hb => hthr b (List.mem_cons_of_mem a hb))
      by_cases ht : |11 * a.netGst| > 1 / 100
      · simp only [if_pos ht, List.sum_cons, List.map_cons, ih2]
      · simp only [if_neg ht, List.sum_cons, List.map_cons, ih2]
        rcases hthr a (List.mem_cons_self a _) with h0 | h1
        · rw [h0, abs_zero, zero_add]
        · exact absurd h1 ht

theorem exemptIncomeTotal_of_threshold (m : JsObject ℚ StockNet)
    (hthr : ∀ a ∈ knownNets m,
      a.netTotal - 11 * a.netGst = 0 ∨ |a.netTotal - 11 * a.netGst| > 1 / 100) :
    exemptIncomeTotal m = ((knownNets m).map fun a => |a.netTotal - 11 * a.netGst|).sum := by
  unfold knownNets at hthr ⊢
  unfold exemptIncomeTotal
  revert hthr
  induction STOCK_TYPES with
  | nil => intro _; rfl
  | cons st l ih =>
    intro hthr
    cases hg : getProp m (st.id : ℚ) with
    | none =>
      simp only [List.filterMap_cons, hg] at hthr ⊢
      exact ih hthr
    | some a =>
      simp only [List.filterMap_cons, hg] at hthr ⊢
      have ih2 := ih (fun b hb => hthr b (List.mem_cons_of_mem a hb))
      by_cases ht : |a.netTotal - 11 * a.netGst| > 1 / 100
      · simp only [if_pos ht, List.sum_cons, List.map_cons, ih2]
      · simp only [if_neg ht, List.sum_cons, List.map_cons, ih2]
        rcases hthr a (List.mem_cons_self a _) with h0 | h1
        · rw [h0, abs_zero, zero_add]
        · exact absurd h1 ht

theorem sum_map_add {α : Type} (f g : α → ℚ) (l : List α) :
    (l.map fun a => f a + g a).sum = (l.map f).sum + (l.map g).sum := by
  induction l with
  | nil => simp
  | cons a l ih =>
    simp only [List.map_cons, List.sum_cons, ih]
    ring

/-- The sum of the clearing amounts of `buildJournalLines` on a map with integer category
identifiers of magnitude below `1e21` in which the two income amounts of every category of
`STOCK_TYPES` are `0` or above the threshold in absolute value. -/
theorem clearingSum_buildJournalLines (m : JsObject ℚ StockNet) (bn : String)
    (hnodup : (keysOf m).Nodup) (hint : ∀ k ∈ keysOf m, plainInteger k)
    (hthr : ∀ a ∈ knownNets m,
      (11 * a.netGst = 0 ∨ |11 * a.netGst| > 1 / 100) ∧
      (a.netTotal - 11 * a.netGst = 0 ∨ |a.netTotal - 11 * a.netGst| > 1 / 100)) :
    clearingSum (buildJournalLines m bn)
      = ((knownNets m).map fun a => |11 * a.netGst| + |a.netTotal - 11 * a.netGst|).sum := by
  have e1 := taxableIncomeTotal_of_threshold m (fun a ha => (hthr a ha).1)
  have e2 := exemptIncomeTotal_of_threshold m (fun a ha => (hthr a ha).2)
  have z1 : taxableIncomeTotal m = 0 ∨ taxableIncomeTotal m > 1 / 100 := by
    rw [e1]
    apply sum_zero_or_above
    intro x hx
    obtain ⟨a, ha, rfl⟩ := List.mem_map.mp hx
    exact abs_zero_or_above (hthr a ha).1
  have z2 : exemptIncomeTotal m = 0 ∨ exemptIncomeTotal m > 1 / 100 := by
    rw [e2]
    apply sum_zero_or_above
    intro x hx
    obtain ⟨a, ha, rfl⟩ := List.mem_map.mp hx
    exact abs_zero_or_above (hthr a ha).2
  rw [buildJournalLines_spec m bn hnodup hint, clearingSum_append, clearingSum_append,
    clearingSum_append, clearingSum_taxableIncomeLines, clearingSum_exemptIncomeLines,
    clearingSum_taxableIncomeClearing m bn z1, clearingSum_exemptIncomeClearing m bn z2,
    e1, e2, sum_map_add]
  ring

/-- C17 as stated fails: in the map `{ '5': { netTotal: 100, netGst: 0 }, '4.5': { netTotal:
220, netGst: 20 } }` the only category of `STOCK_TYPES` is 5, which satisfies the sign and
threshold preconditions; the sum of `netTotal` over the categories of `STOCK_TYPES` is 100,
and the two clearing lines of `buildJournalLines` sum to 320, because the key `4.5` is read
as category 4. The same holds with the integer key `4e21` in place of `4.5`, whose key
`4e+21` is read as category 4. -/
theorem split_conservation_counterexample :
    knownNets fractionalIdAmounts = [⟨100, 0⟩] ∧
    (∀ a ∈ knownNets fractionalIdAmounts,
      (0 ≤ 11 * a.netGst ∧ 11 * a.netGst ≤ a.netTotal) ∧
      (11 * a.netGst = 0 ∨ 11 * a.netGst > 1 / 100) ∧
      (a.netTotal - 11 * a.netGst = 0 ∨ a.netTotal - 11 * a.netGst > 1 / 100)) ∧
    ((knownNets fractionalIdAmounts).map fun a => a.netTotal).sum = 100 ∧
    clearingSum (buildJournalLines fractionalIdAmounts "Parramatta") = 320 ∧
    (∀ k ∈ keysOf exponentIdSplitAmounts, k.den = 1) ∧
    knownNets exponentIdSplitAmounts = [⟨100, 0⟩] ∧
    clearingSum (buildJournalLines exponentIdSplitAmounts "Parramatta") = 320 := by
  decide!

/-- C17 (amended): for every map of net amounts whose keys are distinct integer category
identifiers of magnitude below `1e21` and in which, for every category of `STOCK_TYPES`, each of `11 * netGst` and
`netTotal - 11 * netGst` is `0` or exceeds 0.01 in absolute value, the amounts of the two
`POS Clearing` lines of `buildJournalLines` (an absent line counting as 0) sum to the sum of
`abs(11 * netGst) + abs(netTotal - 11 * netGst)` over the categories of `STOCK_TYPES`; each
term is at least `abs(netTotal)`; and when moreover `0 <= 11 * netGst <= netTotal` for every
category of `STOCK_TYPES`, the clearing amounts sum to the sum of `netTotal` over these
categories. -/
theorem split_conservation (stockTypeAmounts : JsObject ℚ StockNet) (branchName : String)
    (hnodup : (keysOf stockTypeAmounts).Nodup)
    (hint : ∀ k ∈ keysOf stockTypeAmounts, plainInteger k)
    (hthr : ∀ a ∈ knownNets stockTypeAmounts,
      (11 * a.netGst = 0 ∨ |11 * a.netGst| > 1 / 100) ∧
      (a.netTotal - 11 * a.netGst = 0 ∨ |a.netTotal - 11 * a.netGst| > 1 / 100)) :
    clearingSum (buildJournalLines stockTypeAmounts branchName)
      = ((knownNets stockTypeAmounts).map fun a =>
          |11 * a.netGst| + |a.netTotal - 11 * a.netGst|).sum ∧
    (∀ a : StockNet, |a.netTotal| ≤ |11 * a.netGst| + |a.netTotal - 11 * a.netGst|) ∧
    ((∀ a ∈ knownNets stockTypeAmounts, 0 ≤ 11 * a.netGst ∧ 11 * a.netGst ≤ a.netTotal) →
      clearingSum (buildJournalLines stockTypeAmounts branchName)
        = ((knownNets stockTypeAmounts).map fun a => a.netTotal).sum) := by
  have hsum := clearingSum_buildJournalLines stockTypeAmounts branchName hnodup hint hthr
  refine ⟨hsum, ?_, ?_⟩
  · intro a
    have h := abs_add (11 * a.netGst) (a.netTotal - 11 * a.netGst)
    have e : 11 * a.netGst + (a.netTotal - 11 * a.netGst) = a.netTotal := by ring
    rw [e] at h
    exact h
  · intro hsign
    rw [hsum]
    congr 1
    apply List.map_congr_left
    intro a ha
    obtain ⟨h1, h2⟩ := hsign a ha
    rw [abs_of_nonneg h1, abs_of_nonneg (by linarith : (0 : ℚ) ≤ a.netTotal - 11 * a.netGst)]
    ring

theorem split_conservation_witness :
    clearingSum (buildJournalLines mixedAmounts "Parramatta")
        = ((knownNets mixedAmounts).map fun a => a.netTotal).sum ∧
      ((knownNets mixedAmounts).map fun a => a.netTotal).sum = 470 :=
  ⟨(split_conservation mixedAmounts "Parramatta" (by decide!) (by decide!) (by decide!)).2.2
      (by decide!),
    by decide!⟩

end XeroInvoices
